import Mathlib

/-!
# Smart Travel Planner: itinerary normalisation and route building

A shallow embedding of the client-side logic of the travel planner
(`src/frontend/src/...`) together with the properties its specification
states about it.

* `optimizeRoute`, `calculateDistance`: `pages/MapDisplay_enhanced.jsx`
* `getTripField`: `pages/SavedTrips.jsx` and `pages/MapDisplay.jsx`
* `totalEstimatedCost`, `extractContent`: `components/ai-travel/AIItineraryDisplay.jsx`
-/

namespace TravelPlanner

/-! ## Route builder (`MapDisplay_enhanced.jsx`)

The route code only ever compares distances with `<`, so the loops are
written over an arbitrary point type `P` and an arbitrary type `D` of
distances carrying a decidable `<`.  The haversine formula itself is given
further down over the real numbers. -/

section RouteDefs

variable {P D : Type} [LT D] [DecidableRel ((· < ·) : D → D → Prop)]

/-- The inner `for (let i = 1; i < remaining.length; i++)` loop of `optimizeRoute`.
The list argument holds `remaining[i], remaining[i+1], ...`; the result is the
final value of `nearestIndex`. -/
def forLoop (calculateDistance : P → P → D) (current : P) :
    List P → Nat → Nat → D → Nat
  | [], _, nearestIndex, _ => nearestIndex
  | p :: rest, i, nearestIndex, nearestDistance =>
    let distance := calculateDistance current p
    if distance < nearestDistance then
      forLoop calculateDistance current rest (i + 1) i distance
    else
      forLoop calculateDistance current rest (i + 1) nearestIndex nearestDistance

/-- One pass through the body of `while (remaining.length > 0)`: from the pair
`(optimizedRoute, remaining)` to the pair after `push` and `splice`.  `none`
stands for a run that would read a missing element. -/
def whileBody (calculateDistance : P → P → D) (optimizedRoute remaining : List P) :
    Option (List P × List P) :=
  match optimizedRoute.getLast?, remaining with
  | some current, r0 :: rest =>
    let nearestIndex := forLoop calculateDistance current rest 1 0 (calculateDistance current r0)
    match (r0 :: rest)[nearestIndex]? with
    | some p => some (optimizedRoute ++ [p], (r0 :: rest).eraseIdx nearestIndex)
    | none => none
  | _, _ => none

/-- The `while (remaining.length > 0)` loop.  The first argument bounds the
number of passes; `none` is returned when the bound is reached with stops
still remaining. -/
def whileLoop (calculateDistance : P → P → D) : Nat → List P → List P → Option (List P)
  | _, optimizedRoute, [] => some optimizedRoute
  | 0, _, _ :: _ => none
  | fuel + 1, optimizedRoute, r0 :: rest =>
    match whileBody calculateDistance optimizedRoute (r0 :: rest) with
    | some (optimizedRoute', remaining') =>
      whileLoop calculateDistance fuel optimizedRoute' remaining'
    | none => none

/-- The state `(optimizedRoute, remaining)` after `k` passes through the body of
the while loop. -/
def whileStates (calculateDistance : P → P → D) :
    Nat → List P × List P → Option (List P × List P)
  | 0, s => some s
  | k + 1, s =>
    match whileBody calculateDistance s.1 s.2 with
    | some s' => whileStates calculateDistance k s'
    | none => none

/-- The function `optimizeRoute(points)`; the result is the list handed to
`setRouteCoordinates`. -/
def optimizeRoute (calculateDistance : P → P → D) (points : List P) : Option (List P) :=
  if points.length ≤ 2 then
    some points
  else
    match points[0]? with
    | some p0 =>
      match whileLoop calculateDistance (points.drop 1).length [p0] (points.drop 1) with
      | some optimizedRoute => some (optimizedRoute ++ [p0])
      | none => none
    | none => none

end RouteDefs

/-- The stop `chosen` sits at index `i` of `remaining`, no stop of `remaining` is
nearer to `current` than it is, and every stop at an earlier index is strictly
farther away. -/
def IsFirstNearest {P D : Type} [LinearOrder D] (dist : P → P → D) (current : P)
    (remaining : List P) (i : Nat) (chosen : P) : Prop :=
  remaining[i]? = some chosen ∧
  (∀ q ∈ remaining, dist current chosen ≤ dist current q) ∧
  ∀ j q, j < i → remaining[j]? = some q → dist current chosen < dist current q

/-! ### The haversine distance

`calculateDistance` is written over the real numbers: `Math.sin`, `Math.cos`,
`Math.sqrt` and `Math.PI` are the real functions and constant, and
`Math.atan2 y x` is the argument of the complex number `x + y i`.  Rounding of
double-precision arithmetic is not part of this description. -/

/-- The two-argument arctangent `Math.atan2(y, x)`. -/
noncomputable def atan2 (y x : ℝ) : ℝ := Complex.arg ⟨x, y⟩

/-- The function `calculateDistance(point1, point2)`: a point is the pair
`[lat, lon]` in degrees, the result is in kilometres. -/
noncomputable def calculateDistance (point1 point2 : ℝ × ℝ) : ℝ :=
  let R : ℝ := 6371
  let dLat := (point2.1 - point1.1) * Real.pi / 180
  let dLon := (point2.2 - point1.2) * Real.pi / 180
  let a :=
    Real.sin (dLat / 2) * Real.sin (dLat / 2) +
    Real.cos (point1.1 * Real.pi / 180) * Real.cos (point2.1 * Real.pi / 180) *
    Real.sin (dLon / 2) * Real.sin (dLon / 2)
  let c := 2 * atan2 (Real.sqrt a) (Real.sqrt (1 - a))
  R * c

/-- The sum of the distances between consecutive points of a route. -/
def routeLength (dist : (ℝ × ℝ) → (ℝ × ℝ) → ℝ) : List (ℝ × ℝ) → ℝ
  | a :: b :: rest => dist a b + routeLength dist (b :: rest)
  | _ => 0

/-! ## JavaScript values

The payloads handled by the pages are parsed JSON, so a value is `null`, a
boolean, a number, a string, an array or an object; `undefined` is what reading
a missing property gives.  Numbers are rationals: parsed JSON holds neither
`NaN` nor an infinity. -/

/-- A JavaScript value as it occurs in a parsed JSON payload. -/
inductive JSVal where
  | undefined
  | null
  | bool (b : Bool)
  | num (n : ℚ)
  | str (s : String)
  | arr (items : List JSVal)
  | obj (fields : List (String × JSVal))

namespace JSVal

/-- The test `v === undefined`. -/
def isUndefined : JSVal → Bool
  | undefined => true
  | _ => false

/-- Truthiness, as used by `if (v)`, `!v`, `a && b` and `a || b`. -/
def truthy : JSVal → Bool
  | undefined => false
  | null => false
  | bool b => b
  | num n => decide (n ≠ 0)
  | str s => decide (s ≠ "")
  | arr _ => true
  | obj _ => true

/-- The value stored under `key` in the property list of an object, `undefined`
when there is none. -/
def ownProp (fields : List (String × JSVal)) (key : String) : JSVal :=
  match fields.lookup key with
  | some v => v
  | none => undefined

/-- The property read `v.key` (or `v[key]`) for a data key of the payload:
reading from `undefined` or `null` throws a `TypeError`, reading from an object
gives its property, and the other values have no such property. -/
def getProp (v : JSVal) (key : String) : Except String JSVal :=
  match v with
  | undefined => .error "TypeError"
  | null => .error "TypeError"
  | obj fields => .ok (ownProp fields key)
  | _ => .ok undefined

/-- The optional chaining read `v?.key`. -/
def optChain (v : JSVal) (key : String) : JSVal :=
  match v with
  | obj fields => ownProp fields key
  | _ => undefined

/-- The expression `a || b`. -/
def or (a b : JSVal) : JSVal := if a.truthy then a else b

/-- The comparison `v > 0`.  On a number it is the numeric comparison; on any
other value the outcome of the language's conversion to a number is given by
`coerceGt`. -/
def gtZero (coerceGt : JSVal → Bool) : JSVal → Bool
  | num n => decide (0 < n)
  | v => coerceGt v

/-- The chain `v?.k₁?.k₂ ...` of optional reads along a path of keys. -/
def optPath : JSVal → List String → JSVal
  | v, [] => v
  | v, k :: ks => optPath (optChain v k) ks

mutual
/-- Whether `key` names a property of the value or of a value nested in it, at
any depth. -/
def hasKey (key : String) : JSVal → Bool
  | arr items => hasKeyItems key items
  | obj fields => hasKeyFields key fields
  | _ => false
/-- The test `hasKey` on the items of an array. -/
def hasKeyItems (key : String) : List JSVal → Bool
  | [] => false
  | v :: vs => hasKey key v || hasKeyItems key vs
/-- The test `hasKey` on the properties of an object. -/
def hasKeyFields (key : String) : List (String × JSVal) → Bool
  | [] => false
  | (name, v) :: fs => name == key || hasKey key v || hasKeyFields key fs
end

end JSVal

/-! ## Field normaliser (`SavedTrips.jsx`, `MapDisplay.jsx`) -/

/-- The `for (const possibleField of fieldMapping[field])` loop of `getTripField`:
`some v` when the loop returns `v`, `none` when it runs to its end. -/
def firstDefined (trip : JSVal) : List String → Except String (Option JSVal)
  | [] => .ok none
  | possibleField :: rest =>
    match trip.getProp possibleField with
    | .error e => .error e
    | .ok v => if v.isUndefined then firstDefined trip rest else .ok (some v)

namespace SavedTrips

/-- The table `fieldMapping` of `getTripField` in `SavedTrips.jsx`, read at a
field name: `none` when the table has no entry of that name. -/
def fieldMapping (field : String) : Option (List String) :=
  if field = "startDate" then some ["start_date", "startDate"]
  else if field = "endDate" then some ["end_date", "endDate"]
  else if field = "budget" then some ["budget_per_person", "budget"]
  else if field = "createdAt" then some ["created_at", "createdAt"]
  else none

/-- The function `getTripField(trip, field)` of `SavedTrips.jsx`. -/
def getTripField (trip : JSVal) (field : String) : Except String JSVal :=
  match fieldMapping field with
  | some aliases =>
    match firstDefined trip aliases with
    | .error e => .error e
    | .ok (some v) => .ok v
    | .ok none => trip.getProp field
  | none => trip.getProp field

end SavedTrips

namespace MapDisplay

/-- The table `fieldMapping` of `getTripField` in `MapDisplay.jsx`. -/
def fieldMapping (field : String) : Option (List String) :=
  if field = "startDate" then some ["start_date", "startDate"]
  else if field = "endDate" then some ["end_date", "endDate"]
  else if field = "budget" then some ["budget_per_person", "budget"]
  else none

/-- The function `getTripField(trip, field)` of `MapDisplay.jsx`. -/
def getTripField (trip : JSVal) (field : String) : Except String JSVal :=
  if !trip.truthy then .ok JSVal.null
  else
    match fieldMapping field with
    | some aliases =>
      match firstDefined trip aliases with
      | .error e => .error e
      | .ok (some v) => .ok v
      | .ok none => trip.getProp field
    | none => trip.getProp field

end MapDisplay

/-! ## Content extraction and budget total (`AIItineraryDisplay.jsx`) -/

/-- The constants bound by the extraction at the head of the component's render. -/
structure Extracted where
  itineraryData : JSVal
  detailed_budget : JSVal
  itineraryContent : JSVal
  dailySchedule : JSVal
  overview : JSVal
  recommendations : JSVal
  images : JSVal

/-- The check made by `Object.keys(v)` and by a read of `v.length`: both throw a
`TypeError` on `undefined` and on `null`, and on nothing else. -/
def requireObject : JSVal → Except String Unit
  | .undefined => .error "TypeError"
  | .null => .error "TypeError"
  | _ => .ok ()

/-- The extraction `const itineraryData = itinerary || {}; ...` up to and
including the evaluation of the arguments of the debug `console.log`.  The
render returns before these lines when `itinerary` is falsy; the lines are
described here for every value of `itinerary`. -/
def extractContent (itinerary : JSVal) : Except String Extracted := do
  let itineraryData := itinerary.or (.obj [])
  let detailed_budget := itinerary.optChain "detailed_budget"
  let itineraryContent := (itineraryData.optChain "itinerary_content").or (.obj [])
  let dailySchedule := (← itineraryContent.getProp "daily_schedule").or (.arr [])
  let overview := (← itineraryContent.getProp "overview").or (.str "")
  let recommendations := (← itineraryContent.getProp "recommendations").or (.obj [])
  let images := (← itineraryContent.getProp "images").or (.arr [])
  requireObject itineraryContent
  requireObject dailySchedule
  requireObject overview
  requireObject recommendations
  return { itineraryData, detailed_budget, itineraryContent, dailySchedule, overview,
           recommendations, images }

/-- What the total-cost expression evaluates to: the call `formatCurrency(amount)`
on the amount it picked, or the text `'Calculating...'`. -/
inductive TotalDisplay where
  | formatCurrency (amount : JSVal)
  | calculating

/-- The expression under "Total Estimated Cost:", a function of the constants
`itineraryContent`, `itinerary` and `detailed_budget` of the component.  The
card that holds it is rendered only when `detailed_budget` is truthy. -/
def totalEstimatedCost (coerceGt : JSVal → Bool)
    (itineraryContent itinerary detailed_budget : JSVal) : Except String TotalDisplay := do
  let contentBudget := (← itineraryContent.getProp "budget_breakdown").optChain "total_estimates"
  let rootBudget := (← itinerary.getProp "budget_breakdown").optChain "total_estimates"
  let contentTotal ← itineraryContent.getProp "total_estimated_cost"
  if contentTotal.truthy && contentTotal.gtZero coerceGt then
    return .formatCurrency contentTotal
  else if (contentBudget.optChain "luxury_total").truthy then
    return .formatCurrency (← contentBudget.getProp "luxury_total")
  else if (contentBudget.optChain "budget_total").truthy then
    return .formatCurrency (← contentBudget.getProp "budget_total")
  else if (rootBudget.optChain "luxury_total").truthy then
    return .formatCurrency (← rootBudget.getProp "luxury_total")
  else if (rootBudget.optChain "budget_total").truthy then
    return .formatCurrency (← rootBudget.getProp "budget_total")
  else if (detailed_budget.optChain "total_estimated").truthy then
    return .formatCurrency (← detailed_budget.getProp "total_estimated")
  else
    return .calculating

/-! ### The budget precedence as the specification words it -/

/-- The values of the six budget sources, in the order of the specification. -/
def budgetSourceValues (itineraryContent itinerary detailed_budget : JSVal) : List JSVal :=
  [ itineraryContent.optPath ["total_estimated_cost"],
    itineraryContent.optPath ["budget_breakdown", "total_estimates", "luxury_total"],
    itineraryContent.optPath ["budget_breakdown", "total_estimates", "budget_total"],
    itinerary.optPath ["budget_breakdown", "total_estimates", "luxury_total"],
    itinerary.optPath ["budget_breakdown", "total_estimates", "budget_total"],
    detailed_budget.optPath ["total_estimated"] ]

/-- A value that is "defined and non-zero". -/
def definedNonZero : JSVal → Bool
  | .undefined => false
  | .num n => decide (n ≠ 0)
  | _ => true

/-- The display total when the first source that is defined and non-zero wins. -/
def firstDefinedNonZero : List JSVal → TotalDisplay
  | [] => .calculating
  | v :: rest => if definedNonZero v then .formatCurrency v else firstDefinedNonZero rest

/-- The six budget sources in order, each with the outcome of the test the code
applies to it: truthy and greater than zero for `total_estimated_cost`, truthy
for the other five. -/
def budgetCandidates (coerceGt : JSVal → Bool)
    (itineraryContent itinerary detailed_budget : JSVal) : List (JSVal × Bool) :=
  match budgetSourceValues itineraryContent itinerary detailed_budget with
  | v :: rest => (v, v.truthy && v.gtZero coerceGt) :: rest.map (fun w => (w, w.truthy))
  | [] => []

/-- The display total when the first accepted candidate wins. -/
def firstAccepted : List (JSVal × Bool) → TotalDisplay
  | [] => .calculating
  | (v, accepted) :: rest => if accepted then .formatCurrency v else firstAccepted rest

/-! ### Sample payloads -/

/-- An itinerary content whose total is zero and whose breakdown carries a
`budget_total` of 500 and no `luxury_total`. -/
def sampleContent : JSVal :=
  .obj [("total_estimated_cost", .num 0),
    ("budget_breakdown", .obj [("total_estimates", .obj [("budget_total", .num 500)])])]

/-- An itinerary holding `sampleContent`, a root breakdown with a `luxury_total`
of 900 and a detailed budget of 700. -/
def sampleItinerary : JSVal :=
  .obj [("itinerary_content", sampleContent),
    ("budget_breakdown", .obj [("total_estimates", .obj [("luxury_total", .num 900)])]),
    ("detailed_budget", .obj [("total_estimated", .num 700)])]

/-- An itinerary whose content has an overview and recommendations but no
daily schedule. -/
def overviewOnlyItinerary : JSVal :=
  .obj [("destination", .str "Rome"),
    ("itinerary_content", .obj [("overview", .str "Three days in Rome"),
      ("recommendations", .obj [("restaurants", .arr [.str "Roscioli: pasta"])])])]

/-- The structure `{overview, dailySchedule, recommendations, ...}` produced by the
extraction, as an object keyed by the names of its constants. -/
def Extracted.toJSVal (e : Extracted) : JSVal :=
  .obj [("itineraryData", e.itineraryData), ("detailed_budget", e.detailed_budget),
    ("itineraryContent", e.itineraryContent), ("dailySchedule", e.dailySchedule),
    ("overview", e.overview), ("recommendations", e.recommendations), ("images", e.images)]

/-- The unwrapped shape `{ daily_schedule: [...], recommendations: {...} }`. -/
def unwrappedItinerary : JSVal :=
  .obj [("daily_schedule", .arr [.obj [("day", .num 1), ("activities", .arr [])]]),
    ("recommendations", .obj [("restaurants", .arr [.str "Roscioli: pasta"])])]

/-- The same content nested under `itinerary_content`. -/
def wrappedItinerary : JSVal := .obj [("itinerary_content", unwrappedItinerary)]

/-! ## Geocoding (`MapDisplay_enhanced.jsx`, `ItineraryMap.jsx`) -/

/-- The test `s.includes(searchString)` on the characters of the two strings. -/
def includesChars : List Char → List Char → Bool
  | [], searchString => searchString.isPrefixOf []
  | c :: cs, searchString => searchString.isPrefixOf (c :: cs) || includesChars cs searchString

/-- The test `s.includes(searchString)`.  The search strings of the pages are
ASCII, for which a match on UTF-16 units is a match on characters. -/
def includes (s searchString : String) : Bool :=
  includesChars s.toList searchString.toList

/-- The function `toLowerCase` on a string of ASCII characters.  The functions
below take the lower-casing as an argument, so that what is proved of them does
not depend on how other characters are lower-cased. -/
def asciiToLower (s : String) : String := String.mk (s.toList.map Char.toLower)

/-- The entry `'default'` of the table `fallbacks`. -/
def fallbackDefault : ℚ × ℚ := (51.505, -0.09)

/-- The table `fallbacks` of `getFallbackCoordinates`, in the order in which
`for (const city in fallbacks)` visits its keys. -/
def fallbacks : List (String × (ℚ × ℚ)) :=
  [ ("paris", (48.8566, 2.3522)),
    ("london", (51.5074, -0.1278)),
    ("tokyo", (35.6762, 139.6503)),
    ("new york", (40.7128, -74.0060)),
    ("rome", (41.9028, 12.4964)),
    ("barcelona", (41.3851, 2.1734)),
    ("dubai", (25.2048, 55.2708)),
    ("sydney", (-33.8688, 151.2093)),
    ("istanbul", (41.0082, 28.9784)),
    ("bangkok", (13.7563, 100.5018)),
    ("san francisco", (37.7749, -122.4194)),
    ("los angeles", (34.0522, -118.2437)),
    ("miami", (25.7617, -80.1918)),
    ("default", fallbackDefault) ]

/-- The loop `for (const city in fallbacks) if (key.includes(city)) return fallbacks[city]`:
`some` of the returned coordinate, `none` when the loop runs to its end. -/
def forInFallbacks (key : String) : List (String × (ℚ × ℚ)) → Option (ℚ × ℚ)
  | [] => none
  | (city, coords) :: rest =>
    if includes key city then some coords else forInFallbacks key rest

/-- The function `getFallbackCoordinates(destination)` for a string `destination`. -/
def getFallbackCoordinates (toLowerCase : String → String) (destination : String) : ℚ × ℚ :=
  let key := toLowerCase destination
  match forInFallbacks key fallbacks with
  | some coords => coords
  | none => fallbackDefault

/-- A JavaScript number as returned by `parseFloat` or written as a literal. -/
inductive JSNum where
  | fin (q : ℚ)
  | nan
  | inf
  | negInf

/-- The outcome of the request to the geocoding service: `fetch` rejects, or it
gives a response with its `ok` flag and the value of `response.json()`, `none`
when that call rejects. -/
inductive FetchResult where
  | rejected
  | response (ok : Bool) (json : Option JSVal)

/-- The test `data.length > 0`, which throws on `undefined` and `null`. -/
def lengthGtZero (coerceGt : JSVal → Bool) : JSVal → Except String Bool
  | .undefined => .error "TypeError"
  | .null => .error "TypeError"
  | .arr items => .ok (decide (0 < items.length))
  | .str s => .ok (decide (s ≠ ""))
  | .obj fields =>
    match JSVal.ownProp fields "length" with
    | .undefined => .ok false
    | v => .ok (v.gtZero coerceGt)
  | _ => .ok false

/-- The element read `data[0]` on a value that is neither `undefined` nor `null`.
On a non-empty string the result is a one-unit string, of which only the fact
that it is a string is used. -/
def index0 : JSVal → JSVal
  | .arr items => items.headD .undefined
  | .obj fields => JSVal.ownProp fields "0"
  | .str s => if s = "" then .undefined else .str (s.take 1)
  | _ => .undefined

/-- The pair `[parseFloat(data[0].lat), parseFloat(data[0].lon)]`. -/
def parseCoords (parseFloat : JSVal → JSNum) (data : JSVal) : Except String (JSNum × JSNum) :=
  match (index0 data).getProp "lat" with
  | .error e => .error e
  | .ok lat =>
    match (index0 data).getProp "lon" with
    | .error e => .error e
    | .ok lon => .ok (parseFloat lat, parseFloat lon)

/-- A table coordinate as a pair of JavaScript numbers. -/
def toCoords (c : ℚ × ℚ) : JSNum × JSNum := (.fin c.1, .fin c.2)

/-- What a call of `geocodeDestination` leaves behind: the last value given to
`setDestinationCoords` (`none` when it was not called, the state then keeps its
`null`), and whether the call ends by rejecting. -/
structure GeocodeOutcome where
  destinationCoords : Option (JSNum × JSNum)
  rejected : Bool

/-- The `try` block of `geocodeDestination`: the value given to
`setDestinationCoords`, if any, and whether the block threw.  The call
`getNearbyAttractions(lat, lon, destination)` is the argument `nearby`. -/
def geocodeTry (toLowerCase : String → String) (parseFloat : JSVal → JSNum)
    (coerceGt : JSVal → Bool) (nearby : JSNum × JSNum → Except String Unit)
    (fetchResult : FetchResult) (destination : String) :
    Option (JSNum × JSNum) × Except String Unit :=
  match fetchResult with
  | .rejected => (none, .error "fetch")
  | .response ok json =>
    if ok then
      match json with
      | none => (none, .error "json")
      | some data =>
        match lengthGtZero coerceGt data with
        | .error e => (none, .error e)
        | .ok true =>
          match parseCoords parseFloat data with
          | .error e => (none, .error e)
          | .ok coords => (some coords, nearby coords)
        | .ok false =>
          let fallbackCoords := toCoords (getFallbackCoordinates toLowerCase destination)
          (some fallbackCoords, nearby fallbackCoords)
    else
      let fallbackCoords := toCoords (getFallbackCoordinates toLowerCase destination)
      (some fallbackCoords, nearby fallbackCoords)

/-- The function `geocodeDestination(destination)` of `MapDisplay_enhanced.jsx`
for a string `destination`, as far as the destination coordinate goes (the map
centre, the zoom and the loading flag are left out). -/
def geocodeDestination (toLowerCase : String → String) (parseFloat : JSVal → JSNum)
    (coerceGt : JSVal → Bool) (nearby : JSNum × JSNum → Except String Unit)
    (fetchResult : FetchResult) (destination : String) : GeocodeOutcome :=
  match geocodeTry toLowerCase parseFloat coerceGt nearby fetchResult destination with
  | (set, .ok _) => { destinationCoords := set, rejected := false }
  | (_, .error _) =>
    let fallbackCoords := toCoords (getFallbackCoordinates toLowerCase destination)
    match nearby fallbackCoords with
    | .ok _ => { destinationCoords := some fallbackCoords, rejected := false }
    | .error _ => { destinationCoords := some fallbackCoords, rejected := true }

/-- The lookup gives no match: the request fails, the response is not `ok`, its
body is not JSON, or the body is the empty array. -/
def FetchResult.noMatch : FetchResult → Bool
  | .rejected => true
  | .response false _ => true
  | .response true none => true
  | .response true (some (.arr [])) => true
  | _ => false

/-- The object `{ lat, lng }` returned by `getDestinationCoordinates`. -/
structure LatLng where
  lat : JSNum
  lng : JSNum

/-- The function `getDestinationCoordinates(destination)` of `ItineraryMap.jsx`;
the destination enters the request only. -/
def getDestinationCoordinates (parseFloat : JSVal → JSNum) (coerceGt : JSVal → Bool)
    (fetchResult : FetchResult) (_destination : String) : LatLng :=
  match fetchResult with
  | .rejected => { lat := .fin 20, lng := .fin 0 }
  | .response _ none => { lat := .fin 20, lng := .fin 0 }
  | .response _ (some data) =>
    if data.truthy then
      match lengthGtZero coerceGt data with
      | .ok true =>
        match parseCoords parseFloat data with
        | .ok coords => { lat := coords.1, lng := coords.2 }
        | .error _ => { lat := .fin 20, lng := .fin 0 }
      | _ => { lat := .fin 20, lng := .fin 0 }
    else { lat := .fin 20, lng := .fin 0 }

/-! ## Marker synthesis and day routes (`ItineraryMap.jsx`)

`loadMapData` is described from the point where `destCoords` is known.  The
coordinates are real numbers; `Math.random()` is the sequence `draws`, the
`k`-th call returning `draws k`, and the loops carry the number of calls made so
far. -/

/-- A marker object of `loadMapData`.  A field that the object literal does not
set is `undefined` (`none` for the two numbers, `false` for the flag). -/
structure Marker where
  id : String
  position : ℝ × ℝ
  title : JSVal
  location : JSVal
  description : JSVal
  cost : JSVal
  time : JSVal
  type : JSVal
  day : Option Nat
  activityNumber : Option Nat
  tips : JSVal
  duration : JSVal
  area : JSVal
  category : JSVal
  isRecommendation : Bool
  rating : JSVal
  bestTime : JSVal

/-- A route object `{ day, positions, color }` of `dayRoutes`. -/
structure DayRoute where
  day : Nat
  positions : List (ℝ × ℝ)
  color : String

/-- The function `getDayColor(dayIndex)`. -/
def getDayColor (dayIndex : Nat) : String :=
  let colors := ["#3B82F6", "#10B981", "#F59E0B", "#EF4444", "#8B5CF6", "#EC4899", "#06B6D4"]
  colors.getD (dayIndex % colors.length) ""

/-- The `markerData` built for a located activity: `random` is the value of the
call `Math.random()`, `n` is `day.activities.length`.  The activity has been
read from before, so its properties are read without a throw. -/
noncomputable def scheduleMarker (destCoords : ℝ × ℝ) (random : ℝ)
    (dayIndex activityIndex n : Nat) (activity : JSVal) : Marker :=
  let angle := ((activityIndex : ℝ) / (n : ℝ)) * 2 * Real.pi
  let radius := 0.02 + (random * 0.015)
  let lat := destCoords.1 + radius * Real.cos angle
  let lng := destCoords.2 + radius * Real.sin angle
  { id := "day-" ++ toString dayIndex ++ "-activity-" ++ toString activityIndex
    position := (lat, lng)
    title := activity.optChain "activity"
    location := activity.optChain "location"
    description := activity.optChain "description"
    cost := activity.optChain "estimated_cost"
    time := activity.optChain "time"
    type := (activity.optChain "type").or (.str "activity")
    day := some (dayIndex + 1)
    activityNumber := some (activityIndex + 1)
    tips := activity.optChain "tips"
    duration := activity.optChain "duration"
    area := .undefined
    category := .undefined
    isRecommendation := false
    rating := .undefined
    bestTime := .undefined }

/-- The loop `day.activities.forEach((activity, activityIndex) => ...)`.  The list
holds the activities from index `activityIndex` on; the state is
`(scheduleMarkers, dayMarkers, calls)`. -/
noncomputable def activitiesLoop (destCoords : ℝ × ℝ) (draws : Nat → ℝ) (dayIndex n : Nat) :
    List JSVal → Nat → List Marker × List Marker × Nat →
      Except String (List Marker × List Marker × Nat)
  | [], _, state => .ok state
  | activity :: rest, activityIndex, (scheduleMarkers, dayMarkers, calls) =>
    match activity.getProp "location" with
    | .error e => .error e
    | .ok location =>
      if location.truthy then
        let markerData := scheduleMarker destCoords (draws calls) dayIndex activityIndex n activity
        activitiesLoop destCoords draws dayIndex n rest (activityIndex + 1)
          (scheduleMarkers ++ [markerData], dayMarkers ++ [markerData], calls + 1)
      else
        activitiesLoop destCoords draws dayIndex n rest (activityIndex + 1)
          (scheduleMarkers, dayMarkers, calls)

/-- The loop `dailySchedule.forEach((day, dayIndex) => ...)`.  The list holds the
days from index `dayIndex` on; the state is `(scheduleMarkers, dayRoutes, calls)`. -/
noncomputable def daysLoop (destCoords : ℝ × ℝ) (draws : Nat → ℝ) :
    List JSVal → Nat → List Marker × List DayRoute × Nat →
      Except String (List Marker × List DayRoute × Nat)
  | [], _, state => .ok state
  | day :: rest, dayIndex, (scheduleMarkers, dayRoutes, calls) =>
    match day.getProp "activities" with
    | .error e => .error e
    | .ok (.arr activities) =>
      match activitiesLoop destCoords draws dayIndex activities.length activities 0
          (scheduleMarkers, [], calls) with
      | .error e => .error e
      | .ok (scheduleMarkers', dayMarkers, calls') =>
        if dayMarkers.length > 1 then
          daysLoop destCoords draws rest (dayIndex + 1)
            (scheduleMarkers',
              dayRoutes ++ [{ day := dayIndex + 1
                              positions := dayMarkers.map (fun m => m.position)
                              color := getDayColor dayIndex }],
              calls')
        else
          daysLoop destCoords draws rest (dayIndex + 1) (scheduleMarkers', dayRoutes, calls')
    | .ok _ => daysLoop destCoords draws rest (dayIndex + 1) (scheduleMarkers, dayRoutes, calls)

/-- The test `typeof item === 'object'`. -/
def typeofObject : JSVal → Bool
  | .null => true
  | .arr _ => true
  | .obj _ => true
  | _ => false

/-- The value of `markerType` that the chain of `category.includes(...)` tests
leaves behind. -/
def markerTypeOf (category : String) : String :=
  if includes category "restaurant" || includes category "cuisine" ||
      includes category "food" || includes category "dining" then "food"
  else if includes category "shopping" then "shopping"
  else if includes category "cultural" then "cultural"
  else if includes category "sightseeing" then "sightseeing"
  else if includes category "adventure" then "adventure"
  else "attraction"

/-- The list `s.split(sep)` for a one-character separator, on lists of characters. -/
def splitChars (sep : Char) : List Char → List (List Char)
  | [] => [[]]
  | c :: cs =>
    if c = sep then [] :: splitChars sep cs
    else
      match splitChars sep cs with
      | [] => [[c]]
      | first :: more => (c :: first) :: more

/-- The expression `item.split(':')[0]`. -/
def splitColonFirst (item : String) : JSVal :=
  match splitChars ':' item.toList with
  | first :: _ => .str (String.mk first)
  | [] => .undefined

/-- The body of `items.forEach((item, index) => ...)` for one item: the marker
pushed to `recMarkers`, if any.  `random` is the value of the call
`Math.random()` made when a marker is built, `n` is `items.length`. -/
noncomputable def recItem (destCoords : ℝ × ℝ) (random : ℝ) (category : String)
    (index n : Nat) (item : JSVal) : Except String (Option Marker) :=
  let markerType := markerTypeOf category
  let angle := ((index : ℝ) / (n : ℝ)) * 2 * Real.pi + Real.pi
  let radius := 0.025 + (random * 0.01)
  let lat := destCoords.1 + radius * Real.cos angle
  let lng := destCoords.2 + radius * Real.sin angle
  if typeofObject item then
    match item.getProp "name" with
    | .error e => .error e
    | .ok name =>
      if name.truthy then
        .ok (some
          { id := "rec-" ++ category ++ "-" ++ toString index
            position := (lat, lng)
            title := name
            location := .undefined
            description := (item.optChain "description").or (.str "")
            cost := .undefined
            time := .undefined
            type := (item.optChain "type").or (.str markerType)
            day := none
            activityNumber := none
            tips := .undefined
            duration := .undefined
            area := (item.optChain "area").or .null
            category := .str category
            isRecommendation := true
            rating := (item.optChain "rating").or .null
            bestTime := (item.optChain "bestTime").or .null })
      else .ok none
  else
    match item with
    | .str text =>
      .ok (some
        { id := "rec-" ++ category ++ "-" ++ toString index
          position := (lat, lng)
          title := splitColonFirst text
          location := .undefined
          description := .str text
          cost := .undefined
          time := .undefined
          type := .str markerType
          day := none
          activityNumber := none
          tips := .undefined
          duration := .undefined
          area := .undefined
          category := .str category
          isRecommendation := true
          rating := .undefined
          bestTime := .undefined })
    | _ => .ok none

/-- The loop `items.forEach((item, index) => ...)` of one category; the state is
`(recMarkers, calls)`. -/
noncomputable def recItemsLoop (destCoords : ℝ × ℝ) (draws : Nat → ℝ) (category : String)
    (n : Nat) : List JSVal → Nat → List Marker × Nat → Except String (List Marker × Nat)
  | [], _, state => .ok state
  | item :: rest, index, (recMarkers, calls) =>
    match recItem destCoords (draws calls) category index n item with
    | .error e => .error e
    | .ok (some marker) =>
      recItemsLoop destCoords draws category n rest (index + 1) (recMarkers ++ [marker], calls + 1)
    | .ok none => recItemsLoop destCoords draws category n rest (index + 1) (recMarkers, calls)

/-- The list `Object.entries(v)`; the property list of an object is taken in its
enumeration order. -/
def objectEntries : JSVal → Except String (List (String × JSVal))
  | .undefined => .error "TypeError"
  | .null => .error "TypeError"
  | .obj fields => .ok fields
  | .arr items => .ok (items.enum.map (fun p => (toString p.1, p.2)))
  | .str s => .ok (s.toList.enum.map (fun p => (toString p.1, .str (String.singleton p.2))))
  | _ => .ok []

/-- The loop `Object.entries(recommendations).forEach(([category, items]) => ...)`. -/
noncomputable def recLoop (destCoords : ℝ × ℝ) (draws : Nat → ℝ) :
    List (String × JSVal) → List Marker × Nat → Except String (List Marker × Nat)
  | [], state => .ok state
  | (category, items) :: rest, state =>
    match items with
    | .arr list =>
      match recItemsLoop destCoords draws category list.length list 0 state with
      | .error e => .error e
      | .ok state' => recLoop destCoords draws rest state'
    | _ => recLoop destCoords draws rest state

/-- The body of the `try` block of `loadMapData` after `destCoords` is known: the
values given to `setMarkers` and `setRoutes`, or the exception that the `catch`
receives (no marker and no route is set then).  An `undefined` property takes
its default, `[]` or `{}`. -/
noncomputable def loadMapData (destCoords : ℝ × ℝ) (draws : Nat → ℝ)
    (dailySchedule recommendations : JSVal) : Except String (List Marker × List DayRoute) :=
  let dailySchedule := if dailySchedule.isUndefined then .arr [] else dailySchedule
  let recommendations := if recommendations.isUndefined then .obj [] else recommendations
  match dailySchedule with
  | .arr days =>
    match daysLoop destCoords draws days 0 ([], [], 0) with
    | .error e => .error e
    | .ok (scheduleMarkers, dayRoutes, calls) =>
      match objectEntries recommendations with
      | .error e => .error e
      | .ok entries =>
        match recLoop destCoords draws entries ([], calls) with
        | .error e => .error e
        | .ok (recMarkers, _) => .ok (scheduleMarkers ++ recMarkers, dayRoutes)
  | _ => .error "TypeError"

/-! ### The schedule markers as the specification words them -/

/-- The activity list of a day: `day.activities` when that is an array, no
activity otherwise. -/
def dayActivities (day : JSVal) : List JSVal :=
  match day.optChain "activities" with
  | .arr activities => activities
  | _ => []

/-- The located activities of an activity list, each with its index in the
list, in the order of the list. -/
def locatedActivities (activities : List JSVal) : List (Nat × JSVal) :=
  activities.enum.filter (fun p => (p.2.optChain "location").truthy)

/-- The located activities of a schedule in schedule order, each as
`(dayIndex, activityIndex, activity)`. -/
def scheduledStops (days : List JSVal) : List (Nat × Nat × JSVal) :=
  days.enum.flatMap (fun d => (locatedActivities (dayActivities d.2)).map (fun a => (d.1, a.1, a.2)))

/-- The schedule is an array of day records whose activity lists hold activity
records: no day and no activity is `undefined` or `null`. -/
def wellFormedSchedule (days : List JSVal) : Prop :=
  ∀ day ∈ days, requireObject day = .ok () ∧
    ∀ activity ∈ dayActivities day, requireObject activity = .ok ()

/-- The markers that the activities loop adds, without the accumulators. -/
noncomputable def dayMarkersFrom (destCoords : ℝ × ℝ) (draws : Nat → ℝ) (dayIndex n : Nat) :
    List JSVal → Nat → Nat → List Marker
  | [], _, _ => []
  | activity :: rest, activityIndex, calls =>
    if (activity.optChain "location").truthy then
      scheduleMarker destCoords (draws calls) dayIndex activityIndex n activity ::
        dayMarkersFrom destCoords draws dayIndex n rest (activityIndex + 1) (calls + 1)
    else dayMarkersFrom destCoords draws dayIndex n rest (activityIndex + 1) calls

/-- The markers and routes that the days loop adds, without the accumulators. -/
noncomputable def scheduleFrom (destCoords : ℝ × ℝ) (draws : Nat → ℝ) :
    List JSVal → Nat → Nat → List Marker × List DayRoute
  | [], _, _ => ([], [])
  | day :: rest, dayIndex, calls =>
    let dayMarkers := dayMarkersFrom destCoords draws dayIndex (dayActivities day).length
      (dayActivities day) 0 calls
    let later := scheduleFrom destCoords draws rest (dayIndex + 1) (calls + dayMarkers.length)
    (dayMarkers ++ later.1,
      (if dayMarkers.length > 1 then
        [{ day := dayIndex + 1
           positions := dayMarkers.map (fun m => m.position)
           color := getDayColor dayIndex }]
      else []) ++ later.2)

/-- A schedule of two days: the first has four activities, of which the second
has an empty location; the second has one activity without a location. -/
def parisSchedule : List JSVal :=
  [ .obj [("day", .num 1), ("activities", .arr [
      .obj [("activity", .str "Louvre"), ("location", .str "Rue de Rivoli")],
      .obj [("activity", .str "Free time"), ("location", .str "")],
      .obj [("activity", .str "Lunch"), ("location", .str "Le Marais")],
      .obj [("activity", .str "Eiffel Tower"), ("location", .str "Champ de Mars")]])],
    .obj [("day", .num 2), ("activities", .arr [
      .obj [("activity", .str "Rest at the hotel")]])] ]

/-! ### The day filter of the itinerary map -/

/-- The code units of `String(n)` for a natural number `n`. -/
def numberToString (n : Nat) : List Char := Nat.toDigits 10 n

/-- The order of two strings by their code units, as the comparison of
`Array.prototype.sort()` without a comparator makes it. -/
def unitsLt : List Char → List Char → Bool
  | [], [] => false
  | [], _ :: _ => true
  | _ :: _, [] => false
  | a :: as, b :: bs =>
    if a.toNat < b.toNat then true
    else if b.toNat < a.toNat then false
    else unitsLt as bs

/-- The order in which `sort()` without a comparator leaves two numbers: `a`
stays before `b` unless `String(b)` comes before `String(a)`. -/
def defaultSortLe (a b : Nat) : Prop := unitsLt (numberToString b) (numberToString a) = false

instance defaultSortLeDecidable : DecidableRel defaultSortLe :=
  fun a b => inferInstanceAs (Decidable (unitsLt (numberToString b) (numberToString a) = false))

/-- The elements of `new Set(values)` in insertion order; `seen` holds the values
already in the set. -/
def newSet : List Nat → List Nat → List Nat
  | _, [] => []
  | seen, x :: xs => if x ∈ seen then newSet seen xs else x :: newSet (x :: seen) xs

/-- The constant `days` of `ItineraryMap`:
`[...new Set(markers.filter(m => m.day).map(m => m.day))].sort()`.  The sort is
stable, so for the order `defaultSortLe` its result is that of an insertion
sort. -/
def dayFilterDays (markers : List Marker) : List Nat :=
  (newSet [] (markers.filterMap (fun m =>
    match m.day with
    | some d => if d ≠ 0 then some d else none
    | none => none))).insertionSort defaultSortLe

/-- A schedule of ten days, each with one located activity. -/
def tenDaySchedule : List JSVal :=
  List.replicate 10 (.obj [("activities", .arr [
    .obj [("activity", .str "Walk"), ("location", .str "Old town")]])])

/-! ## Form validation (`AIItineraryGenerator.jsx`, `TripPlanForm.jsx`) -/

/-- The test `x <= 0` on a number. -/
def JSNum.leZero : JSNum → Bool
  | .fin q => decide (q ≤ 0)
  | .negInf => true
  | _ => false

/-- The comparison `v < 1`.  On a number it is the numeric comparison; on any
other value the outcome of the conversion to a number is given by `coerceLt`. -/
def JSVal.ltOne (coerceLt : JSVal → Bool) : JSVal → Bool
  | .num n => decide (n < 1)
  | v => coerceLt v

/-- The comparison `end <= start` of two `Date` objects: `none` is an invalid
date, whose time value is `NaN`. -/
def dateLe : Option Int → Option Int → Bool
  | some a, some b => decide (a ≤ b)
  | _, _ => false

namespace AIItineraryGenerator

/-- The state `formData` of the generator form.  The three text and date inputs
hold strings; the other fields hold what their inputs or the initial state put
there. -/
structure FormData where
  destination : String
  start_date : String
  end_date : String
  budget_usd : JSVal
  travel_style : JSVal
  group_size : JSVal
  interests : String
  special_requirements : String

/-- The object `newErrors`: a message for each field that has one, `none` for a
key that is not set. -/
structure FormErrors where
  destination : Option String
  start_date : Option String
  end_date : Option String
  budget_usd : Option String
  travel_style : Option String
  group_size : Option String

/-- The number `Object.keys(newErrors).length`. -/
def FormErrors.keyCount (e : FormErrors) : Nat :=
  [e.destination, e.start_date, e.end_date, e.budget_usd, e.travel_style,
    e.group_size].countP Option.isSome

/-- The statement `if (!formData.destination.trim()) newErrors.destination = ...`. -/
def checkDestination (trim : String → String) (formData : FormData) (newErrors : FormErrors) :
    FormErrors :=
  if trim formData.destination = "" then
    { newErrors with destination := some "Destination is required" }
  else newErrors

/-- The statement `if (!formData.start_date) newErrors.start_date = ...`. -/
def checkStartDate (formData : FormData) (newErrors : FormErrors) : FormErrors :=
  if formData.start_date = "" then
    { newErrors with start_date := some "Start date is required" }
  else newErrors

/-- The statement `if (!formData.end_date) newErrors.end_date = ...`. -/
def checkEndDate (formData : FormData) (newErrors : FormErrors) : FormErrors :=
  if formData.end_date = "" then
    { newErrors with end_date := some "End date is required" }
  else newErrors

/-- The statement `if (formData.start_date && formData.end_date) { ... }` that
compares the two dates. -/
def checkDateOrder (dateValue : String → Option Int) (formData : FormData)
    (newErrors : FormErrors) : FormErrors :=
  if formData.start_date ≠ "" ∧ formData.end_date ≠ "" then
    if dateLe (dateValue formData.end_date) (dateValue formData.start_date) then
      { newErrors with end_date := some "End date must be after start date" }
    else newErrors
  else newErrors

/-- The statement that checks `formData.budget_usd`. -/
def checkBudget (parseFloat : JSVal → JSNum) (formData : FormData) (newErrors : FormErrors) :
    FormErrors :=
  if !formData.budget_usd.truthy || (parseFloat formData.budget_usd).leZero then
    { newErrors with budget_usd := some "Please enter a valid budget amount" }
  else newErrors

/-- The statement that checks `formData.travel_style`. -/
def checkTravelStyle (formData : FormData) (newErrors : FormErrors) : FormErrors :=
  if !formData.travel_style.truthy then
    { newErrors with travel_style := some "Please select a travel style" }
  else newErrors

/-- The statement that checks `formData.group_size`. -/
def checkGroupSize (coerceLt : JSVal → Bool) (formData : FormData) (newErrors : FormErrors) :
    FormErrors :=
  if !formData.group_size.truthy || formData.group_size.ltOne coerceLt then
    { newErrors with group_size := some "Group size must be at least 1" }
  else newErrors

/-- The function `validateForm()`: the object given to `setErrors` and the
returned flag.  `trim` is `String.prototype.trim`, `dateValue` gives the time
value of `new Date(text)`. -/
def validateForm (trim : String → String) (dateValue : String → Option Int)
    (parseFloat : JSVal → JSNum) (coerceLt : JSVal → Bool) (formData : FormData) :
    FormErrors × Bool :=
  let newErrors : FormErrors :=
    { destination := none, start_date := none, end_date := none, budget_usd := none,
      travel_style := none, group_size := none }
  let newErrors := checkDestination trim formData newErrors
  let newErrors := checkStartDate formData newErrors
  let newErrors := checkEndDate formData newErrors
  let newErrors := checkDateOrder dateValue formData newErrors
  let newErrors := checkBudget parseFloat formData newErrors
  let newErrors := checkTravelStyle formData newErrors
  let newErrors := checkGroupSize coerceLt formData newErrors
  (newErrors, newErrors.keyCount == 0)

/-- The fields of `submitData` that come from the destination and the dates;
its other fields are built from the rest of the form without a throw. -/
structure SubmitData where
  destination : String
  start_date : String
  end_date : String

/-- The function `handleSubmit`: the errors set by `validateForm`, and the
argument of the call `generateAIItinerary(submitData)`, `none` when the call is
not made. -/
def handleSubmit (trim : String → String) (dateValue : String → Option Int)
    (parseFloat : JSVal → JSNum) (coerceLt : JSVal → Bool) (formData : FormData) :
    FormErrors × Option SubmitData :=
  match validateForm trim dateValue parseFloat coerceLt formData with
  | (errors, false) => (errors, none)
  | (errors, true) =>
    (errors, some { destination := trim formData.destination
                    start_date := formData.start_date
                    end_date := formData.end_date })

end AIItineraryGenerator

namespace TripPlanForm

/-- The state `formData` of the trip form. -/
structure FormData where
  destination : String
  start_date : String
  end_date : String
  travelers : JSVal
  interests : List String
  budget_per_person : JSVal

/-- The object `tripDataForBackend`; `generated_at` is the time of the call. -/
structure TripData where
  destination : String
  start_date : String
  end_date : String
  travelers : JSNum
  interests : List String
  budget_per_person : JSNum
  generated_at : String

/-- What a call of `handleSubmit` leaves behind: the last value of the `error`
state, the argument of the call of `saveTrip` (`none` when it is not called), and
whether the page navigates to the map. -/
structure Outcome where
  error : String
  saveTripCall : Option TripData
  navigated : Bool

/-- The function `handleSubmit` of `TripPlanForm.jsx`.  `saveTrip` is the function
of the trip context: it returns the saved trip or throws an error with a
message. -/
def handleSubmit (parseInt parseFloat : JSVal → JSNum) (now : String)
    (saveTrip : TripData → Except String JSVal) (isAuthenticated : Bool)
    (formData : FormData) : Outcome :=
  if !isAuthenticated then
    { error := "Please log in to save trips", saveTripCall := none, navigated := false }
  else
    let tripDataForBackend : TripData :=
      { destination := formData.destination
        start_date := formData.start_date
        end_date := formData.end_date
        travelers := parseInt formData.travelers
        interests := formData.interests
        budget_per_person := parseFloat formData.budget_per_person
        generated_at := now }
    match saveTrip tripDataForBackend with
    | .ok savedTrip =>
      match requireObject savedTrip with
      | .ok _ => { error := "", saveTripCall := some tripDataForBackend, navigated := true }
      | .error message =>
        { error := message, saveTripCall := some tripDataForBackend, navigated := false }
    | .error message =>
      { error := if message ≠ "" then message else "Failed to save trip"
        saveTripCall := some tripDataForBackend, navigated := false }

end TripPlanForm

/-- A generator form whose end date lies before its start date. -/
def lateStartGeneratorForm : AIItineraryGenerator.FormData :=
  { destination := "Rome", start_date := "2025-06-10", end_date := "2025-06-01",
    budget_usd := .str "1500", travel_style := .str "cultural", group_size := .num 2,
    interests := "", special_requirements := "" }

/-- The time values, in days, of the two dates used in the samples. -/
def sampleDateValue (text : String) : Option Int :=
  if text = "2025-06-10" then some 20249
  else if text = "2025-06-01" then some 20240
  else none

/-- A trip form whose end date lies before its start date. -/
def lateStartTripForm : TripPlanForm.FormData :=
  { destination := "Rome", start_date := "2025-06-10", end_date := "2025-06-01",
    travelers := .num 2, interests := ["Culture"], budget_per_person := .num 1000 }

/-! ## Saved trips (`TripContext.jsx`) -/

namespace TripContext

/-- The match `rawCost.match(/\d+\.?\d*/)` on the characters of the string: the
text of the first match, `none` when there is no digit.  The match starts at
the first digit and takes the digits, a dot if one follows, and the digits
after it. -/
def matchNumber : List Char → Option (List Char)
  | [] => none
  | c :: cs =>
    if c.isDigit then
      match (c :: cs).dropWhile Char.isDigit with
      | '.' :: rest =>
        some ((c :: cs).takeWhile Char.isDigit ++ '.' :: rest.takeWhile Char.isDigit)
      | _ => some ((c :: cs).takeWhile Char.isDigit)
    else matchNumber cs

/-- The number written by a list of decimal digits. -/
def digitsValue (digits : List Char) : Nat :=
  digits.foldl (fun acc c => acc * 10 + (c.toNat - 48)) 0

/-- The number `parseFloat(numbers[0])` for the text of a match of
`/\d+\.?\d*/`: digits, then possibly a dot and more digits.  The value is the
decimal number written; its rounding to a double is left out. -/
def parseFloatMatched (text : List Char) : ℚ :=
  let intDigits := text.takeWhile Char.isDigit
  let fracDigits := ((text.dropWhile Char.isDigit).drop 1).takeWhile Char.isDigit
  (digitsValue intDigits : ℚ) + (digitsValue fracDigits : ℚ) / 10 ^ fracDigits.length

/-- The value of `cost` that the cost parsing leaves behind for an activity whose
`estimated_cost` is the argument. -/
def parseCost (estimated_cost : JSVal) : ℚ :=
  let rawCost := estimated_cost.or (.num 0)
  match rawCost with
  | .str text =>
    match matchNumber text.toList with
    | some numbers => parseFloatMatched numbers
    | none => 0
  | .num n => n
  | _ => 0

/-- An element of `activities`. -/
structure Activity where
  name : JSVal
  location : JSVal
  estimatedCost : ℚ
  description : JSVal
  type : JSVal
  time : JSVal
  duration : JSVal

/-- The loop `day.activities.forEach(activity => ...)`: the elements pushed to
`activities`, in order. -/
def activitiesOfDay (destination : JSVal) : List JSVal → Except String (List Activity)
  | [] => .ok []
  | activity :: rest =>
    match activity.getProp "estimated_cost" with
    | .error e => .error e
    | .ok estimated_cost =>
      match activitiesOfDay destination rest with
      | .error e => .error e
      | .ok later =>
        .ok ({ name := ((activity.optChain "activity").or (activity.optChain "title")).or
                 (.str "Activity")
               location := (activity.optChain "location").or destination
               estimatedCost := parseCost estimated_cost
               description := (activity.optChain "description").or (.str "")
               type := (activity.optChain "type").or (.str "activity")
               time := (activity.optChain "time").or (.str "")
               duration := (activity.optChain "duration").or (.str "") } :: later)

/-- The loop `dailySchedule.forEach(day => ...)`: the elements pushed to
`activities`, in order. -/
def activitiesOfSchedule (destination : JSVal) : List JSVal → Except String (List Activity)
  | [] => .ok []
  | day :: rest =>
    match day.getProp "activities" with
    | .error e => .error e
    | .ok dayActivities =>
      if dayActivities.truthy then
        match dayActivities with
        | .arr list =>
          match activitiesOfDay destination list with
          | .error e => .error e
          | .ok first =>
            match activitiesOfSchedule destination rest with
            | .error e => .error e
            | .ok later => .ok (first ++ later)
        | _ => .error "TypeError"
      else activitiesOfSchedule destination rest

/-- The two computed fields of the object that `fetchTrips` builds for an AI
trip; its other fields copy fields of `aiTrip`. -/
structure AiTripView where
  total_estimated_cost : JSVal
  recommendations : List Activity

/-- The body of `aiTripsData.itineraries.map(aiTrip => ...)`. -/
def transformAiTrip (aiTrip : JSVal) : Except String AiTripView :=
  match aiTrip.getProp "itinerary_content" with
  | .error e => .error e
  | .ok content =>
    match (content.optChain "daily_schedule").or (.arr []) with
    | .arr days =>
      match activitiesOfSchedule (aiTrip.optChain "destination") days with
      | .error e => .error e
      | .ok activities =>
        let totalEstimatedCost :=
          if (content.optChain "total_estimated_cost").truthy then
            content.optChain "total_estimated_cost"
          else if (aiTrip.optPath ["budget_breakdown", "total_estimates",
              "mid_range_total"]).truthy then
            aiTrip.optPath ["budget_breakdown", "total_estimates", "mid_range_total"]
          else if (aiTrip.optPath ["budget_breakdown", "total_estimates",
              "budget_total"]).truthy then
            aiTrip.optPath ["budget_breakdown", "total_estimates", "budget_total"]
          else
            .num (activities.foldl
              (fun sum activity =>
                sum + (if activity.estimatedCost ≠ 0 then activity.estimatedCost else 0)) 0)
        .ok { total_estimated_cost := totalEstimatedCost, recommendations := activities }
    | _ => .error "TypeError"

/-- The schedule of an AI trip is an array of day records, and the `activities`
of a day, when present, is an array of activity records. -/
def wellFormedTripSchedule (days : List JSVal) : Prop :=
  wellFormedSchedule days ∧
  ∀ day ∈ days, (day.optChain "activities").truthy = true →
    ∃ list, day.optChain "activities" = .arr list

end TripContext

/-- A schedule of two days with the costs `'$50'`, `12.5` and `'Free'`. -/
def sampleAiTripDays : List JSVal :=
  [ .obj [("activities", .arr [
      .obj [("activity", .str "Colosseum"), ("estimated_cost", .str "$50")],
      .obj [("activity", .str "Gelato"), ("estimated_cost", .num 12.5)]])],
    .obj [("activities", .arr [
      .obj [("activity", .str "Walk"), ("estimated_cost", .str "Free")]])] ]

/-- An AI trip with that schedule and without any total in its content or its
budget breakdown. -/
def sampleAiTrip : List (String × JSVal) :=
  [("destination", .str "Rome"),
    ("itinerary_content", .obj [("daily_schedule", .arr sampleAiTripDays)])]

namespace TripContext

/-- The expression `trip.created_at || trip.createdAt` of the comparator. -/
def creationKey (trip : JSVal) : JSVal :=
  (trip.optChain "created_at").or (trip.optChain "createdAt")

/-- The comparator `(a, b) => new Date(b.created_at || b.createdAt) - new
Date(a.created_at || a.createdAt)`; `dateValue` gives the time value of
`new Date(v)`, and `none` stands for `NaN`. -/
def compareTrips (dateValue : JSVal → Option Int) (a b : JSVal) : Option Int :=
  match dateValue (creationKey b), dateValue (creationKey a) with
  | some timeB, some timeA => some (timeB - timeA)
  | _, _ => none

/-- Whether `sort` leaves `a` before `b` when it compares them: the comparator is
not positive (`NaN` counts as `0`). -/
def sortBefore (dateValue : JSVal → Option Int) (a b : JSVal) : Bool :=
  match compareTrips dateValue a b with
  | some v => decide (v ≤ 0)
  | none => true

/-- The list `allTrips = [...regularTrips, ...aiTrips].sort(comparator)` given to
`setSavedTrips`.  `Array.prototype.sort` is stable; where the comparator orders
the elements consistently its result is the stable sorted arrangement, which
insertion sort computes. -/
def allTrips (dateValue : JSVal → Option Int) (regularTrips aiTrips : List JSVal) :
    List JSVal :=
  (regularTrips ++ aiTrips).insertionSort (fun a b => sortBefore dateValue a b = true)

end TripContext

/-! ## Nearby attractions (`MapDisplay_enhanced.jsx`) -/

/-- The result of `text.replace(pattern, replacement)` with a string pattern: the
first occurrence of the pattern is replaced. -/
def replaceFirstChars (pattern replacement : List Char) : List Char → List Char
  | [] => if pattern = [] then replacement else []
  | c :: cs =>
    if pattern.isPrefixOf (c :: cs) then replacement ++ (c :: cs).drop pattern.length
    else c :: replaceFirstChars pattern replacement cs

def replaceFirst (text pattern replacement : String) : String :=
  String.mk (replaceFirstChars pattern.toList replacement.toList text.toList)

/-- The object literal `attractionTypes`. -/
def attractionTypes : List (String × List String) :=
  [("adventure", ["Mountain Peak", "Adventure Park", "Hiking Trail", "Rock Climbing Spot"]),
   ("culture", ["Cultural Center", "Traditional Market", "Heritage Site", "Local Museum"]),
   ("shopping", ["Shopping Mall", "Boutique District", "Local Market", "Souvenir Shop"]),
   ("relaxation", ["Spa & Wellness", "Beach Resort", "Peaceful Garden", "Hot Springs"]),
   ("food & drink", ["Local Restaurant", "Food Market", "Wine Bar", "Street Food Area"]),
   ("nightlife", ["Rooftop Bar", "Night Club", "Live Music Venue", "Cocktail Lounge"]),
   ("nature", ["National Park", "Botanical Garden", "Nature Reserve", "Scenic Viewpoint"]),
   ("history", ["Historical Site", "Ancient Ruins", "Historical Museum", "Monument"]),
   ("art", ["Art Gallery", "Street Art District", "Art Museum", "Artist Quarter"]),
   ("sports", ["Sports Complex", "Stadium", "Fitness Center", "Sports Bar"])]

/-- The property names every object literal inherits from `Object.prototype`. -/
def objectPrototypeKeys : List String :=
  ["constructor", "__proto__", "hasOwnProperty", "isPrototypeOf", "propertyIsEnumerable",
   "toLocaleString", "toString", "valueOf", "__defineGetter__", "__defineSetter__",
   "__lookupGetter__", "__lookupSetter__"]

/-- What the lookup `attractionTypes[interestKey]` finds. -/
inductive TableEntry where
  | own (options : List String)
  | inherited
  | missing
  deriving Repr, DecidableEq

/-- The lookup `attractionTypes[interestKey]`: an own property gives its option
list, the name of an inherited member gives that member (a function, or the
prototype object for `__proto__`), any other name gives `undefined`. -/
def attractionTypesAt (interestKey : String) : TableEntry :=
  match attractionTypes.lookup interestKey with
  | some options => .own options
  | none => if interestKey ∈ objectPrototypeKeys then .inherited else .missing

/-- An element of `mockAttractions`. -/
structure Attraction where
  id : Nat
  name : String
  lat : ℚ
  lon : ℚ
  type : String
  description : String
  category : String
  estimatedCost : Int
  rating : String

/-- The state of `getNearbyAttractions`: the array `mockAttractions`, the counter
`attractionId`, and the number of calls of `Math.random` made so far. -/
structure AttractionState where
  mockAttractions : List Attraction
  attractionId : Nat
  randomCalls : Nat

/-- The element `options[index]` of an array for a numeric index. -/
def elementAt (options : List String) (index : Int) : Option String :=
  if 0 ≤ index then options.get? index.toNat else none

/-- One call of the `forEach` callback on `(interest, index)`.  The truthy table
entries are the own option lists and the inherited members; an inherited member
has no element at any index, so `attractionName` is `undefined` and
`attractionName.toLowerCase()` throws, as it does for an index outside the
option list. -/
def interestStep (toLowerCase : String → String) (toFixed1 : ℚ → String) (draws : Nat → ℚ)
    (lat lon : ℚ) (destination : String) (state : AttractionState) (interest : String)
    (index : Nat) : Except String AttractionState :=
  let interestKey := replaceFirst (replaceFirst (toLowerCase interest) " & " "_") " " "_"
  let k := state.randomCalls
  let push (attractionName : String) : AttractionState :=
    { mockAttractions := state.mockAttractions ++
        [{ id := state.attractionId,
           name := attractionName,
           lat := lat + (draws (k + 1) - 0.5) * 0.02,
           lon := lon + (draws (k + 2) - 0.5) * 0.02,
           type := interestKey,
           description := "Popular " ++ toLowerCase attractionName ++ " in " ++ destination,
           category := interest,
           estimatedCost := Int.floor (draws (k + 3) * 50) + 10,
           rating := toFixed1 (draws (k + 4) * 2 + 3) }],
      attractionId := state.attractionId + 1,
      randomCalls := k + 5 }
  match attractionTypesAt interestKey with
  | .missing => .ok state
  | .inherited => if index < 3 then .error "TypeError" else .ok state
  | .own options =>
    if index < 3 then
      match elementAt options (Int.floor (draws k * (options.length : ℚ))) with
      | some attractionName => .ok (push attractionName)
      | none => .error "TypeError"
    else .ok state

/-- The loop `interests.forEach((interest, index) => ...)`, from position `index`. -/
def interestsLoop (toLowerCase : String → String) (toFixed1 : ℚ → String) (draws : Nat → ℚ)
    (lat lon : ℚ) (destination : String) :
    List String → Nat → AttractionState → Except String AttractionState
  | [], _, state => .ok state
  | interest :: rest, index, state =>
    match interestStep toLowerCase toFixed1 draws lat lon destination state interest index with
    | .error e => .error e
    | .ok next => interestsLoop toLowerCase toFixed1 draws lat lon destination rest (index + 1) next

/-- An element of `generalAttractions`. -/
structure GeneralAttraction where
  name : String
  type : String
  description : String
  category : String
  estimatedCost : Int
  rating : String

/-- The array `generalAttractions`. -/
def generalAttractions (destination : String) : List GeneralAttraction :=
  [{ name := "City Center", type := "landmark",
     description := "Main city center of " ++ destination,
     category := "landmark", estimatedCost := 0, rating := "4.5" },
   { name := "Popular Viewpoint", type := "viewpoint",
     description := "Best viewpoint in " ++ destination,
     category := "sightseeing", estimatedCost := 15, rating := "4.7" },
   { name := "Local Market", type := "market",
     description := "Traditional market in " ++ destination,
     category := "shopping", estimatedCost := 25, rating := "4.3" },
   { name := "Cultural Quarter", type := "culture",
     description := "Cultural district of " ++ destination,
     category := "culture", estimatedCost := 30, rating := "4.6" }]

/-- The loop `for (let i = 0; i < needed && i < generalAttractions.length; i++)`
over the elements of `generalAttractions` from position `i` on. -/
def generalLoop (draws : Nat → ℚ) (lat lon : ℚ) (needed : Nat) :
    List GeneralAttraction → Nat → AttractionState → AttractionState
  | [], _, state => state
  | attraction :: rest, i, state =>
    if i < needed then
      generalLoop draws lat lon needed rest (i + 1)
        { mockAttractions := state.mockAttractions ++
            [{ id := state.attractionId,
               name := attraction.name,
               lat := lat + (draws state.randomCalls - 0.5) * 0.025,
               lon := lon + (draws (state.randomCalls + 1) - 0.5) * 0.025,
               type := attraction.type,
               description := attraction.description,
               category := attraction.category,
               estimatedCost := attraction.estimatedCost,
               rating := attraction.rating }],
          attractionId := state.attractionId + 1,
          randomCalls := state.randomCalls + 2 }
    else state

/-- The function `getNearbyAttractions(lat, lon, destination)` up to the call
`setNearbyAttractions(mockAttractions)`: the value is the list given to that
call, or the error thrown before it.  `interests` is the array
`selectedTrip?.interests || []`, `draws k` is the value of the `k`-th call of
`Math.random`. -/
def getNearbyAttractions (toLowerCase : String → String) (toFixed1 : ℚ → String)
    (draws : Nat → ℚ) (interests : List String) (lat lon : ℚ) (destination : String) :
    Except String (List Attraction) :=
  match interestsLoop toLowerCase toFixed1 draws lat lon destination interests 0
      { mockAttractions := [], attractionId := 1, randomCalls := 0 } with
  | .error e => .error e
  | .ok state =>
    if state.mockAttractions.length < 4 then
      .ok (generalLoop draws lat lon (4 - state.mockAttractions.length)
        (generalAttractions destination) 0 state).mockAttractions
    else .ok state.mockAttractions

/-- The ids of the attractions are `1, 2, ...` in list order and `attractionId`
is the next one. -/
def AttractionState.Numbered (state : AttractionState) : Prop :=
  state.mockAttractions.map (fun a => a.id) = List.range' 1 state.mockAttractions.length ∧
  state.attractionId = state.mockAttractions.length + 1

/-- The array `interestOptions` of `TripPlanForm.jsx`: the labels a trip's
interests are chosen from. -/
def interestOptions : List String :=
  ["Adventure", "Culture", "Shopping", "Relaxation", "Food & Drink", "Nightlife", "Nature",
   "History", "Art", "Sports"]

/-- The time values of the creation dates used in the samples. -/
def sampleCreatedValue : JSVal → Option Int
  | .str text => sampleDateValue text
  | _ => none

/-- A regular trip created on 1 June 2025. -/
def sampleRegularTrip : JSVal :=
  .obj [("id", .num 1), ("destination", .str "Rome"), ("created_at", .str "2025-06-01")]

/-- An AI trip created on 10 June 2025, with the creation date under `createdAt`. -/
def sampleNewerAiTrip : JSVal :=
  .obj [("id", .str "ai_2"), ("destination", .str "Paris"), ("createdAt", .str "2025-06-10"),
        ("isAiGenerated", .bool true)]

/-! ## Double-precision arithmetic

A JavaScript number is a double: the result of `+`, `-`, `*` and `/` is the
exact result rounded to the nearest number with 53 significant bits, the even
significand winning a tie.  The exponent range is taken as unbounded: the
coordinates in degrees and the values computed from them stay far from an
overflow, and an underflow would change a result by less than `10^-323`.  The
sign of a zero is not recorded. -/

section Rounding

variable {K : Type} [LinearOrderedField K] [FloorRing K]

/-- The integer nearest to `y`; half way between two integers, the even one. -/
def roundHalfEven (y : K) : ℤ :=
  if y - ⌊y⌋ < 1 / 2 then ⌊y⌋
  else if 1 / 2 < y - ⌊y⌋ then ⌊y⌋ + 1
  else if ⌊y⌋ % 2 = 0 then ⌊y⌋ else ⌊y⌋ + 1

/-- The double nearest to `x`: with `2 ^ n ≤ |x| < 2 ^ (n + 1)`, the multiple of
`2 ^ (n - 52)` nearest to `x`. -/
def roundDouble (x : K) : K :=
  if x = 0 then 0
  else (roundHalfEven (x / (2 : K) ^ (Int.log 2 |x| - 52)) : K) * (2 : K) ^ (Int.log 2 |x| - 52)

end Rounding

/-- The double with the significand `m` and the exponent `e`. -/
def dbl (m e : ℤ) : ℚ := m * 2 ^ e

/-- The constant `Math.PI`, the double `3.141592653589793`. -/
def mathPI : ℚ := dbl 7074237752028440 (-51)

/-- The number `-a`. -/
def JSNum.neg : JSNum → JSNum
  | .fin a => .fin (-a)
  | .nan => .nan
  | .inf => .negInf
  | .negInf => .inf

/-- The sum `a + b` of two numbers. -/
def JSNum.add : JSNum → JSNum → JSNum
  | .nan, _ => .nan
  | _, .nan => .nan
  | .fin a, .fin b => .fin (roundDouble (a + b))
  | .inf, .negInf => .nan
  | .negInf, .inf => .nan
  | .inf, _ => .inf
  | _, .inf => .inf
  | .negInf, _ => .negInf
  | _, .negInf => .negInf

/-- The difference `a - b` of two numbers. -/
def JSNum.sub (a b : JSNum) : JSNum := a.add b.neg

/-- The product `a * b` of two numbers. -/
def JSNum.mul : JSNum → JSNum → JSNum
  | .nan, _ => .nan
  | _, .nan => .nan
  | .fin a, .fin b => .fin (roundDouble (a * b))
  | .fin a, .inf => if a = 0 then .nan else if 0 < a then .inf else .negInf
  | .fin a, .negInf => if a = 0 then .nan else if 0 < a then .negInf else .inf
  | .inf, .fin b => if b = 0 then .nan else if 0 < b then .inf else .negInf
  | .negInf, .fin b => if b = 0 then .nan else if 0 < b then .negInf else .inf
  | .inf, .inf => .inf
  | .negInf, .negInf => .inf
  | .inf, .negInf => .negInf
  | .negInf, .inf => .negInf

/-- The quotient `a / b` of two numbers; a zero divisor counts as `+0`. -/
def JSNum.div : JSNum → JSNum → JSNum
  | .nan, _ => .nan
  | _, .nan => .nan
  | .fin a, .fin b =>
    if b = 0 then (if a = 0 then .nan else if 0 < a then .inf else .negInf)
    else .fin (roundDouble (a / b))
  | .fin _, .inf => .fin 0
  | .fin _, .negInf => .fin 0
  | .inf, .fin b => if 0 ≤ b then .inf else .negInf
  | .negInf, .fin b => if 0 ≤ b then .negInf else .inf
  | .inf, .inf => .nan
  | .inf, .negInf => .nan
  | .negInf, .inf => .nan
  | .negInf, .negInf => .nan

/-- The values of the functions of `Math` that `calculateDistance` calls: the
sine, the cosine and the square root at a finite argument, and the two-argument
arctangent at two arguments other than `NaN`.  The language leaves their
accuracy to the implementation. -/
structure MathLibrary where
  sin : ℚ → ℚ
  cos : ℚ → ℚ
  sqrt : ℚ → ℚ
  atan2 : JSNum → JSNum → JSNum

/-- The function `Math.sin`: `NaN` at `NaN` and at an infinity. -/
def mathSin (m : MathLibrary) : JSNum → JSNum
  | .fin x => .fin (m.sin x)
  | _ => .nan

/-- The function `Math.cos`: `NaN` at `NaN` and at an infinity. -/
def mathCos (m : MathLibrary) : JSNum → JSNum
  | .fin x => .fin (m.cos x)
  | _ => .nan

/-- The function `Math.sqrt`: `NaN` at `NaN` and at every negative number. -/
def mathSqrt (m : MathLibrary) : JSNum → JSNum
  | .fin x => if x < 0 then .nan else .fin (m.sqrt x)
  | .inf => .inf
  | _ => .nan

/-- The function `Math.atan2`: `NaN` when an argument is `NaN`. -/
def mathAtan2 (m : MathLibrary) : JSNum → JSNum → JSNum
  | .nan, _ => .nan
  | _, .nan => .nan
  | y, x => m.atan2 y x

namespace Double

/-- The function `calculateDistance(point1, point2)` in double arithmetic: a point
is the pair `[lat, lon]` of two finite numbers. -/
def calculateDistance (m : MathLibrary) (point1 point2 : ℚ × ℚ) : JSNum :=
  let R : JSNum := .fin 6371
  let dLat := (((JSNum.fin point2.1).sub (.fin point1.1)).mul (.fin mathPI)).div (.fin 180)
  let dLon := (((JSNum.fin point2.2).sub (.fin point1.2)).mul (.fin mathPI)).div (.fin 180)
  let a :=
    ((mathSin m (dLat.div (.fin 2))).mul (mathSin m (dLat.div (.fin 2)))).add
      ((((mathCos m (((JSNum.fin point1.1).mul (.fin mathPI)).div (.fin 180))).mul
          (mathCos m (((JSNum.fin point2.1).mul (.fin mathPI)).div (.fin 180)))).mul
        (mathSin m (dLon.div (.fin 2)))).mul (mathSin m (dLon.div (.fin 2))))
  let c := (JSNum.fin 2).mul (mathAtan2 m (mathSqrt m a) (mathSqrt m ((JSNum.fin 1).sub a)))
  R.mul c

/-- The position `[lat, lng]` that `loadMapData` computes for a located activity,
in double arithmetic: `cos` and `sin` are the functions `Math.cos` and
`Math.sin`, `random` is the value of the call `Math.random()`, `n` is
`day.activities.length`. -/
noncomputable def markerPosition (cos sin : ℝ → ℝ) (destCoords : ℝ × ℝ) (random : ℝ)
    (activityIndex n : Nat) : ℝ × ℝ :=
  let angle :=
    roundDouble (roundDouble (roundDouble ((activityIndex : ℝ) / (n : ℝ)) * 2) * (mathPI : ℝ))
  let radius :=
    roundDouble (roundDouble (0.02 : ℝ) + roundDouble (random * roundDouble (0.015 : ℝ)))
  let lat := roundDouble (destCoords.1 + roundDouble (radius * cos angle))
  let lng := roundDouble (destCoords.2 + roundDouble (radius * sin angle))
  (lat, lng)

/-- The `markerData` built for a located activity, with its position in double
arithmetic. -/
noncomputable def scheduleMarker (cos sin : ℝ → ℝ) (destCoords : ℝ × ℝ) (random : ℝ)
    (dayIndex activityIndex n : Nat) (activity : JSVal) : Marker :=
  { id := "day-" ++ toString dayIndex ++ "-activity-" ++ toString activityIndex
    position := markerPosition cos sin destCoords random activityIndex n
    title := activity.optChain "activity"
    location := activity.optChain "location"
    description := activity.optChain "description"
    cost := activity.optChain "estimated_cost"
    time := activity.optChain "time"
    type := (activity.optChain "type").or (.str "activity")
    day := some (dayIndex + 1)
    activityNumber := some (activityIndex + 1)
    tips := activity.optChain "tips"
    duration := activity.optChain "duration"
    area := .undefined
    category := .undefined
    isRecommendation := false
    rating := .undefined
    bestTime := .undefined }

/-- The loop `day.activities.forEach((activity, activityIndex) => ...)`, with the
positions in double arithmetic; the state is `(scheduleMarkers, dayMarkers,
calls)`. -/
noncomputable def activitiesLoop (cos sin : ℝ → ℝ) (destCoords : ℝ × ℝ) (draws : Nat → ℝ)
    (dayIndex n : Nat) :
    List JSVal → Nat → List Marker × List Marker × Nat →
      Except String (List Marker × List Marker × Nat)
  | [], _, state => .ok state
  | activity :: rest, activityIndex, (scheduleMarkers, dayMarkers, calls) =>
    match activity.getProp "location" with
    | .error e => .error e
    | .ok location =>
      if location.truthy then
        let markerData :=
          scheduleMarker cos sin destCoords (draws calls) dayIndex activityIndex n activity
        activitiesLoop cos sin destCoords draws dayIndex n rest (activityIndex + 1)
          (scheduleMarkers ++ [markerData], dayMarkers ++ [markerData], calls + 1)
      else
        activitiesLoop cos sin destCoords draws dayIndex n rest (activityIndex + 1)
          (scheduleMarkers, dayMarkers, calls)

/-- The loop `dailySchedule.forEach((day, dayIndex) => ...)`, with the positions
in double arithmetic; the state is `(scheduleMarkers, dayRoutes, calls)`. -/
noncomputable def daysLoop (cos sin : ℝ → ℝ) (destCoords : ℝ × ℝ) (draws : Nat → ℝ) :
    List JSVal → Nat → List Marker × List DayRoute × Nat →
      Except String (List Marker × List DayRoute × Nat)
  | [], _, state => .ok state
  | day :: rest, dayIndex, (scheduleMarkers, dayRoutes, calls) =>
    match day.getProp "activities" with
    | .error e => .error e
    | .ok (.arr activities) =>
      match activitiesLoop cos sin destCoords draws dayIndex activities.length activities 0
          (scheduleMarkers, [], calls) with
      | .error e => .error e
      | .ok (scheduleMarkers', dayMarkers, calls') =>
        if dayMarkers.length > 1 then
          daysLoop cos sin destCoords draws rest (dayIndex + 1)
            (scheduleMarkers',
              dayRoutes ++ [{ day := dayIndex + 1
                              positions := dayMarkers.map (fun m => m.position)
                              color := getDayColor dayIndex }],
              calls')
        else
          daysLoop cos sin destCoords draws rest (dayIndex + 1)
            (scheduleMarkers', dayRoutes, calls')
    | .ok _ =>
      daysLoop cos sin destCoords draws rest (dayIndex + 1) (scheduleMarkers, dayRoutes, calls)

/-- The markers that the activities loop adds, without the accumulators. -/
noncomputable def dayMarkersFrom (cos sin : ℝ → ℝ) (destCoords : ℝ × ℝ) (draws : Nat → ℝ)
    (dayIndex n : Nat) : List JSVal → Nat → Nat → List Marker
  | [], _, _ => []
  | activity :: rest, activityIndex, calls =>
    if (activity.optChain "location").truthy then
      scheduleMarker cos sin destCoords (draws calls) dayIndex activityIndex n activity ::
        dayMarkersFrom cos sin destCoords draws dayIndex n rest (activityIndex + 1) (calls + 1)
    else dayMarkersFrom cos sin destCoords draws dayIndex n rest (activityIndex + 1) calls

/-- The markers and routes that the days loop adds, without the accumulators. -/
noncomputable def scheduleFrom (cos sin : ℝ → ℝ) (destCoords : ℝ × ℝ) (draws : Nat → ℝ) :
    List JSVal → Nat → Nat → List Marker × List DayRoute
  | [], _, _ => ([], [])
  | day :: rest, dayIndex, calls =>
    let dayMarkers := dayMarkersFrom cos sin destCoords draws dayIndex (dayActivities day).length
      (dayActivities day) 0 calls
    let later :=
      scheduleFrom cos sin destCoords draws rest (dayIndex + 1) (calls + dayMarkers.length)
    (dayMarkers ++ later.1,
      (if dayMarkers.length > 1 then
        [{ day := dayIndex + 1
           positions := dayMarkers.map (fun m => m.position)
           color := getDayColor dayIndex }]
      else []) ++ later.2)

end Double

/-- The values of `Math.sin`, `Math.cos`, `Math.sqrt` and `Math.atan2` at the
arguments that occur when `optimizeRoute` runs on the points `[8, 0]`,
`[-8, 180]`, `[8, 0]`; each is the double nearest to the exact value:
`sin(∓0.13962634015954636) = ∓0.13917310096006544`,
`sin(±1.5707963267948966) = ±1`, `sin(0) = 0`, `cos(±0.13962634015954636) =
0.9902680687415704`, `sqrt(0) = 0`, `sqrt(1) = 1`,
`sqrt(1.0000000000000002) = 1`, `atan2(0, 1) = 0`.  At any other argument,
which that run does not reach, the table gives `0`. -/
def sampleMath : MathLibrary where
  sin := fun x =>
    if x = 0 then 0
    else if x = dbl (-5030569068109113) (-55) then dbl (-5014239404989977) (-55)
    else if x = dbl 5030569068109113 (-55) then dbl 5014239404989977 (-55)
    else if x = dbl 7074237752028440 (-52) then 1
    else if x = dbl (-7074237752028440) (-52) then -1
    else 0
  cos := fun x =>
    if x = dbl 5030569068109113 (-55) then dbl 8919541810762874 (-53)
    else if x = dbl (-5030569068109113) (-55) then dbl 8919541810762874 (-53)
    else 0
  sqrt := fun x =>
    if x = 1 then 1 else if x = dbl 4503599627370497 (-52) then 1 else 0
  atan2 := fun _ _ => .fin 0

/-- A math library whose cosine is the double nearest to the exact cosine. -/
noncomputable def nearestCos (x : ℝ) : ℝ := roundDouble (Real.cos x)

/-- A math library whose sine is the double nearest to the exact sine. -/
noncomputable def nearestSin (x : ℝ) : ℝ := roundDouble (Real.sin x)

/-- A schedule of one day with one located activity. -/
def oneStopSchedule : List JSVal :=
  [.obj [("day", .num 1), ("activities", .arr [
    .obj [("activity", .str "Walk"), ("location", .str "Old town")]])]]

/-! ## Numbers of the route builder

The distances that `optimizeRoute` compares are JavaScript numbers, among them
`NaN`: every comparison with `NaN` is false. -/

/-- The comparison `a < b` of two numbers. -/
def JSNum.lt : JSNum → JSNum → Bool
  | .fin a, .fin b => decide (a < b)
  | .fin _, .inf => true
  | .negInf, .fin _ => true
  | .negInf, .inf => true
  | _, _ => false

/-- The comparison `a <= b` of two numbers. -/
def JSNum.le : JSNum → JSNum → Bool
  | .fin a, .fin b => decide (a ≤ b)
  | .fin _, .inf => true
  | .negInf, .fin _ => true
  | .negInf, .inf => true
  | .inf, .inf => true
  | .negInf, .negInf => true
  | _, _ => false

instance JSNum.instLT : LT JSNum := ⟨fun a b => JSNum.lt a b = true⟩

instance JSNum.decidableLT : DecidableRel ((· < ·) : JSNum → JSNum → Prop) :=
  fun a b => inferInstanceAs (Decidable (JSNum.lt a b = true))

/-- The place of a number other than `NaN` in the order of the extended
rationals. -/
def JSNum.rank : JSNum → WithBot (WithTop ℚ)
  | .fin q => ((q : WithTop ℚ) : WithBot (WithTop ℚ))
  | .inf => ((⊤ : WithTop ℚ) : WithBot (WithTop ℚ))
  | .negInf => ⊥
  | .nan => ⊥

/-- The distance between two points of a line, as a number. -/
def lineDistance (p q : ℚ) : JSNum := .fin |q - p|

/-! ## Theorems -/

section RouteLemmas

variable {P D : Type} [LT D] [DecidableRel ((· < ·) : D → D → Prop)]

theorem forLoop_lt (dist : P → P → D) (current : P) (rest : List P) :
    ∀ (i nearestIndex : Nat) (nearestDistance : D), nearestIndex < i →
      forLoop dist current rest i nearestIndex nearestDistance < i + rest.length := by
  induction rest with
  | nil => intro i ni nd h; simpa [forLoop] using h
  | cons p rest ih =>
    intro i ni nd h
    simp only [forLoop, List.length_cons]
    split
    · have := ih (i + 1) i (dist current p) (Nat.lt_succ_self i)
      omega
    · have := ih (i + 1) ni nd (by omega)
      omega

/-- One pass of the loop body on a non-empty route and non-empty list of
remaining stops moves exactly one stop from `remaining` to the end of the route. -/
theorem whileBody_some (dist : P → P → D) (route : List P) (r0 : P) (rest : List P)
    (hne : route ≠ []) :
    ∃ i p, (r0 :: rest)[i]? = some p ∧
      i = forLoop dist (route.getLast hne) rest 1 0 (dist (route.getLast hne) r0) ∧
      whileBody dist route (r0 :: rest) = some (route ++ [p], (r0 :: rest).eraseIdx i) := by
  have hlast : route.getLast? = some (route.getLast hne) := List.getLast?_eq_getLast _ hne
  have hlt := forLoop_lt dist (route.getLast hne) rest 1 0 (dist (route.getLast hne) r0)
    (by omega)
  have hlt' : forLoop dist (route.getLast hne) rest 1 0 (dist (route.getLast hne) r0)
      < (r0 :: rest).length := by simp only [List.length_cons]; omega
  refine ⟨_, (r0 :: rest)[forLoop dist (route.getLast hne) rest 1 0
    (dist (route.getLast hne) r0)], List.getElem?_eq_getElem hlt', rfl, ?_⟩
  simp only [whileBody, hlast]
  rw [List.getElem?_eq_getElem hlt']

theorem perm_cons_eraseIdx {α : Type} :
    ∀ (l : List α) (i : Nat) (p : α), l[i]? = some p → List.Perm (p :: l.eraseIdx i) l := by
  intro l
  induction l with
  | nil => intro i p h; simp at h
  | cons a l ih =>
    intro i p h
    cases i with
    | zero =>
      simp only [List.getElem?_cons_zero, Option.some.injEq] at h
      subst h
      simp
    | succ i =>
      simp only [List.getElem?_cons_succ] at h
      simp only [List.eraseIdx_cons_succ]
      exact (List.Perm.swap a p _).trans ((ih i p h).cons a)

theorem length_eraseIdx_of_getElem? {α : Type} (l : List α) (i : Nat) (p : α)
    (h : l[i]? = some p) : (l.eraseIdx i).length + 1 = l.length := by
  have := (perm_cons_eraseIdx l i p h).length_eq
  simpa using this

/-- The while loop, started on a non-empty route with enough passes allowed,
returns the route extended by a rearrangement `placed` of the remaining stops,
and its state after `k` passes holds the first `k` of them. -/
theorem whileLoop_spec (dist : P → P → D) :
    ∀ (fuel : Nat) (route remaining : List P), route ≠ [] → remaining.length ≤ fuel →
      ∃ placed, whileLoop dist fuel route remaining = some (route ++ placed) ∧
        List.Perm placed remaining ∧
        ∀ k, k ≤ remaining.length → ∃ remK,
          whileStates dist k (route, remaining) = some (route ++ placed.take k, remK) ∧
          List.Perm remK (placed.drop k) ∧ List.Sublist remK remaining := by
  intro fuel
  induction fuel with
  | zero =>
    intro route remaining _ hlen
    have : remaining = [] := List.length_eq_zero.mp (by omega)
    subst this
    refine ⟨[], by simp [whileLoop], List.Perm.refl _, ?_⟩
    intro k hk
    have : k = 0 := by simpa using hk
    subst this
    exact ⟨[], by simp [whileStates], by simp, List.Sublist.refl _⟩
  | succ fuel ih =>
    intro route remaining hne hlen
    cases remaining with
    | nil =>
      refine ⟨[], by simp [whileLoop], List.Perm.refl _, ?_⟩
      intro k hk
      have : k = 0 := by simpa using hk
      subst this
      exact ⟨[], by simp [whileStates], by simp, List.Sublist.refl _⟩
    | cons r0 rest =>
      obtain ⟨i, p, hp, _, hbody⟩ := whileBody_some dist route r0 rest hne
      have hlen' := length_eraseIdx_of_getElem? (r0 :: rest) i p hp
      have hperm := perm_cons_eraseIdx (r0 :: rest) i p hp
      obtain ⟨placed, hloop, hpl, hstates⟩ :=
        ih (route ++ [p]) ((r0 :: rest).eraseIdx i) (by simp) (by
          simp only [List.length_cons] at hlen hlen'; omega)
      refine ⟨p :: placed, ?_, (hpl.cons p).trans hperm, ?_⟩
      · simp only [whileLoop, hbody]
        rw [hloop]; simp
      · intro k hk
        cases k with
        | zero =>
          exact ⟨r0 :: rest, by simp [whileStates], by
            simpa using ((hpl.cons p).trans hperm).symm, List.Sublist.refl _⟩
        | succ k =>
          obtain ⟨remK, hst, hpk, hsub⟩ := hstates k (by
            simp only [List.length_cons] at hk hlen'; omega)
          refine ⟨remK, ?_, by simpa using hpk, hsub.trans (List.eraseIdx_sublist _ _)⟩
          simp only [whileStates, hbody]
          rw [hst]; simp

/-- With at least two stops `optimizeRoute` runs its loop and returns
`start`, then a rearrangement of the stops, then `start` again. -/
theorem optimizeRoute_shape (dist : P → P → D) (start : P) (stops : List P)
    (h : 2 ≤ stops.length) :
    ∃ placed, optimizeRoute dist (start :: stops) = some (start :: placed ++ [start]) ∧
      List.Perm placed stops ∧
      ∀ k, k ≤ stops.length → ∃ remK,
        whileStates dist k ([start], stops) = some (start :: placed.take k, remK) ∧
        List.Perm remK (placed.drop k) ∧ List.Sublist remK stops := by
  obtain ⟨placed, hloop, hperm, hstates⟩ :=
    whileLoop_spec dist stops.length [start] stops (by simp) (Nat.le_refl _)
  refine ⟨placed, ?_, hperm, ?_⟩
  · have hlen : ¬ (stops.length + 1 ≤ 2) := by omega
    simp only [optimizeRoute, List.length_cons, hlen, if_false, List.getElem?_cons_zero,
      List.drop_succ_cons, List.drop_zero, hloop]
    simp
  · intro k hk
    obtain ⟨remK, h1, h2, h3⟩ := hstates k hk
    exact ⟨remK, by simpa using h1, h2, h3⟩

/-- C1: for every start point and every list of at least two stops, the route
returned by `optimizeRoute` on `start :: stops` exists, and both its first and
its last element are the start point. -/
theorem optimizeRoute_starts_and_ends_at_start (dist : P → P → D) (start : P)
    (stops : List P) (h : 2 ≤ stops.length) :
    ∃ route, optimizeRoute dist (start :: stops) = some route ∧
      route.head? = some start ∧ route.getLast? = some start := by
  obtain ⟨placed, hroute, -, -⟩ := optimizeRoute_shape dist start stops h
  refine ⟨_, hroute, by simp, ?_⟩
  exact List.getLast?_concat (start :: placed)

/-- C2: for every start point and every list of `n ≥ 2` stops, the route
returned by `optimizeRoute` has length `n + 2`, and the route without its first
and last element is a permutation of the stops. -/
theorem optimizeRoute_visits_each_stop_once (dist : P → P → D) (start : P)
    (stops : List P) (h : 2 ≤ stops.length) :
    ∃ route, optimizeRoute dist (start :: stops) = some route ∧
      route.length = stops.length + 2 ∧
      List.Perm route.tail.dropLast stops := by
  obtain ⟨placed, hroute, hperm, -⟩ := optimizeRoute_shape dist start stops h
  refine ⟨_, hroute, ?_, ?_⟩
  · simp [hperm.length_eq]
  · simpa using hperm

/-- C28: for an input of at most two points `optimizeRoute` returns the input
list itself, so that the start and a single stop give `[start, stop]` with no
closing point, whereas for two or more stops the start is appended after the
last stop. -/
theorem optimizeRoute_short_input (dist : P → P → D) (points : List P)
    (h : points.length ≤ 2) :
    optimizeRoute dist points = some points ∧
    (∀ start stop : P, optimizeRoute dist [start, stop] = some [start, stop]) ∧
    ∀ (start : P) (stops : List P), 2 ≤ stops.length →
      ∃ placed, optimizeRoute dist (start :: stops) = some (start :: placed ++ [start]) ∧
        placed.length = stops.length := by
  refine ⟨by simp [optimizeRoute, h], ?_, ?_⟩
  · intro start stop
    simp [optimizeRoute]
  · intro start stops hs
    obtain ⟨placed, hroute, hperm, -⟩ := optimizeRoute_shape dist start stops hs
    exact ⟨placed, hroute, hperm.length_eq⟩

/-- With exactly two stops the loop compares the two distances from the start
once: the second stop goes first when it is strictly nearer, and the input order
is kept otherwise. -/
theorem optimizeRoute_two_stops (dist : P → P → D) (start a b : P) :
    optimizeRoute dist [start, a, b]
      = some (if dist start b < dist start a then [start, b, a, start]
          else [start, a, b, start]) := by
  by_cases hlt : dist start b < dist start a
  · simp [optimizeRoute, whileLoop, whileBody, forLoop, hlt]
  · simp [optimizeRoute, whileLoop, whileBody, forLoop, hlt]

end RouteLemmas

section RouteNearest

variable {P D : Type} [LinearOrder D]

theorem forLoop_spec (dist : P → P → D) (current : P) (rest : List P) :
    ∀ (pre : List P) (nearestIndex : Nat) (q : P),
      IsFirstNearest dist current pre nearestIndex q →
      ∃ q', IsFirstNearest dist current (pre ++ rest)
        (forLoop dist current rest pre.length nearestIndex (dist current q)) q' := by
  induction rest with
  | nil => intro pre ni q h; exact ⟨q, by simpa [forLoop] using h⟩
  | cons p rest ih =>
    intro pre ni q ⟨hq, hmin, hfirst⟩
    simp only [forLoop]
    have happ : pre ++ p :: rest = (pre ++ [p]) ++ rest := by simp
    have hlen : (pre ++ [p]).length = pre.length + 1 := by simp
    split
    · next hlt =>
      have := ih (pre ++ [p]) pre.length p ⟨by simp, ?_, ?_⟩
      · rw [happ]; rw [hlen] at this; exact this
      · intro x hx
        rcases List.mem_append.mp hx with hx | hx
        · exact le_of_lt (lt_of_lt_of_le hlt (hmin x hx))
        · simp only [List.mem_singleton] at hx
          subst hx; exact le_refl _
      · intro j x hj hx
        rw [List.getElem?_append_left hj] at hx
        exact lt_of_lt_of_le hlt (hmin x (List.getElem?_mem hx))
    · next hnlt =>
      have hni : ni < pre.length := by
        by_contra hcon
        rw [List.getElem?_eq_none (by omega)] at hq
        exact Option.noConfusion hq
      have := ih (pre ++ [p]) ni q ⟨?_, ?_, ?_⟩
      · rw [happ]; rw [hlen] at this; exact this
      · rw [List.getElem?_append_left hni]; exact hq
      · intro x hx
        rcases List.mem_append.mp hx with hx | hx
        · exact hmin x hx
        · simp only [List.mem_singleton] at hx
          subst hx; exact not_lt.mp hnlt
      · intro j x hj hx
        rw [List.getElem?_append_left (by omega)] at hx
        exact hfirst j x hj hx

theorem whileStates_succ (dist : P → P → D) :
    ∀ (k : Nat) (s : List P × List P),
      whileStates dist (k + 1) s =
        match whileStates dist k s with
        | some s' => whileBody dist s'.1 s'.2
        | none => none := by
  intro k
  induction k with
  | zero => intro s; simp only [whileStates]; cases whileBody dist s.1 s.2 <;> rfl
  | succ k ih =>
    intro s
    rw [whileStates]
    cases hb : whileBody dist s.1 s.2 with
    | none => simp [whileStates, hb]
    | some s' => simp only [ih s']; simp [whileStates, hb]

/-- Over a linear order of distances: the stop at position `k` of the route is an
entry of the list `remaining` of stops not yet placed after `k - 1` passes, at
minimum distance from the stop at position `k - 1`, and every entry of
`remaining` before it is strictly farther away. -/
theorem optimizeRoute_first_nearest_of_linearOrder (dist : P → P → D) (start : P) (stops : List P)
    (h : 2 ≤ stops.length) (k : Nat) (hk1 : 1 ≤ k) (hk : k ≤ stops.length) :
    ∃ route remaining current chosen i,
      optimizeRoute dist (start :: stops) = some route ∧
      whileStates dist (k - 1) ([start], stops) = some (route.take k, remaining) ∧
      List.Perm remaining (route.drop k).dropLast ∧ List.Sublist remaining stops ∧
      route[k - 1]? = some current ∧ route[k]? = some chosen ∧
      IsFirstNearest dist current remaining i chosen := by
  obtain ⟨placed, hroute, hperm, hstates⟩ := optimizeRoute_shape dist start stops h
  obtain ⟨m, rfl⟩ : ∃ m, k = m + 1 := ⟨k - 1, by omega⟩
  have hlen : placed.length = stops.length := hperm.length_eq
  have hm : m < placed.length := by omega
  obtain ⟨remM, hstM, hpermM, hsubM⟩ := hstates m (by omega)
  obtain ⟨remS, hstS, -, -⟩ := hstates (m + 1) hk
  have hremlen : remM.length = placed.length - m := by
    rw [hpermM.length_eq, List.length_drop]
  cases remM with
  | nil => simp only [List.length_nil] at hremlen; omega
  | cons r0 rest =>
    have hne : start :: placed.take m ≠ [] := by simp
    obtain ⟨i, p, hp, hi, hbody⟩ := whileBody_some dist (start :: placed.take m) r0 rest hne
    have hsucc := whileStates_succ dist m ([start], stops)
    rw [hstS, hstM] at hsucc
    simp only [hbody, Option.some.injEq, Prod.mk.injEq] at hsucc
    have htake : placed.take (m + 1) = placed.take m ++ [p] := by
      have := hsucc.1
      simpa using this
    have hpm : placed[m]? = some p := by
      rw [List.take_succ] at htake
      have h2 := List.append_cancel_left htake
      cases hg : placed[m]? with
      | none => rw [hg] at h2; simp at h2
      | some x => rw [hg] at h2; simp at h2; rw [h2]
    have hcur : (start :: placed ++ [start])[m]? =
        some ((start :: placed.take m).getLast hne) := by
      have h1 : (start :: placed ++ [start])[m]? = (start :: placed)[m]? :=
        List.getElem?_append_left (by simp only [List.length_cons]; omega)
      have h3 : (start :: placed.take m).getLast? = (start :: placed)[m]? := by
        have h4 : start :: placed.take m = (start :: placed).take (m + 1) := by simp
        have hm' : m < (start :: placed).length := by simp only [List.length_cons]; omega
        rw [h4, List.getLast?_take, List.getElem?_eq_getElem hm']
        simp
      rw [h1, ← h3, List.getLast?_eq_getLast _ hne]
    obtain ⟨q', hq'⟩ := forLoop_spec dist ((start :: placed.take m).getLast hne) rest [r0] 0 r0
      ⟨by simp, by simp, by intro j q hj; omega⟩
    simp only [List.length_singleton, List.singleton_append] at hq'
    rw [← hi] at hq'
    have hq'p : q' = p := by
      have := hq'.1
      rw [hp] at this
      exact (Option.some.inj this).symm
    subst hq'p
    refine ⟨start :: placed ++ [start], r0 :: rest, (start :: placed.take m).getLast hne,
      q', i, hroute, ?_, ?_, hsubM, ?_, ?_, hq'⟩
    · simp only [Nat.add_sub_cancel, hstM]
      have : (placed ++ [start]).take m = placed.take m :=
        List.take_append_of_le_length (by omega)
      simp [this]
    · have : (placed ++ [start]).drop m = placed.drop m ++ [start] :=
        List.drop_append_of_le_length (by omega)
      simpa [this] using hpermM
    · simpa using hcur
    · have : (start :: placed ++ [start])[m + 1]? = placed[m]? := by
        simp only [List.cons_append, List.getElem?_cons_succ]
        exact List.getElem?_append_left hm
      rw [this, hpm]

end RouteNearest

section RouteTransfer

variable {P D D' : Type} [LT D] [DecidableRel ((· < ·) : D → D → Prop)]
  [LT D'] [DecidableRel ((· < ·) : D' → D' → Prop)]

theorem forLoop_congr (d : P → P → D) (d' : P → P → D') (current : P) :
    ∀ (rest : List P) (i nearestIndex : Nat) (q : P),
      (∀ p ∈ q :: rest, ∀ p' ∈ q :: rest,
        (d current p < d current p' ↔ d' current p < d' current p')) →
      forLoop d current rest i nearestIndex (d current q)
        = forLoop d' current rest i nearestIndex (d' current q) := by
  intro rest
  induction rest with
  | nil => intro i ni q _; rfl
  | cons p rest ih =>
    intro i ni q h
    have hpq := h p (by simp) q (by simp)
    simp only [forLoop]
    by_cases hlt : d current p < d current q
    · rw [if_pos hlt, if_pos (hpq.mp hlt)]
      exact ih (i + 1) i p (fun x hx y hy =>
        h x (List.mem_cons_of_mem _ hx) y (List.mem_cons_of_mem _ hy))
    · rw [if_neg hlt, if_neg (fun hc => hlt (hpq.mpr hc))]
      refine ih (i + 1) ni q (fun x hx y hy => h x ?_ y ?_)
      · rcases List.mem_cons.mp hx with rfl | hx
        · simp
        · exact List.mem_cons_of_mem _ (List.mem_cons_of_mem _ hx)
      · rcases List.mem_cons.mp hy with rfl | hy
        · simp
        · exact List.mem_cons_of_mem _ (List.mem_cons_of_mem _ hy)

theorem whileBody_congr (d : P → P → D) (d' : P → P → D') (route remaining : List P)
    (h : ∀ current, route.getLast? = some current → ∀ p ∈ remaining, ∀ p' ∈ remaining,
      (d current p < d current p' ↔ d' current p < d' current p')) :
    whileBody d route remaining = whileBody d' route remaining := by
  unfold whileBody
  cases hl : route.getLast? with
  | none => rfl
  | some current =>
    cases remaining with
    | nil => rfl
    | cons r0 rest =>
      simp only
      rw [forLoop_congr d d' current rest 1 0 r0 (h current hl)]

theorem whileBody_mem (d : P → P → D) (route remaining route' remaining' : List P)
    (h : whileBody d route remaining = some (route', remaining')) :
    route' ≠ [] ∧ (∀ x ∈ route', x ∈ route ∨ x ∈ remaining) ∧
      ∀ x ∈ remaining', x ∈ remaining := by
  unfold whileBody at h
  cases hl : route.getLast? with
  | none => rw [hl] at h; cases h
  | some current =>
    rw [hl] at h
    cases remaining with
    | nil => cases h
    | cons r0 rest =>
      simp only at h
      split at h
      · next p hp =>
        simp only [Option.some.injEq, Prod.mk.injEq] at h
        obtain ⟨h1, h2⟩ := h
        subst h1; subst h2
        refine ⟨by simp, ?_, ?_⟩
        · intro x hx
          rcases List.mem_append.mp hx with hx | hx
          · exact Or.inl hx
          · simp only [List.mem_singleton] at hx
            subst hx
            exact Or.inr (List.getElem?_mem hp)
        · intro x hx
          exact (List.eraseIdx_sublist _ _).subset hx
      · cases h

theorem whileStates_congr (d : P → P → D) (d' : P → P → D') (points : List P)
    (h : ∀ c ∈ points, ∀ p ∈ points, ∀ p' ∈ points, (d c p < d c p' ↔ d' c p < d' c p')) :
    ∀ (k : Nat) (route remaining : List P), (∀ x ∈ route, x ∈ points) →
      (∀ x ∈ remaining, x ∈ points) →
      whileStates d k (route, remaining) = whileStates d' k (route, remaining) := by
  intro k
  induction k with
  | zero => intro route remaining _ _; rfl
  | succ k ih =>
    intro route remaining hroute hrem
    have hbody : whileBody d route remaining = whileBody d' route remaining :=
      whileBody_congr d d' route remaining (fun current hc p hp p' hp' =>
        h current (hroute current (List.mem_of_mem_getLast? hc)) p (hrem p hp) p' (hrem p' hp'))
    simp only [whileStates]
    rw [← hbody]
    cases hb : whileBody d route remaining with
    | none => rfl
    | some s =>
      obtain ⟨route', remaining'⟩ := s
      obtain ⟨-, h1, h2⟩ := whileBody_mem d route remaining route' remaining' hb
      exact ih route' remaining'
        (fun x hx => (h1 x hx).elim (hroute x) (hrem x)) (fun x hx => hrem x (h2 x hx))

theorem whileLoop_congr (d : P → P → D) (d' : P → P → D') (points : List P)
    (h : ∀ c ∈ points, ∀ p ∈ points, ∀ p' ∈ points, (d c p < d c p' ↔ d' c p < d' c p')) :
    ∀ (fuel : Nat) (route remaining : List P), (∀ x ∈ route, x ∈ points) →
      (∀ x ∈ remaining, x ∈ points) →
      whileLoop d fuel route remaining = whileLoop d' fuel route remaining := by
  intro fuel
  induction fuel with
  | zero =>
    intro route remaining _ _
    cases remaining <;> rfl
  | succ fuel ih =>
    intro route remaining hroute hrem
    cases remaining with
    | nil => rfl
    | cons r0 rest =>
      have hbody : whileBody d route (r0 :: rest) = whileBody d' route (r0 :: rest) :=
        whileBody_congr d d' route (r0 :: rest) (fun current hc p hp p' hp' =>
          h current (hroute current (List.mem_of_mem_getLast? hc)) p (hrem p hp) p'
            (hrem p' hp'))
      simp only [whileLoop]
      rw [← hbody]
      cases hb : whileBody d route (r0 :: rest) with
      | none => rfl
      | some s =>
        obtain ⟨route', remaining'⟩ := s
        obtain ⟨-, h1, h2⟩ := whileBody_mem d route (r0 :: rest) route' remaining' hb
        exact ih route' remaining'
          (fun x hx => (h1 x hx).elim (hroute x) (hrem x)) (fun x hx => hrem x (h2 x hx))

theorem optimizeRoute_congr (d : P → P → D) (d' : P → P → D') (points : List P)
    (h : ∀ c ∈ points, ∀ p ∈ points, ∀ p' ∈ points, (d c p < d c p' ↔ d' c p < d' c p')) :
    optimizeRoute d points = optimizeRoute d' points := by
  unfold optimizeRoute
  cases points with
  | nil => rfl
  | cons p0 rest =>
    have hloop := whileLoop_congr d d' (p0 :: rest) h rest.length [p0] rest
      (fun x hx => by
        simp only [List.mem_singleton] at hx
        subst hx
        exact List.mem_cons_self _ _)
      (fun x hx => List.mem_cons_of_mem _ hx)
    simp only [List.getElem?_cons_zero, List.drop_succ_cons, List.drop_zero, hloop]

end RouteTransfer

section RouteNumbers

variable {P : Type}

theorem JSNum.lt_iff_rank (a b : JSNum) (ha : a ≠ .nan) (hb : b ≠ .nan) :
    a < b ↔ a.rank < b.rank := by
  show JSNum.lt a b = true ↔ _
  cases a <;> cases b <;> simp_all [JSNum.lt, JSNum.rank]
  · exact WithBot.coe_lt_coe.mpr (WithTop.coe_lt_top _)

theorem JSNum.le_iff_rank (a b : JSNum) (ha : a ≠ .nan) (hb : b ≠ .nan) :
    JSNum.le a b = true ↔ a.rank ≤ b.rank := by
  cases a <;> cases b <;> simp_all [JSNum.le, JSNum.rank]

theorem JSNum.not_lt_nan (a : JSNum) : ¬ a < JSNum.nan := by
  show ¬ JSNum.lt a .nan = true
  cases a <;> simp [JSNum.lt]

theorem rank_dist_congr (dist : P → P → JSNum) (points : List P)
    (hnan : ∀ p ∈ points, ∀ q ∈ points, dist p q ≠ .nan) :
    ∀ c ∈ points, ∀ p ∈ points, ∀ p' ∈ points,
      (dist c p < dist c p' ↔ (dist c p).rank < (dist c p').rank) :=
  fun c hc p hp p' hp' => JSNum.lt_iff_rank _ _ (hnan c hc p hp) (hnan c hc p' hp')

/-- C3, amended: when `calculateDistance` is not `NaN` between any two of the
points, then for every position `k ≥ 1` of the route before the closing point,
with `remaining` the list of stops not yet placed after `k - 1` passes of the
loop (a rearrangement of the stops found at positions `k` and later, kept in
input order), the stop at position `k` is an entry of `remaining` whose distance
from the stop at position `k - 1` is `<=` that of every entry of `remaining`,
and `<` that of every entry of `remaining` before it. -/
theorem optimizeRoute_picks_first_nearest (dist : P → P → JSNum) (start : P) (stops : List P)
    (h : 2 ≤ stops.length)
    (hnan : ∀ p ∈ start :: stops, ∀ q ∈ start :: stops, dist p q ≠ .nan)
    (k : Nat) (hk1 : 1 ≤ k) (hk : k ≤ stops.length) :
    ∃ route remaining current chosen i,
      optimizeRoute dist (start :: stops) = some route ∧
      whileStates dist (k - 1) ([start], stops) = some (route.take k, remaining) ∧
      List.Perm remaining (route.drop k).dropLast ∧ List.Sublist remaining stops ∧
      route[k - 1]? = some current ∧ route[k]? = some chosen ∧
      remaining[i]? = some chosen ∧
      (∀ q ∈ remaining, (dist current chosen).le (dist current q) = true) ∧
      ∀ (j : Nat) (q : P), j < i → remaining[j]? = some q →
        (dist current chosen).lt (dist current q) = true := by
  have hcongr := rank_dist_congr dist (start :: stops) hnan
  obtain ⟨route, remaining, current, chosen, i, hroute, hstates, hperm, hsub, hcur, hch,
      hidx, hmin, hfirst⟩ :=
    optimizeRoute_first_nearest_of_linearOrder (fun p q => (dist p q).rank) start stops h k
      hk1 hk
  rw [← optimizeRoute_congr dist _ (start :: stops) hcongr] at hroute
  rw [← whileStates_congr dist _ (start :: stops) hcongr (k - 1) [start] stops
    (fun x hx => by
      simp only [List.mem_singleton] at hx
      subst hx
      exact List.mem_cons_self _ _)
    (fun x hx => List.mem_cons_of_mem _ hx)] at hstates
  obtain ⟨placed, hshape, hplaced, -⟩ := optimizeRoute_shape dist start stops h
  have hrouteEq : route = start :: placed ++ [start] := by
    rw [hroute] at hshape
    exact Option.some.inj hshape
  have hrouteMem : ∀ x ∈ route, x ∈ start :: stops := by
    intro x hx
    rw [hrouteEq] at hx
    simp only [List.cons_append, List.mem_cons, List.mem_append, List.mem_singleton,
      List.not_mem_nil, or_false] at hx
    rcases hx with rfl | hx | rfl
    · exact List.mem_cons_self _ _
    · exact List.mem_cons_of_mem _ (hplaced.subset hx)
    · exact List.mem_cons_self _ _
  have hcurMem : current ∈ start :: stops := hrouteMem current (List.getElem?_mem hcur)
  have hremMem : ∀ q ∈ remaining, q ∈ start :: stops :=
    fun q hq => List.mem_cons_of_mem _ (hsub.subset hq)
  have hchMem : chosen ∈ start :: stops := hremMem chosen (List.getElem?_mem hidx)
  refine ⟨route, remaining, current, chosen, i, hroute, hstates, hperm, hsub, hcur, hch, hidx,
    ?_, ?_⟩
  · intro q hq
    exact (JSNum.le_iff_rank _ _ (hnan current hcurMem chosen hchMem)
      (hnan current hcurMem q (hremMem q hq))).mpr (hmin q hq)
  · intro j q hj hq
    exact (JSNum.lt_iff_rank _ _ (hnan current hcurMem chosen hchMem)
      (hnan current hcurMem q (hremMem q (List.getElem?_mem hq)))).mpr (hfirst j q hj hq)

/-- C4, amended: the route of `optimizeRoute` is not bounded by the tour in input
order; what holds for every start point and every list of at least two stops,
when `calculateDistance` is not `NaN` between any two of the points, is the
bound on the first leg: the distance from the start to the first stop of the
route is `<=` the distance from the start to every stop, so also to the first
stop of the input order.  For exactly two stops the route is the tour in input
order, or the same tour run through backwards when the second stop is strictly
nearer to the start than the first. -/
theorem optimizeRoute_first_leg_shortest (dist : P → P → JSNum) (start : P) (stops : List P)
    (h : 2 ≤ stops.length)
    (hnan : ∀ p ∈ start :: stops, ∀ q ∈ start :: stops, dist p q ≠ .nan) :
    ∃ route first, optimizeRoute dist (start :: stops) = some route ∧
      route[0]? = some start ∧ route[1]? = some first ∧ first ∈ stops ∧
      (∀ q ∈ stops, (dist start first).le (dist start q) = true) ∧
      (∀ a b, stops = [a, b] →
        route = if (dist start b).lt (dist start a) = true then [start, b, a, start]
          else [start, a, b, start]) := by
  have hcongr := rank_dist_congr dist (start :: stops) hnan
  obtain ⟨route, remaining, current, chosen, i, hroute, hstates, -, -, hcur, hch,
      hidx, hmin, -⟩ :=
    optimizeRoute_first_nearest_of_linearOrder (fun p q => (dist p q).rank) start stops h 1
      (Nat.le_refl 1) (by omega)
  rw [← optimizeRoute_congr dist _ (start :: stops) hcongr] at hroute
  obtain ⟨placed, hshape, -, -⟩ := optimizeRoute_shape dist start stops h
  have hrouteEq : route = start :: placed ++ [start] := by
    rw [hroute] at hshape
    exact Option.some.inj hshape
  have hrem : remaining = stops := by
    simp only [Nat.sub_self, whileStates, Option.some.injEq, Prod.mk.injEq] at hstates
    exact hstates.2.symm
  have hcurrent : current = start := by
    rw [hrouteEq] at hcur
    simpa using hcur.symm
  subst hrem
  subst hcurrent
  have hchMem : chosen ∈ remaining := List.getElem?_mem hidx
  refine ⟨route, chosen, hroute, ?_, hch, hchMem, ?_, ?_⟩
  · rw [hrouteEq]; simp
  · intro q hq
    exact (JSNum.le_iff_rank _ _
      (hnan current (List.mem_cons_self _ _) chosen (List.mem_cons_of_mem _ hchMem))
      (hnan current (List.mem_cons_self _ _) q (List.mem_cons_of_mem _ hq))).mpr (hmin q hq)
  · intro a b hab
    subst hab
    rw [optimizeRoute_two_stops] at hroute
    exact (Option.some.inj hroute).symm

end RouteNumbers

section DoubleArithmetic

variable {K : Type} [LinearOrderedField K] [FloorRing K]

theorem roundDouble_zero : roundDouble (0 : K) = 0 := if_pos rfl

theorem roundDouble_of_eq_zero (x : K) (h : x = 0) : roundDouble x = 0 := by
  rw [h, roundDouble_zero]

theorem roundHalfEven_of_abs_lt (y : K) (m : ℤ) (h : |y - m| < 1 / 2) :
    roundHalfEven y = m := by
  have h' := abs_lt.mp h
  unfold roundHalfEven
  by_cases hge : (m : K) ≤ y
  · have hfl : ⌊y⌋ = m := Int.floor_eq_iff.mpr ⟨hge, by linarith [h'.2]⟩
    rw [hfl, if_pos (by linarith [h'.2])]
  · have hfl : ⌊y⌋ = m - 1 :=
      Int.floor_eq_iff.mpr ⟨by push_cast; linarith [h'.1], by push_cast; linarith⟩
    rw [hfl]
    have h1 : ¬ (y - ((m - 1 : ℤ) : K) < 1 / 2) := by push_cast; linarith [h'.1]
    have h2 : (1 / 2 : K) < y - ((m - 1 : ℤ) : K) := by push_cast; linarith [h'.1]
    rw [if_neg h1, if_pos h2]
    ring

theorem roundHalfEven_abs_sub_le (y : K) : |(roundHalfEven y : K) - y| ≤ 1 / 2 := by
  have h1 := Int.floor_le y
  have h2 := Int.lt_floor_add_one y
  unfold roundHalfEven
  split_ifs with a b c
  · rw [abs_le]; constructor <;> linarith
  · rw [abs_le]; push_cast; constructor <;> linarith
  · rw [abs_le]; constructor <;> linarith
  · rw [abs_le]; push_cast; constructor <;> linarith

theorem log_two_eq (x : K) (n : ℤ) (h1 : (2 : K) ^ n ≤ |x|) (h2 : |x| < (2 : K) ^ (n + 1)) :
    Int.log 2 |x| = n := by
  have hpos : (0 : K) < |x| := lt_of_lt_of_le (by positivity) h1
  have ha : n ≤ Int.log 2 |x| :=
    (Int.zpow_le_iff_le_log (by norm_num) hpos).mp (by exact_mod_cast h1)
  have hb : Int.log 2 |x| < n + 1 :=
    (Int.lt_zpow_iff_log_lt (by norm_num) hpos).mp (by exact_mod_cast h2)
  omega

theorem roundDouble_eq (x : K) (e m : ℤ) (h1 : (2 : K) ^ (e + 52) ≤ |x|)
    (h2 : |x| < (2 : K) ^ (e + 52 + 1)) (h3 : |x / (2 : K) ^ e - m| < 1 / 2) :
    roundDouble x = m * (2 : K) ^ e := by
  have hx : x ≠ 0 := by
    intro h
    rw [h, abs_zero] at h1
    have : (0 : K) < (2 : K) ^ (e + 52) := by positivity
    linarith
  have hlog := log_two_eq x (e + 52) h1 h2
  unfold roundDouble
  rw [if_neg hx, hlog]
  have he : e + 52 - 52 = e := by ring
  rw [he, roundHalfEven_of_abs_lt _ m h3]

theorem roundDouble_eq_pos (x : K) (e m : ℤ) (h1 : (2 : K) ^ (e + 52) ≤ x)
    (h2 : x < (2 : K) ^ (e + 52 + 1)) (h3 : (m : K) - 1 / 2 < x / (2 : K) ^ e)
    (h4 : x / (2 : K) ^ e < (m : K) + 1 / 2) :
    roundDouble x = m * (2 : K) ^ e := by
  have hpos : (0 : K) < x := lt_of_lt_of_le (by positivity) h1
  apply roundDouble_eq x e m
  · rwa [abs_of_pos hpos]
  · rwa [abs_of_pos hpos]
  · rw [abs_lt]; constructor <;> linarith

theorem roundDouble_eq_neg (x : K) (e m : ℤ) (h1 : (2 : K) ^ (e + 52) ≤ -x)
    (h2 : -x < (2 : K) ^ (e + 52 + 1)) (h3 : (m : K) - 1 / 2 < x / (2 : K) ^ e)
    (h4 : x / (2 : K) ^ e < (m : K) + 1 / 2) :
    roundDouble x = m * (2 : K) ^ e := by
  have hneg : x < 0 := by
    have : (0 : K) < (2 : K) ^ (e + 52) := by positivity
    linarith
  apply roundDouble_eq x e m
  · rwa [abs_of_neg hneg]
  · rwa [abs_of_neg hneg]
  · rw [abs_lt]; constructor <;> linarith

/-- Rounding to a double changes a number by at most the fraction `2 ^ -53` of
its size. -/
theorem roundDouble_abs_sub_le (x : K) : |roundDouble x - x| ≤ |x| / 2 ^ 53 := by
  unfold roundDouble
  by_cases hx : x = 0
  · simp [hx]
  rw [if_neg hx]
  have hpos : (0 : K) < |x| := abs_pos.mpr hx
  set n := Int.log 2 |x| with hn
  have hlow : (2 : K) ^ n ≤ |x| := by
    have := Int.zpow_log_le_self (b := 2) (by norm_num) hpos
    exact_mod_cast this
  have hp : (0 : K) < (2 : K) ^ (n - 52) := by positivity
  have hr := roundHalfEven_abs_sub_le (x / (2 : K) ^ (n - 52))
  have key : (roundHalfEven (x / (2 : K) ^ (n - 52)) : K) * (2 : K) ^ (n - 52) - x
      = ((roundHalfEven (x / (2 : K) ^ (n - 52)) : K) - x / (2 : K) ^ (n - 52))
        * (2 : K) ^ (n - 52) := by
    field_simp
  rw [key, abs_mul, abs_of_pos hp]
  have h53 : (2 : K) ^ (n - 52) = (2 : K) ^ n / 2 ^ 52 := by
    rw [zpow_sub₀ (by norm_num : (2 : K) ≠ 0)]
    norm_cast
  calc |(roundHalfEven (x / (2 : K) ^ (n - 52)) : K) - x / (2 : K) ^ (n - 52)|
        * (2 : K) ^ (n - 52)
      ≤ 1 / 2 * (2 : K) ^ (n - 52) := by gcongr
    _ = (2 : K) ^ n / 2 ^ 53 := by rw [h53]; ring
    _ ≤ |x| / 2 ^ 53 := by gcongr

end DoubleArithmetic

section HaversineDouble

theorem roundDouble_dbl_pos (x : ℚ) (m e : ℤ) (h1 : (2 : ℚ) ^ (e + 52) ≤ x)
    (h2 : x < (2 : ℚ) ^ (e + 52 + 1)) (h3 : (m : ℚ) - 1 / 2 < x / (2 : ℚ) ^ e)
    (h4 : x / (2 : ℚ) ^ e < (m : ℚ) + 1 / 2) : roundDouble x = dbl m e :=
  roundDouble_eq_pos x e m h1 h2 h3 h4

theorem roundDouble_dbl_neg (x : ℚ) (m e : ℤ) (h1 : (2 : ℚ) ^ (e + 52) ≤ -x)
    (h2 : -x < (2 : ℚ) ^ (e + 52 + 1)) (h3 : (m : ℚ) - 1 / 2 < x / (2 : ℚ) ^ e)
    (h4 : x / (2 : ℚ) ^ e < (m : ℚ) + 1 / 2) : roundDouble x = dbl m e :=
  roundDouble_eq_neg x e m h1 h2 h3 h4

theorem JSNum.add_eq (a b : ℚ) (m e : ℤ) (h : roundDouble (a + b) = dbl m e) :
    (JSNum.fin a).add (.fin b) = .fin (dbl m e) := by
  show JSNum.fin (roundDouble (a + b)) = _
  rw [h]

theorem JSNum.sub_eq (a b : ℚ) (m e : ℤ) (h : roundDouble (a + -b) = dbl m e) :
    (JSNum.fin a).sub (.fin b) = .fin (dbl m e) := by
  show JSNum.fin (roundDouble (a + -b)) = _
  rw [h]

theorem JSNum.mul_eq (a b : ℚ) (m e : ℤ) (h : roundDouble (a * b) = dbl m e) :
    (JSNum.fin a).mul (.fin b) = .fin (dbl m e) := by
  show JSNum.fin (roundDouble (a * b)) = _
  rw [h]

theorem JSNum.div_eq (a b : ℚ) (m e : ℤ) (hb : b ≠ 0) (h : roundDouble (a / b) = dbl m e) :
    (JSNum.fin a).div (.fin b) = .fin (dbl m e) := by
  show (if b = 0 then _ else JSNum.fin (roundDouble (a / b))) = _
  rw [if_neg hb, h]

theorem JSNum.add_eq_zero (a b : ℚ) (h : a + b = 0) :
    (JSNum.fin a).add (.fin b) = .fin 0 := by
  show JSNum.fin (roundDouble (a + b)) = _
  rw [roundDouble_of_eq_zero _ h]

theorem JSNum.sub_eq_zero (a b : ℚ) (h : a + -b = 0) :
    (JSNum.fin a).sub (.fin b) = .fin 0 := by
  show JSNum.fin (roundDouble (a + -b)) = _
  rw [roundDouble_of_eq_zero _ h]

theorem JSNum.mul_eq_zero (a b : ℚ) (h : a * b = 0) :
    (JSNum.fin a).mul (.fin b) = .fin 0 := by
  show JSNum.fin (roundDouble (a * b)) = _
  rw [roundDouble_of_eq_zero _ h]

theorem JSNum.div_eq_zero (a b : ℚ) (hb : b ≠ 0) (h : a / b = 0) :
    (JSNum.fin a).div (.fin b) = .fin 0 := by
  show (if b = 0 then _ else JSNum.fin (roundDouble (a / b))) = _
  rw [if_neg hb, roundDouble_of_eq_zero _ h]

/-- The distance from `[8, 0]` to its antipode `[-8, 180]`: the sum `a` rounds to
`1.0000000000000002`, so that `1 - a` is negative and its square root, and with
it the distance, is `NaN`. -/
theorem calculateDistance_antipode :
    Double.calculateDistance sampleMath (8, 0) (-8, 180) = .nan := by
  have h1 : (JSNum.fin (-8)).sub (JSNum.fin (8)) = .fin (dbl (-4503599627370496) (-48)) :=
    JSNum.sub_eq _ _ _ _ (roundDouble_dbl_neg _ _ _ (by norm_num [dbl, mathPI]) (by norm_num [dbl, mathPI])
      (by norm_num [dbl, mathPI]) (by norm_num [dbl, mathPI]))
  have h2 : (JSNum.fin (dbl (-4503599627370496) (-48))).mul (JSNum.fin (mathPI)) = .fin (dbl (-7074237752028440) (-47)) :=
    JSNum.mul_eq _ _ _ _ (roundDouble_dbl_neg _ _ _ (by norm_num [dbl, mathPI]) (by norm_num [dbl, mathPI])
      (by norm_num [dbl, mathPI]) (by norm_num [dbl, mathPI]))
  have h3 : (JSNum.fin (dbl (-7074237752028440) (-47))).div (JSNum.fin (180)) = .fin (dbl (-5030569068109113) (-54)) :=
    JSNum.div_eq _ _ _ _ (by norm_num) (roundDouble_dbl_neg _ _ _ (by norm_num [dbl, mathPI]) (by norm_num [dbl, mathPI])
      (by norm_num [dbl, mathPI]) (by norm_num [dbl, mathPI]))
  have h4 : (JSNum.fin (180)).sub (JSNum.fin (0)) = .fin (dbl 6333186975989760 (-45)) :=
    JSNum.sub_eq _ _ _ _ (roundDouble_dbl_pos _ _ _ (by norm_num [dbl, mathPI]) (by norm_num [dbl, mathPI])
      (by norm_num [dbl, mathPI]) (by norm_num [dbl, mathPI]))
  have h5 : (JSNum.fin (dbl 6333186975989760 (-45))).mul (JSNum.fin (mathPI)) = .fin (dbl 4974073419394997 (-43)) :=
    JSNum.mul_eq _ _ _ _ (roundDouble_dbl_pos _ _ _ (by norm_num [dbl, mathPI]) (by norm_num [dbl, mathPI])
      (by norm_num [dbl, mathPI]) (by norm_num [dbl, mathPI]))
  have h6 : (JSNum.fin (dbl 4974073419394997 (-43))).div (JSNum.fin (180)) = .fin (dbl 7074237752028440 (-51)) :=
    JSNum.div_eq _ _ _ _ (by norm_num) (roundDouble_dbl_pos _ _ _ (by norm_num [dbl, mathPI]) (by norm_num [dbl, mathPI])
      (by norm_num [dbl, mathPI]) (by norm_num [dbl, mathPI]))
  have h7 : (JSNum.fin (dbl (-5030569068109113) (-54))).div (JSNum.fin (2)) = .fin (dbl (-5030569068109113) (-55)) :=
    JSNum.div_eq _ _ _ _ (by norm_num) (roundDouble_dbl_neg _ _ _ (by norm_num [dbl, mathPI]) (by norm_num [dbl, mathPI])
      (by norm_num [dbl, mathPI]) (by norm_num [dbl, mathPI]))
  have h8 : mathSin sampleMath (JSNum.fin (dbl (-5030569068109113) (-55))) = .fin (dbl (-5014239404989977) (-55)) := by
    norm_num [mathSin, sampleMath, dbl]
  have h9 : (JSNum.fin (dbl (-5014239404989977) (-55))).mul (JSNum.fin (dbl (-5014239404989977) (-55))) = .fin (dbl 5582777975588868 (-58)) :=
    JSNum.mul_eq _ _ _ _ (roundDouble_dbl_pos _ _ _ (by norm_num [dbl, mathPI]) (by norm_num [dbl, mathPI])
      (by norm_num [dbl, mathPI]) (by norm_num [dbl, mathPI]))
  have h10 : (JSNum.fin (8)).mul (JSNum.fin (mathPI)) = .fin (dbl 7074237752028440 (-48)) :=
    JSNum.mul_eq _ _ _ _ (roundDouble_dbl_pos _ _ _ (by norm_num [dbl, mathPI]) (by norm_num [dbl, mathPI])
      (by norm_num [dbl, mathPI]) (by norm_num [dbl, mathPI]))
  have h11 : (JSNum.fin (dbl 7074237752028440 (-48))).div (JSNum.fin (180)) = .fin (dbl 5030569068109113 (-55)) :=
    JSNum.div_eq _ _ _ _ (by norm_num) (roundDouble_dbl_pos _ _ _ (by norm_num [dbl, mathPI]) (by norm_num [dbl, mathPI])
      (by norm_num [dbl, mathPI]) (by norm_num [dbl, mathPI]))
  have h12 : mathCos sampleMath (JSNum.fin (dbl 5030569068109113 (-55))) = .fin (dbl 8919541810762874 (-53)) := by
    norm_num [mathCos, sampleMath, dbl]
  have h13 : (JSNum.fin (-8)).mul (JSNum.fin (mathPI)) = .fin (dbl (-7074237752028440) (-48)) :=
    JSNum.mul_eq _ _ _ _ (roundDouble_dbl_neg _ _ _ (by norm_num [dbl, mathPI]) (by norm_num [dbl, mathPI])
      (by norm_num [dbl, mathPI]) (by norm_num [dbl, mathPI]))
  have h14 : (JSNum.fin (dbl (-7074237752028440) (-48))).div (JSNum.fin (180)) = .fin (dbl (-5030569068109113) (-55)) :=
    JSNum.div_eq _ _ _ _ (by norm_num) (roundDouble_dbl_neg _ _ _ (by norm_num [dbl, mathPI]) (by norm_num [dbl, mathPI])
      (by norm_num [dbl, mathPI]) (by norm_num [dbl, mathPI]))
  have h15 : mathCos sampleMath (JSNum.fin (dbl (-5030569068109113) (-55))) = .fin (dbl 8919541810762874 (-53)) := by
    norm_num [mathCos, sampleMath, dbl]
  have h16 : (JSNum.fin (dbl 8919541810762874 (-53))).mul (JSNum.fin (dbl 8919541810762874 (-53))) = .fin (dbl 8832737443003841 (-53)) :=
    JSNum.mul_eq _ _ _ _ (roundDouble_dbl_pos _ _ _ (by norm_num [dbl, mathPI]) (by norm_num [dbl, mathPI])
      (by norm_num [dbl, mathPI]) (by norm_num [dbl, mathPI]))
  have h17 : (JSNum.fin (dbl 7074237752028440 (-51))).div (JSNum.fin (2)) = .fin (dbl 7074237752028440 (-52)) :=
    JSNum.div_eq _ _ _ _ (by norm_num) (roundDouble_dbl_pos _ _ _ (by norm_num [dbl, mathPI]) (by norm_num [dbl, mathPI])
      (by norm_num [dbl, mathPI]) (by norm_num [dbl, mathPI]))
  have h18 : mathSin sampleMath (JSNum.fin (dbl 7074237752028440 (-52))) = .fin (dbl 4503599627370496 (-52)) := by
    norm_num [mathSin, sampleMath, dbl]
  have h19 : (JSNum.fin (dbl 8832737443003841 (-53))).mul (JSNum.fin (dbl 4503599627370496 (-52))) = .fin (dbl 8832737443003841 (-53)) :=
    JSNum.mul_eq _ _ _ _ (roundDouble_dbl_pos _ _ _ (by norm_num [dbl, mathPI]) (by norm_num [dbl, mathPI])
      (by norm_num [dbl, mathPI]) (by norm_num [dbl, mathPI]))
  have h21 : (JSNum.fin (dbl 5582777975588868 (-58))).add (JSNum.fin (dbl 8832737443003841 (-53))) = .fin (dbl 4503599627370497 (-52)) :=
    JSNum.add_eq _ _ _ _ (roundDouble_dbl_pos _ _ _ (by norm_num [dbl, mathPI]) (by norm_num [dbl, mathPI])
      (by norm_num [dbl, mathPI]) (by norm_num [dbl, mathPI]))
  have h22 : (JSNum.fin (1)).sub (JSNum.fin (dbl 4503599627370497 (-52))) = .fin (dbl (-4503599627370496) (-104)) :=
    JSNum.sub_eq _ _ _ _ (roundDouble_dbl_neg _ _ _ (by norm_num [dbl, mathPI]) (by norm_num [dbl, mathPI])
      (by norm_num [dbl, mathPI]) (by norm_num [dbl, mathPI]))
  simp only [Double.calculateDistance, h1, h2, h3, h4, h5, h6, h7, h8, h9, h10, h11, h12, h13, h14, h15, h16, h17, h18, h19, h21, h22]
  norm_num [mathSqrt, mathAtan2, JSNum.mul, dbl]

/-- The distance from `[8, 0]` to itself is `0`. -/
theorem calculateDistance_same_point :
    Double.calculateDistance sampleMath (8, 0) (8, 0) = .fin 0 := by
  have h1 : (JSNum.fin (8)).sub (JSNum.fin (8)) = .fin (0) :=
    JSNum.sub_eq_zero _ _ (by norm_num [dbl, mathPI])
  have h2 : (JSNum.fin (0)).mul (JSNum.fin (mathPI)) = .fin (0) :=
    JSNum.mul_eq_zero _ _ (by norm_num [dbl, mathPI])
  have h3 : (JSNum.fin (0)).div (JSNum.fin (180)) = .fin (0) :=
    JSNum.div_eq_zero _ _ (by norm_num) (by norm_num [dbl, mathPI])
  have h4 : (JSNum.fin (0)).sub (JSNum.fin (0)) = .fin (0) :=
    JSNum.sub_eq_zero _ _ (by norm_num [dbl, mathPI])
  have h7 : (JSNum.fin (0)).div (JSNum.fin (2)) = .fin (0) :=
    JSNum.div_eq_zero _ _ (by norm_num) (by norm_num [dbl, mathPI])
  have h8 : mathSin sampleMath (JSNum.fin (0)) = .fin (0) := by
    norm_num [mathSin, sampleMath, dbl]
  have h9 : (JSNum.fin (0)).mul (JSNum.fin (0)) = .fin (0) :=
    JSNum.mul_eq_zero _ _ (by norm_num [dbl, mathPI])
  have h10 : (JSNum.fin (8)).mul (JSNum.fin (mathPI)) = .fin (dbl 7074237752028440 (-48)) :=
    JSNum.mul_eq _ _ _ _ (roundDouble_dbl_pos _ _ _ (by norm_num [dbl, mathPI]) (by norm_num [dbl, mathPI])
      (by norm_num [dbl, mathPI]) (by norm_num [dbl, mathPI]))
  have h11 : (JSNum.fin (dbl 7074237752028440 (-48))).div (JSNum.fin (180)) = .fin (dbl 5030569068109113 (-55)) :=
    JSNum.div_eq _ _ _ _ (by norm_num) (roundDouble_dbl_pos _ _ _ (by norm_num [dbl, mathPI]) (by norm_num [dbl, mathPI])
      (by norm_num [dbl, mathPI]) (by norm_num [dbl, mathPI]))
  have h12 : mathCos sampleMath (JSNum.fin (dbl 5030569068109113 (-55))) = .fin (dbl 8919541810762874 (-53)) := by
    norm_num [mathCos, sampleMath, dbl]
  have h16 : (JSNum.fin (dbl 8919541810762874 (-53))).mul (JSNum.fin (dbl 8919541810762874 (-53))) = .fin (dbl 8832737443003841 (-53)) :=
    JSNum.mul_eq _ _ _ _ (roundDouble_dbl_pos _ _ _ (by norm_num [dbl, mathPI]) (by norm_num [dbl, mathPI])
      (by norm_num [dbl, mathPI]) (by norm_num [dbl, mathPI]))
  have h19 : (JSNum.fin (dbl 8832737443003841 (-53))).mul (JSNum.fin (0)) = .fin (0) :=
    JSNum.mul_eq_zero _ _ (by norm_num [dbl, mathPI])
  have h21 : (JSNum.fin (0)).add (JSNum.fin (0)) = .fin (0) :=
    JSNum.add_eq_zero _ _ (by norm_num [dbl, mathPI])
  have h22 : (JSNum.fin (1)).sub (JSNum.fin (0)) = .fin (dbl 4503599627370496 (-52)) :=
    JSNum.sub_eq _ _ _ _ (roundDouble_dbl_pos _ _ _ (by norm_num [dbl, mathPI]) (by norm_num [dbl, mathPI])
      (by norm_num [dbl, mathPI]) (by norm_num [dbl, mathPI]))
  have hs0 : mathSqrt sampleMath (.fin 0) = .fin 0 := by
    norm_num [mathSqrt, sampleMath, dbl]
  have hs1 : mathSqrt sampleMath (.fin (dbl 4503599627370496 (-52))) = .fin 1 := by
    norm_num [mathSqrt, sampleMath, dbl]
  have hat : mathAtan2 sampleMath (.fin 0) (.fin 1) = .fin 0 := rfl
  have hm2 : (JSNum.fin 2).mul (.fin 0) = .fin 0 := JSNum.mul_eq_zero _ _ (by norm_num)
  have hmR : (JSNum.fin 6371).mul (.fin 0) = .fin 0 := JSNum.mul_eq_zero _ _ (by norm_num)
  simp only [Double.calculateDistance, h1, h2, h3, h4, h7, h8, h9, h10, h11, h12, h16, h19, h21,
    h22, hs0, hs1, hat, hm2, hmR]

/-- Counterexample to C3: from the start `[8, 0]` with the stops `[-8, 180]` and
`[8, 0]`, the distance to the first stop, the antipode of the start, is `NaN`
in double arithmetic, no later distance compares as smaller, and
`optimizeRoute` places the antipode at position `1` although the other stop
lies at distance `0` from the start. -/
theorem optimizeRoute_antipodal_stop_first :
    Double.calculateDistance sampleMath (8, 0) (-8, 180) = .nan ∧
    Double.calculateDistance sampleMath (8, 0) (8, 0) = .fin 0 ∧
    optimizeRoute (Double.calculateDistance sampleMath) [(8, 0), (-8, 180), (8, 0)]
      = some [(8, 0), (-8, 180), (8, 0), (8, 0)] ∧
    (Double.calculateDistance sampleMath (8, 0) (-8, 180)).le
      (Double.calculateDistance sampleMath (8, 0) (8, 0)) = false := by
  have hlt : ¬ (Double.calculateDistance sampleMath (8, 0) (8, 0)
      < Double.calculateDistance sampleMath (8, 0) (-8, 180)) := by
    rw [calculateDistance_antipode]; exact JSNum.not_lt_nan _
  have hle : JSNum.le .nan (.fin 0) = false := rfl
  refine ⟨calculateDistance_antipode, calculateDistance_same_point, ?_, ?_⟩
  · rw [optimizeRoute_two_stops, if_neg hlt]
  · rw [calculateDistance_antipode, calculateDistance_same_point]
    exact hle

end HaversineDouble

section Haversine

theorem atan2_sin_cos (θ : ℝ) (h0 : 0 ≤ θ) (h1 : θ ≤ Real.pi / 2) :
    atan2 (Real.sqrt (Real.sin θ * Real.sin θ))
      (Real.sqrt (1 - Real.sin θ * Real.sin θ)) = θ := by
  have hpi := Real.pi_pos
  have hs : 0 ≤ Real.sin θ := Real.sin_nonneg_of_nonneg_of_le_pi h0 (by linarith)
  have hc : 0 ≤ Real.cos θ := Real.cos_nonneg_of_neg_pi_div_two_le_of_le (by linarith) h1
  have hcc : 1 - Real.sin θ * Real.sin θ = Real.cos θ * Real.cos θ := by
    have := Real.sin_sq_add_cos_sq θ
    nlinarith
  rw [hcc, Real.sqrt_mul_self hs, Real.sqrt_mul_self hc]
  unfold atan2
  rw [Complex.arg_of_re_nonneg (by simpa using hc)]
  have habs : Complex.abs ⟨Real.cos θ, Real.sin θ⟩ = 1 := by
    rw [Complex.abs_apply, Complex.normSq_mk]
    have := Real.sin_sq_add_cos_sq θ
    have h2 : Real.cos θ * Real.cos θ + Real.sin θ * Real.sin θ = 1 := by nlinarith
    rw [h2, Real.sqrt_one]
  rw [habs]
  simp only [div_one]
  exact Real.arcsin_sin (by linarith) h1

/-- Along the equator the haversine distance is proportional to the difference
in longitude. -/
theorem calculateDistance_equator (x y : ℝ) (h : |y - x| ≤ 180) :
    calculateDistance (0, x) (0, y) = |y - x| * (6371 * Real.pi / 180) := by
  have hpi := Real.pi_pos
  have hθ0 : 0 ≤ |y - x| * (Real.pi / 360) := by positivity
  have hθ1 : |y - x| * (Real.pi / 360) ≤ Real.pi / 2 := by nlinarith
  have habs : |(y - x) * Real.pi / 180 / 2| = |y - x| * (Real.pi / 360) := by
    have : (y - x) * Real.pi / 180 / 2 = (y - x) * (Real.pi / 360) := by ring
    rw [this, abs_mul, abs_of_pos (by positivity : (0 : ℝ) < Real.pi / 360)]
  have hsq : Real.sin ((y - x) * Real.pi / 180 / 2) * Real.sin ((y - x) * Real.pi / 180 / 2)
      = Real.sin (|y - x| * (Real.pi / 360)) * Real.sin (|y - x| * (Real.pi / 360)) := by
    rw [← habs]
    rcases abs_cases ((y - x) * Real.pi / 180 / 2) with ⟨h1, _⟩ | ⟨h1, _⟩
    · rw [h1]
    · rw [h1, Real.sin_neg]; ring
  unfold calculateDistance
  simp only [sub_self, zero_mul, zero_div, Real.sin_zero, mul_zero, Real.cos_zero, one_mul,
    zero_add, mul_one]
  rw [hsq, atan2_sin_cos _ hθ0 hθ1]
  ring

theorem calculateDistance_symm (p q : ℝ × ℝ) : calculateDistance p q = calculateDistance q p := by
  have h1 : Real.sin ((p.1 - q.1) * Real.pi / 180 / 2) =
      - Real.sin ((q.1 - p.1) * Real.pi / 180 / 2) := by
    rw [← Real.sin_neg]; congr 1; ring
  have h2 : Real.sin ((p.2 - q.2) * Real.pi / 180 / 2) =
      - Real.sin ((q.2 - p.2) * Real.pi / 180 / 2) := by
    rw [← Real.sin_neg]; congr 1; ring
  unfold calculateDistance
  simp only [h1, h2]
  ring_nf

theorem equator_distance_value (x y d : ℝ) (hd : |y - x| = d) (h : d ≤ 180) :
    calculateDistance (0, x) (0, y) = d * (6371 * Real.pi / 180) := by
  rw [calculateDistance_equator x y (by rw [hd]; exact h), hd]

/-- Counterexample to C4: from the start `(0, 0)` with the stops `(0, -3)`,
`(0, 2)`, `(0, 8)` on the equator, `optimizeRoute` goes to `(0, 2)` first and
its route is strictly longer than the tour visiting the stops in input order. -/
theorem optimizeRoute_longer_than_input_order :
    optimizeRoute calculateDistance [(0, 0), (0, -3), (0, 2), (0, 8)]
      = some [(0, 0), (0, 2), (0, -3), (0, 8), (0, 0)] ∧
    routeLength calculateDistance [(0, 0), (0, -3), (0, 2), (0, 8), (0, 0)]
      < routeLength calculateDistance [(0, 0), (0, 2), (0, -3), (0, 8), (0, 0)] := by
  have hK : (0 : ℝ) < 6371 * Real.pi / 180 := by positivity
  have e1 : calculateDistance (0, 0) (0, -3) = 3 * (6371 * Real.pi / 180) :=
    equator_distance_value 0 (-3) 3 (by norm_num) (by norm_num)
  have e2 : calculateDistance (0, 0) (0, 2) = 2 * (6371 * Real.pi / 180) :=
    equator_distance_value 0 2 2 (by norm_num) (by norm_num)
  have e3 : calculateDistance (0, 0) (0, 8) = 8 * (6371 * Real.pi / 180) :=
    equator_distance_value 0 8 8 (by norm_num) (by norm_num)
  have e4 : calculateDistance (0, 2) (0, -3) = 5 * (6371 * Real.pi / 180) :=
    equator_distance_value 2 (-3) 5 (by norm_num) (by norm_num)
  have e5 : calculateDistance (0, 2) (0, 8) = 6 * (6371 * Real.pi / 180) :=
    equator_distance_value 2 8 6 (by norm_num) (by norm_num)
  have e6 : calculateDistance (0, -3) (0, 8) = 11 * (6371 * Real.pi / 180) :=
    equator_distance_value (-3) 8 11 (by norm_num) (by norm_num)
  have e7 : calculateDistance (0, -3) (0, 2) = 5 * (6371 * Real.pi / 180) :=
    equator_distance_value (-3) 2 5 (by norm_num) (by norm_num)
  have e8 : calculateDistance (0, 8) (0, 0) = 8 * (6371 * Real.pi / 180) :=
    equator_distance_value 8 0 8 (by norm_num) (by norm_num)
  constructor
  · norm_num [-Prod.mk_zero_zero, optimizeRoute, whileLoop, whileBody, forLoop, e1, e2, e3,
      e4, e5, e6, hK]
  · simp only [routeLength, e1, e2, e3, e4, e5, e6, e7, e8]
    nlinarith

end Haversine

section FieldNormalizer

open JSVal

/-- C5: for every trip record in which `start_date` or `startDate` is defined,
`getTripField(trip, 'startDate')` (in `SavedTrips.jsx` and in `MapDisplay.jsx`)
returns the value of `start_date` when that one is defined, also when both are,
and the value of `startDate` otherwise; the returned value is defined. -/
theorem getTripField_startDate (fields : List (String × JSVal))
    (h : (ownProp fields "start_date").isUndefined = false ∨
      (ownProp fields "startDate").isUndefined = false) :
    SavedTrips.getTripField (obj fields) "startDate" =
        .ok (if (ownProp fields "start_date").isUndefined then ownProp fields "startDate"
          else ownProp fields "start_date") ∧
    MapDisplay.getTripField (obj fields) "startDate" =
        .ok (if (ownProp fields "start_date").isUndefined then ownProp fields "startDate"
          else ownProp fields "start_date") ∧
    (if (ownProp fields "start_date").isUndefined then ownProp fields "startDate"
      else ownProp fields "start_date").isUndefined = false := by
  cases hs : (ownProp fields "start_date").isUndefined with
  | false =>
    simp [SavedTrips.getTripField, SavedTrips.fieldMapping, MapDisplay.getTripField,
      MapDisplay.fieldMapping, firstDefined, getProp, truthy, hs]
  | true =>
    have hc : (ownProp fields "startDate").isUndefined = false := by
      rcases h with h | h
      · rw [hs] at h; exact absurd h (by decide)
      · exact h
    simp [SavedTrips.getTripField, SavedTrips.fieldMapping, MapDisplay.getTripField,
      MapDisplay.fieldMapping, firstDefined, getProp, truthy, hs, hc]

/-- C6: for each canonical field of the table in `SavedTrips.jsx` (`startDate`,
`endDate`, `budget`, `createdAt`) and every trip record in which none of the
aliases of that field is defined, `getTripField` returns `undefined`: it does
not throw and puts no default in its place. -/
theorem getTripField_absent (field : String) (aliases : List String)
    (fields : List (String × JSVal))
    (hfield : SavedTrips.fieldMapping field = some aliases)
    (hnone : ∀ a ∈ aliases, (ownProp fields a).isUndefined = true) :
    SavedTrips.getTripField (obj fields) field = .ok undefined := by
  have hundef : ∀ v : JSVal, v.isUndefined = true → v = undefined := by
    intro v hv; cases v <;> simp_all [isUndefined]
  unfold SavedTrips.fieldMapping at hfield
  split at hfield
  · next hf =>
    subst hf; cases hfield
    have h1 := hnone "start_date" (by simp)
    have h2 := hnone "startDate" (by simp)
    simp [SavedTrips.getTripField, SavedTrips.fieldMapping, firstDefined, getProp,
      hundef _ h1, hundef _ h2, isUndefined]
  · split at hfield
    · next hf =>
      subst hf; cases hfield
      have h1 := hnone "end_date" (by simp)
      have h2 := hnone "endDate" (by simp)
      simp [SavedTrips.getTripField, SavedTrips.fieldMapping, firstDefined, getProp,
        hundef _ h1, hundef _ h2, isUndefined]
    · split at hfield
      · next hf =>
        subst hf; cases hfield
        have h1 := hnone "budget_per_person" (by simp)
        have h2 := hnone "budget" (by simp)
        simp [SavedTrips.getTripField, SavedTrips.fieldMapping, firstDefined, getProp,
          hundef _ h1, hundef _ h2, isUndefined]
      · split at hfield
        · next hf =>
          subst hf; cases hfield
          have h1 := hnone "created_at" (by simp)
          have h2 := hnone "createdAt" (by simp)
          simp [SavedTrips.getTripField, SavedTrips.fieldMapping, firstDefined, getProp,
            hundef _ h1, hundef _ h2, isUndefined]
        · exact Option.noConfusion hfield

/-- Witness for C5: a record that carries both spellings. -/
theorem getTripField_startDate_witness :
    ((ownProp [("startDate", str "2024-05-02"), ("start_date", str "2024-05-01")]
        "start_date").isUndefined = false ∨
      (ownProp [("startDate", str "2024-05-02"), ("start_date", str "2024-05-01")]
        "startDate").isUndefined = false) ∧
    SavedTrips.getTripField
        (obj [("startDate", str "2024-05-02"), ("start_date", str "2024-05-01")]) "startDate"
      = .ok (str "2024-05-01") := by
  have h : (ownProp [("startDate", str "2024-05-02"), ("start_date", str "2024-05-01")]
        "start_date").isUndefined = false ∨
      (ownProp [("startDate", str "2024-05-02"), ("start_date", str "2024-05-01")]
        "startDate").isUndefined = false := Or.inl (by decide)
  exact ⟨h, (getTripField_startDate _ h).1.trans rfl⟩

/-- Witness for C6: a record with a destination only, asked for `budget`. -/
theorem getTripField_absent_witness :
    SavedTrips.fieldMapping "budget" = some ["budget_per_person", "budget"] ∧
    (∀ a ∈ ["budget_per_person", "budget"],
      (ownProp [("destination", str "Paris")] a).isUndefined = true) ∧
    SavedTrips.getTripField (obj [("destination", str "Paris")]) "budget" = .ok undefined :=
  ⟨by decide, by decide,
    getTripField_absent "budget" ["budget_per_person", "budget"] [("destination", str "Paris")]
      (by decide) (by decide)⟩

end FieldNormalizer

section Budget

open JSVal

theorem getProp_of_truthy (v : JSVal) (key : String) (h : v.truthy = true) :
    v.getProp key = .ok (v.optChain key) := by
  cases v <;> simp_all [truthy, getProp, optChain]

theorem getProp_of_optChain_truthy (v : JSVal) (key : String)
    (h : (v.optChain key).truthy = true) : v.getProp key = .ok (v.optChain key) := by
  cases v <;> simp_all [truthy, getProp, optChain]

/-- On the constants of the component (`itineraryContent` and `itinerary` are
truthy there) the total-cost expression does not throw and returns the first
candidate, in the order of the six sources, that passes its test. -/
theorem totalEstimatedCost_eq (g : JSVal → Bool) (c i d : JSVal)
    (hc : c.truthy = true) (hi : i.truthy = true) :
    totalEstimatedCost g c i d = .ok (firstAccepted (budgetCandidates g c i d)) := by
  simp only [totalEstimatedCost, getProp_of_truthy c _ hc, getProp_of_truthy i _ hi,
    budgetCandidates, budgetSourceValues, optPath, firstAccepted, List.map, bind, Except.bind,
    pure, Except.pure]
  split_ifs <;> simp_all [getProp_of_optChain_truthy]

theorem firstAccepted_append (pre post : List (JSVal × Bool)) (v : JSVal)
    (hpre : ∀ x ∈ pre, x.2 = false) :
    firstAccepted (pre ++ (v, true) :: post) = .formatCurrency v := by
  induction pre with
  | nil => simp [firstAccepted]
  | cons x pre ih =>
    obtain ⟨w, b⟩ := x
    have hb : b = false := hpre (w, b) (by simp)
    subst hb
    simp only [List.cons_append, firstAccepted]
    exact ih (fun y hy => hpre y (List.mem_cons_of_mem _ hy))

theorem firstAccepted_calculating (l : List (JSVal × Bool)) :
    firstAccepted l = .calculating ↔ ∀ x ∈ l, x.2 = false := by
  induction l with
  | nil => simp [firstAccepted]
  | cons x l ih =>
    obtain ⟨w, b⟩ := x
    cases b <;> simp [firstAccepted, ih]

theorem firstAccepted_amount_truthy (l : List (JSVal × Bool)) (v : JSVal)
    (hl : ∀ x ∈ l, x.2 = true → x.1.truthy = true)
    (h : firstAccepted l = .formatCurrency v) : v.truthy = true := by
  induction l with
  | nil => simp [firstAccepted] at h
  | cons x l ih =>
    obtain ⟨w, b⟩ := x
    cases b with
    | false =>
      simp only [firstAccepted] at h
      exact ih (fun y hy => hl y (List.mem_cons_of_mem _ hy)) h
    | true =>
      simp only [firstAccepted, if_true, TotalDisplay.formatCurrency.injEq] at h
      subst h
      exact hl (w, true) (by simp) rfl

/-- Counterexample to C7: with `total_estimated_cost = -5` (defined and
non-zero) and a content `budget_total` of 500, the code shows the 500 of the
third source, not the -5 of the first. -/
theorem totalEstimatedCost_skips_negative_total :
    totalEstimatedCost (fun _ => false)
      (obj [("total_estimated_cost", num (-5)),
        ("budget_breakdown", obj [("total_estimates", obj [("budget_total", num 500)])])])
      (obj [("itinerary_content", obj [("total_estimated_cost", num (-5)),
        ("budget_breakdown", obj [("total_estimates", obj [("budget_total", num 500)])])])])
      (obj [])
      = .ok (.formatCurrency (num 500)) ∧
    firstDefinedNonZero (budgetSourceValues
      (obj [("total_estimated_cost", num (-5)),
        ("budget_breakdown", obj [("total_estimates", obj [("budget_total", num 500)])])])
      (obj [("itinerary_content", obj [("total_estimated_cost", num (-5)),
        ("budget_breakdown", obj [("total_estimates", obj [("budget_total", num 500)])])])])
      (obj []))
      = .formatCurrency (num (-5)) := by
  constructor
  · rfl
  · rfl

/-- C7, amended: on the constants of the component, when the six candidates
(in the order `content.total_estimated_cost`, content `luxury_total`, content
`budget_total`, root `luxury_total`, root `budget_total`,
`detailed_budget.total_estimated`) split into candidates that all fail their
test, then a candidate `v` that passes it, then any others, the displayed total
is `formatCurrency(v)`: the test is "truthy and greater than 0" for the first
source and "truthy" for the other five, and later sources never override. -/
theorem totalEstimatedCost_first_accepted_wins (g : JSVal → Bool) (c i d : JSVal)
    (hc : c.truthy = true) (hi : i.truthy = true)
    (pre post : List (JSVal × Bool)) (v : JSVal)
    (hsplit : budgetCandidates g c i d = pre ++ (v, true) :: post)
    (hpre : ∀ x ∈ pre, x.2 = false) :
    totalEstimatedCost g c i d = .ok (.formatCurrency v) := by
  rw [totalEstimatedCost_eq g c i d hc hi, hsplit, firstAccepted_append pre post v hpre]

/-- C8: with `content.total_estimated_cost = 0`, a content `budget_total` of 500
and no content `luxury_total`, the displayed total is `formatCurrency(500)`,
whatever the root budget and the detailed budget hold. -/
theorem totalEstimatedCost_zero_total_uses_budget_total (g : JSVal → Bool) (c i d : JSVal)
    (hc : c.truthy = true) (hi : i.truthy = true)
    (h0 : c.optPath ["total_estimated_cost"] = num 0)
    (hlux : c.optPath ["budget_breakdown", "total_estimates", "luxury_total"] = undefined)
    (hbud : c.optPath ["budget_breakdown", "total_estimates", "budget_total"] = num 500) :
    totalEstimatedCost g c i d = .ok (.formatCurrency (num 500)) := by
  rw [totalEstimatedCost_eq g c i d hc hi]
  norm_num [budgetCandidates, budgetSourceValues, h0, hlux, hbud, firstAccepted, truthy]

/-- C9: on the constants of the component, the total-cost expression returns
`'Calculating...'` exactly when none of the six candidates passes its test, and
it never returns `formatCurrency(0)`. -/
theorem totalEstimatedCost_calculating_iff (g : JSVal → Bool) (c i d : JSVal)
    (hc : c.truthy = true) (hi : i.truthy = true) :
    (totalEstimatedCost g c i d = .ok .calculating ↔
      ∀ x ∈ budgetCandidates g c i d, x.2 = false) ∧
    totalEstimatedCost g c i d ≠ .ok (.formatCurrency (num 0)) := by
  rw [totalEstimatedCost_eq g c i d hc hi]
  refine ⟨?_, ?_⟩
  · rw [← firstAccepted_calculating]
    constructor
    · intro h; exact Except.ok.inj h
    · intro h; rw [h]
  · intro h
    have h2 := firstAccepted_amount_truthy (budgetCandidates g c i d) (num 0) (by
      intro x hx hx2
      simp only [budgetCandidates, budgetSourceValues, List.map, List.mem_cons,
        List.mem_singleton, List.not_mem_nil, or_false] at hx
      rcases hx with rfl | rfl | rfl | rfl | rfl | rfl <;> simp_all) (Except.ok.inj h)
    simp [truthy] at h2

/-- Witness for C7: the content `budget_total` of 500 is shown although the root
breakdown and the detailed budget carry amounts of their own. -/
theorem totalEstimatedCost_first_accepted_wins_witness :
    sampleContent.truthy = true ∧ sampleItinerary.truthy = true ∧
    budgetCandidates (fun _ => false) sampleContent sampleItinerary
        (sampleItinerary.optChain "detailed_budget")
      = [(num 0, false), (undefined, false)] ++ (num 500, true) ::
          [(num 900, true), (undefined, false), (num 700, true)] ∧
    (∀ x ∈ [(num 0, false), (undefined, false)], x.2 = false) ∧
    totalEstimatedCost (fun _ => false) sampleContent sampleItinerary
        (sampleItinerary.optChain "detailed_budget")
      = .ok (.formatCurrency (num 500)) :=
  ⟨rfl, rfl, rfl, by simp,
    totalEstimatedCost_first_accepted_wins _ sampleContent sampleItinerary _ rfl rfl
      [(num 0, false), (undefined, false)]
      [(num 900, true), (undefined, false), (num 700, true)] (num 500) rfl (by simp)⟩

/-- Witness for C8 on the sample content. -/
theorem totalEstimatedCost_zero_total_uses_budget_total_witness :
    sampleContent.truthy = true ∧ sampleItinerary.truthy = true ∧
    sampleContent.optPath ["total_estimated_cost"] = num 0 ∧
    sampleContent.optPath ["budget_breakdown", "total_estimates", "luxury_total"] = undefined ∧
    sampleContent.optPath ["budget_breakdown", "total_estimates", "budget_total"] = num 500 ∧
    totalEstimatedCost (fun _ => false) sampleContent sampleItinerary
        (sampleItinerary.optChain "detailed_budget")
      = .ok (.formatCurrency (num 500)) :=
  ⟨rfl, rfl, rfl, rfl, rfl,
    totalEstimatedCost_zero_total_uses_budget_total _ sampleContent sampleItinerary _
      rfl rfl rfl rfl rfl⟩

/-- Witness for C9 on an itinerary without any budget information. -/
theorem totalEstimatedCost_calculating_iff_witness :
    (obj [] : JSVal).truthy = true ∧ overviewOnlyItinerary.truthy = true ∧
    ((totalEstimatedCost (fun _ => false) (obj []) overviewOnlyItinerary undefined
        = .ok .calculating ↔
      ∀ x ∈ budgetCandidates (fun _ => false) (obj []) overviewOnlyItinerary undefined,
        x.2 = false) ∧
    totalEstimatedCost (fun _ => false) (obj []) overviewOnlyItinerary undefined
      ≠ .ok (.formatCurrency (num 0))) :=
  ⟨rfl, rfl,
    totalEstimatedCost_calculating_iff _ (obj []) overviewOnlyItinerary undefined rfl rfl⟩

end Budget

section Extraction

open JSVal

theorem lookup_of_hasKeyFields (key : String) :
    ∀ fields : List (String × JSVal), hasKeyFields key fields = false →
      fields.lookup key = none ∧
      ∀ k v, fields.lookup k = some v → hasKey key v = false := by
  intro fields
  induction fields with
  | nil => intro _; simp
  | cons f fs ih =>
    obtain ⟨name, w⟩ := f
    intro h
    simp only [hasKeyFields, Bool.or_eq_false_iff] at h
    obtain ⟨⟨hname, hw⟩, hfs⟩ := h
    obtain ⟨ih1, ih2⟩ := ih hfs
    have hname' : (key == name) = false := by
      rw [Bool.eq_false_iff] at hname ⊢
      intro hc; apply hname
      simp only [beq_iff_eq] at hc ⊢
      exact hc.symm
    refine ⟨by simp [List.lookup, hname', ih1], ?_⟩
    intro k v hk
    simp only [List.lookup] at hk
    split at hk
    · cases hk; exact hw
    · exact ih2 k v hk

theorem optChain_of_hasKey (key : String) (v : JSVal) (h : hasKey key v = false) :
    v.optChain key = undefined ∧ ∀ k, hasKey key (v.optChain k) = false := by
  cases v with
  | obj fields =>
    simp only [hasKey] at h
    obtain ⟨h1, h2⟩ := lookup_of_hasKeyFields key fields h
    refine ⟨by simp [optChain, ownProp, h1], ?_⟩
    intro k
    simp only [optChain, ownProp]
    cases hk : fields.lookup k with
    | none => simp [hasKey]
    | some w => exact h2 k w hk
  | _ => exact ⟨by simp [optChain], by intro k; simp [optChain, hasKey]⟩

theorem or_obj_truthy (v : JSVal) : (v.or (obj [])).truthy = true := by
  unfold JSVal.or
  split
  · assumption
  · rfl

theorem hasKey_or_obj (key : String) (v : JSVal) (h : hasKey key v = false) :
    hasKey key (v.or (obj [])) = false := by
  unfold JSVal.or
  split
  · exact h
  · simp [hasKey, hasKeyFields]

/-- The extraction never throws: each constant is the property read from the
content, or its default when that property is falsy. -/
theorem extractContent_ok (p : JSVal) :
    ∃ e, extractContent p = .ok e ∧
      e.itineraryContent = ((p.or (obj [])).optChain "itinerary_content").or (obj []) ∧
      e.dailySchedule = (e.itineraryContent.optChain "daily_schedule").or (arr []) ∧
      e.overview = (e.itineraryContent.optChain "overview").or (str "") ∧
      e.recommendations = (e.itineraryContent.optChain "recommendations").or (obj []) := by
  have hc := or_obj_truthy ((p.or (obj [])).optChain "itinerary_content")
  have hreq : ∀ (v d : JSVal), requireObject d = .ok () → requireObject (v.or d) = .ok () := by
    intro v d hd
    unfold JSVal.or
    split
    · next ht => cases v <;> simp_all [requireObject, truthy]
    · exact hd
  have hreqc : requireObject (((p.or (obj [])).optChain "itinerary_content").or (obj []))
      = .ok () := hreq _ _ rfl
  have hex : extractContent p = .ok
      { itineraryData := p.or (obj [])
        detailed_budget := p.optChain "detailed_budget"
        itineraryContent := ((p.or (obj [])).optChain "itinerary_content").or (obj [])
        dailySchedule := ((((p.or (obj [])).optChain "itinerary_content").or (obj [])).optChain
          "daily_schedule").or (arr [])
        overview := ((((p.or (obj [])).optChain "itinerary_content").or (obj [])).optChain
          "overview").or (str "")
        recommendations := ((((p.or (obj [])).optChain "itinerary_content").or
          (obj [])).optChain "recommendations").or (obj [])
        images := ((((p.or (obj [])).optChain "itinerary_content").or (obj [])).optChain
          "images").or (arr []) } := by
    simp only [extractContent, getProp_of_truthy _ _ hc, bind, Except.bind, pure, Except.pure,
      hreqc, hreq _ (arr []) rfl, hreq _ (str "") rfl, hreq _ (obj []) rfl]
  exact ⟨_, hex, rfl, rfl, rfl, rfl⟩

/-- Counterexample to C10: the payload has no `daily_schedule` at any nesting
level, yet the extracted overview is its text and the extracted
recommendations are its mapping, not `''` and `{}`. -/
theorem extractContent_keeps_overview_without_schedule :
    hasKey "daily_schedule" overviewOnlyItinerary = false ∧
    ∃ e, extractContent overviewOnlyItinerary = .ok e ∧
      e.dailySchedule = arr [] ∧
      e.overview = str "Three days in Rome" ∧
      e.recommendations = obj [("restaurants", arr [str "Roscioli: pasta"])] :=
  ⟨by decide, _, rfl, rfl, rfl, rfl⟩

/-- C10, amended: for every payload with no `daily_schedule` at any nesting
level the extraction does not throw and yields `dailySchedule = []`; it yields
`overview = ''` when the payload has no `overview` at any nesting level either,
and `recommendations = {}` when it has no `recommendations` at any nesting
level. -/
theorem extractContent_no_daily_schedule (p : JSVal)
    (h : hasKey "daily_schedule" p = false) :
    ∃ e, extractContent p = .ok e ∧ e.dailySchedule = arr [] ∧
      (hasKey "overview" p = false → e.overview = str "") ∧
      (hasKey "recommendations" p = false → e.recommendations = obj []) := by
  obtain ⟨e, he, hcontent, hds, hov, hrec⟩ := extractContent_ok p
  have key : ∀ k : String, hasKey k p = false → e.itineraryContent.optChain k = undefined := by
    intro k hk
    rw [hcontent]
    exact (optChain_of_hasKey k _ (hasKey_or_obj k _
      ((optChain_of_hasKey k _ (hasKey_or_obj k p hk)).2 "itinerary_content"))).1
  refine ⟨e, he, ?_, ?_, ?_⟩
  · rw [hds, key _ h]; rfl
  · intro h2; rw [hov, key _ h2]; rfl
  · intro h2; rw [hrec, key _ h2]; rfl

/-- Witness for C10: a payload that carries trip fields and no content. -/
theorem extractContent_no_daily_schedule_witness :
    hasKey "daily_schedule" (obj [("destination", str "Rome"), ("budget_usd", num 1200)])
      = false ∧
    ∃ e, extractContent (obj [("destination", str "Rome"), ("budget_usd", num 1200)])
        = .ok e ∧ e.dailySchedule = arr [] ∧
      (hasKey "overview" (obj [("destination", str "Rome"), ("budget_usd", num 1200)]) = false
        → e.overview = str "") ∧
      (hasKey "recommendations" (obj [("destination", str "Rome"), ("budget_usd", num 1200)])
        = false → e.recommendations = obj []) :=
  ⟨by decide, extractContent_no_daily_schedule _ (by decide)⟩

/-- Counterexample to C11: for the unwrapped shape the extraction returns `[]`
and `{}`, not the root-level values, while for the same content nested under
`itinerary_content` it returns the values themselves. -/
theorem extractContent_ignores_root_level_schedule :
    (∃ e, extractContent unwrappedItinerary = .ok e ∧
      e.dailySchedule = arr [] ∧ e.recommendations = obj []) ∧
    (∃ e, extractContent wrappedItinerary = .ok e ∧
      e.dailySchedule = arr [obj [("day", num 1), ("activities", arr [])]] ∧
      e.recommendations = obj [("restaurants", arr [str "Roscioli: pasta"])]) :=
  ⟨⟨_, rfl, rfl, rfl⟩, ⟨_, rfl, rfl, rfl⟩⟩

/-- C11, amended: the extraction reads `daily_schedule` and `recommendations`
only from under `itinerary_content`.  For every payload object without a truthy
`itinerary_content` (the unwrapped shape among them) it yields
`dailySchedule = []` and `recommendations = {}`, whatever the root carries; a
truthy `daily_schedule` or `recommendations` nested under `itinerary_content`
is returned as given. -/
theorem extractContent_reads_only_itinerary_content (fields : List (String × JSVal)) :
    ∃ e, extractContent (obj fields) = .ok e ∧
      ((ownProp fields "itinerary_content").truthy = false →
        e.dailySchedule = arr [] ∧ e.recommendations = obj []) ∧
      (((ownProp fields "itinerary_content").optChain "daily_schedule").truthy = true →
        e.dailySchedule = (ownProp fields "itinerary_content").optChain "daily_schedule") ∧
      (((ownProp fields "itinerary_content").optChain "recommendations").truthy = true →
        e.recommendations = (ownProp fields "itinerary_content").optChain "recommendations") := by
  obtain ⟨e, he, hcontent, hds, hov, hrec⟩ := extractContent_ok (obj fields)
  have hroot : (obj fields).or (obj []) = obj fields := by simp [JSVal.or, truthy]
  rw [hroot] at hcontent
  simp only [optChain] at hcontent
  refine ⟨e, he, ?_, ?_, ?_⟩
  · intro h
    have : e.itineraryContent = obj [] := by rw [hcontent]; simp [JSVal.or, h]
    rw [hds, hrec, this]
    exact ⟨rfl, rfl⟩
  · intro h
    have hc : (ownProp fields "itinerary_content").truthy = true := by
      cases hv : ownProp fields "itinerary_content" <;> simp_all [optChain, truthy]
    have : e.itineraryContent = ownProp fields "itinerary_content" := by
      rw [hcontent]; simp [JSVal.or, hc]
    rw [hds, this]; simp [JSVal.or, h]
  · intro h
    have hc : (ownProp fields "itinerary_content").truthy = true := by
      cases hv : ownProp fields "itinerary_content" <;> simp_all [optChain, truthy]
    have : e.itineraryContent = ownProp fields "itinerary_content" := by
      rw [hcontent]; simp [JSVal.or, hc]
    rw [hrec, this]; simp [JSVal.or, h]

/-- Counterexample to C12: the structure extracted from a payload with an
overview has that overview, and the extraction applied to this structure
returns the empty overview. -/
theorem extractContent_not_idempotent :
    ∃ e e2, extractContent overviewOnlyItinerary = .ok e ∧
      extractContent e.toJSVal = .ok e2 ∧
      e.overview = str "Three days in Rome" ∧ e2.overview = str "" :=
  ⟨_, _, rfl, rfl, rfl, rfl⟩

/-- C12, amended: applied to a structure `{overview, dailySchedule,
recommendations, ...}` it produced, the extraction does not throw and yields
`dailySchedule = []`, `overview = ''` and `recommendations = {}`; so it yields
the same three values again exactly when they were already empty. -/
theorem extractContent_of_extracted (e : Extracted) :
    ∃ e2, extractContent e.toJSVal = .ok e2 ∧
      e2.dailySchedule = arr [] ∧ e2.overview = str "" ∧ e2.recommendations = obj [] ∧
      ((e2.dailySchedule = e.dailySchedule ∧ e2.overview = e.overview ∧
          e2.recommendations = e.recommendations) ↔
        (e.dailySchedule = arr [] ∧ e.overview = str "" ∧ e.recommendations = obj [])) := by
  obtain ⟨e2, he2, hcontent, hds, hov, hrec⟩ := extractContent_ok e.toJSVal
  have hc : e2.itineraryContent = obj [] := by rw [hcontent]; rfl
  have h1 : e2.dailySchedule = arr [] := by rw [hds, hc]; rfl
  have h2 : e2.overview = str "" := by rw [hov, hc]; rfl
  have h3 : e2.recommendations = obj [] := by rw [hrec, hc]; rfl
  refine ⟨e2, he2, h1, h2, h3, ?_⟩
  rw [h1, h2, h3]
  constructor
  · rintro ⟨a, b, c⟩; exact ⟨a.symm, b.symm, c.symm⟩
  · rintro ⟨a, b, c⟩; exact ⟨a.symm, b.symm, c.symm⟩

end Extraction

section Geocoding

theorem forInFallbacks_some (key : String) :
    ∀ (table : List (String × (ℚ × ℚ))) (coords : ℚ × ℚ),
      forInFallbacks key table = some coords →
      ∃ entry ∈ table, includes key entry.1 = true ∧ coords = entry.2 := by
  intro table
  induction table with
  | nil => intro coords h; simp [forInFallbacks] at h
  | cons entry rest ih =>
    obtain ⟨city, c⟩ := entry
    intro coords h
    simp only [forInFallbacks] at h
    split at h
    · next hin =>
      cases h
      exact ⟨(city, c), by simp, hin, rfl⟩
    · obtain ⟨entry, hmem, hin, hc⟩ := ih coords h
      exact ⟨entry, List.mem_cons_of_mem _ hmem, hin, hc⟩

theorem forInFallbacks_none (key : String) :
    ∀ (table : List (String × (ℚ × ℚ))),
      forInFallbacks key table = none ↔ ∀ entry ∈ table, includes key entry.1 = false := by
  intro table
  induction table with
  | nil => simp [forInFallbacks]
  | cons entry rest ih =>
    obtain ⟨city, c⟩ := entry
    simp only [forInFallbacks, List.mem_cons, forall_eq_or_imp]
    split
    · next hin => simp [hin]
    · next hin => simp [hin, ih]

/-- C18: for every destination string whose lower-cased form contains a key of
the static table, `getFallbackCoordinates` returns the table coordinate of a
key contained in that lower-cased form; and two destinations with the same
lower-cased form (the same text in another letter case) get the same
coordinate. -/
theorem getFallbackCoordinates_contained_city (toLowerCase : String → String)
    (destination : String)
    (h : ∃ entry ∈ fallbacks, includes (toLowerCase destination) entry.1 = true) :
    (∃ entry ∈ fallbacks, includes (toLowerCase destination) entry.1 = true ∧
      getFallbackCoordinates toLowerCase destination = entry.2) ∧
    ∀ other : String, toLowerCase other = toLowerCase destination →
      getFallbackCoordinates toLowerCase other
        = getFallbackCoordinates toLowerCase destination := by
  constructor
  · cases hf : forInFallbacks (toLowerCase destination) fallbacks with
    | none =>
      obtain ⟨entry, hmem, hin⟩ := h
      rw [(forInFallbacks_none _ _).mp hf entry hmem] at hin
      exact absurd hin (by decide)
    | some coords =>
      obtain ⟨entry, hmem, hin, hc⟩ := forInFallbacks_some _ _ _ hf
      exact ⟨entry, hmem, hin, by simp only [getFallbackCoordinates, hf]; exact hc⟩
  · intro other ho
    simp only [getFallbackCoordinates, ho]

/-- Witness for C18: `'PARIS, France'` gives `[48.8566, 2.3522]`. -/
theorem getFallbackCoordinates_contained_city_witness :
    (∃ entry ∈ fallbacks, includes (asciiToLower "PARIS, France") entry.1 = true) ∧
    getFallbackCoordinates asciiToLower "PARIS, France" = (48.8566, 2.3522) ∧
    ((∃ entry ∈ fallbacks, includes (asciiToLower "PARIS, France") entry.1 = true ∧
      getFallbackCoordinates asciiToLower "PARIS, France" = entry.2) ∧
    ∀ other : String, asciiToLower other = asciiToLower "PARIS, France" →
      getFallbackCoordinates asciiToLower other
        = getFallbackCoordinates asciiToLower "PARIS, France") :=
  ⟨⟨("paris", (48.8566, 2.3522)), by simp [fallbacks], rfl⟩, rfl,
    getFallbackCoordinates_contained_city asciiToLower "PARIS, France"
      ⟨("paris", (48.8566, 2.3522)), by simp [fallbacks], rfl⟩⟩

theorem getFallbackCoordinates_default (toLowerCase : String → String) (destination : String)
    (hcity : ∀ entry ∈ fallbacks, entry.1 ≠ "default" →
      includes (toLowerCase destination) entry.1 = false) :
    getFallbackCoordinates toLowerCase destination = fallbackDefault := by
  cases hf : forInFallbacks (toLowerCase destination) fallbacks with
  | none => simp only [getFallbackCoordinates, hf]
  | some coords =>
    obtain ⟨entry, hmem, hin, hc⟩ := forInFallbacks_some _ _ _ hf
    simp only [getFallbackCoordinates, hf]
    by_cases hd : entry.1 = "default"
    · rw [hc]
      simp only [fallbacks, List.mem_cons, List.mem_singleton, List.not_mem_nil, or_false] at hmem
      rcases hmem with rfl | rfl | rfl | rfl | rfl | rfl | rfl | rfl | rfl | rfl | rfl | rfl |
        rfl | rfl <;> first | rfl | exact absurd hd (by decide)
    · rw [hcity entry hmem hd] at hin
      exact absurd hin (by decide)

/-- C19: for every destination string that contains none of the city names of
the static table, when the live lookup gives no match `geocodeDestination`
sets the destination coordinate to `[51.505, -0.09]` (a coordinate, not
`null`), and it ends without rejecting when the call of `getNearbyAttractions`
on that coordinate does not throw. -/
theorem geocodeDestination_default (toLowerCase : String → String)
    (parseFloat : JSVal → JSNum) (coerceGt : JSVal → Bool)
    (nearby : JSNum × JSNum → Except String Unit)
    (fetchResult : FetchResult) (destination : String)
    (hno : fetchResult.noMatch = true)
    (hcity : ∀ entry ∈ fallbacks, entry.1 ≠ "default" →
      includes (toLowerCase destination) entry.1 = false) :
    (geocodeDestination toLowerCase parseFloat coerceGt nearby fetchResult
        destination).destinationCoords = some (.fin 51.505, .fin (-0.09)) ∧
    (nearby (.fin 51.505, .fin (-0.09)) = .ok () →
      (geocodeDestination toLowerCase parseFloat coerceGt nearby fetchResult
        destination).rejected = false) := by
  have hfb : toCoords (getFallbackCoordinates toLowerCase destination)
      = (.fin 51.505, .fin (-0.09)) := by
    rw [getFallbackCoordinates_default toLowerCase destination hcity]; rfl
  have hcatch : ∀ (set : Option (JSNum × JSNum)) (e : String),
      geocodeTry toLowerCase parseFloat coerceGt nearby fetchResult destination
        = (set, .error e) →
      (geocodeDestination toLowerCase parseFloat coerceGt nearby fetchResult
          destination).destinationCoords = some (.fin 51.505, .fin (-0.09)) ∧
      (nearby (.fin 51.505, .fin (-0.09)) = .ok () →
        (geocodeDestination toLowerCase parseFloat coerceGt nearby fetchResult
          destination).rejected = false) := by
    intro set e ht
    simp only [geocodeDestination, ht, hfb]
    cases hn : nearby (.fin 51.505, .fin (-0.09)) with
    | ok u => simp
    | error e2 => simp
  have hfall : geocodeTry toLowerCase parseFloat coerceGt nearby fetchResult destination
        = (some (.fin 51.505, .fin (-0.09)), nearby (.fin 51.505, .fin (-0.09))) →
      (geocodeDestination toLowerCase parseFloat coerceGt nearby fetchResult
          destination).destinationCoords = some (.fin 51.505, .fin (-0.09)) ∧
      (nearby (.fin 51.505, .fin (-0.09)) = .ok () →
        (geocodeDestination toLowerCase parseFloat coerceGt nearby fetchResult
          destination).rejected = false) := by
    intro ht
    simp only [geocodeDestination, ht, hfb]
    cases hn : nearby (.fin 51.505, .fin (-0.09)) with
    | ok u => simp
    | error e2 => simp
  cases fetchResult with
  | rejected => exact hcatch none "fetch" rfl
  | response ok json =>
    cases ok with
    | false => exact hfall (by simp [geocodeTry, hfb])
    | true =>
      cases json with
      | none => exact hcatch none "json" rfl
      | some data =>
        cases data with
        | arr items =>
          cases items with
          | nil => exact hfall (by simp [geocodeTry, lengthGtZero, hfb])
          | cons x xs => simp [FetchResult.noMatch] at hno
        | _ => simp [FetchResult.noMatch] at hno

/-- Witness for C19: the service answers `[]` for `'Atlantis'`. -/
theorem geocodeDestination_default_witness :
    (FetchResult.response true (some (.arr []))).noMatch = true ∧
    (∀ entry ∈ fallbacks, entry.1 ≠ "default" →
      includes (asciiToLower "Atlantis") entry.1 = false) ∧
    (geocodeDestination asciiToLower (fun _ => .nan) (fun _ => false) (fun _ => .ok ())
        (.response true (some (.arr []))) "Atlantis").destinationCoords
      = some (.fin 51.505, .fin (-0.09)) ∧
    (geocodeDestination asciiToLower (fun _ => .nan) (fun _ => false) (fun _ => .ok ())
        (.response true (some (.arr []))) "Atlantis").rejected = false := by
  have hcity : ∀ entry ∈ fallbacks, entry.1 ≠ "default" →
      includes (asciiToLower "Atlantis") entry.1 = false := by
    intro entry hmem _
    simp only [fallbacks, List.mem_cons, List.mem_singleton, List.not_mem_nil, or_false] at hmem
    rcases hmem with rfl | rfl | rfl | rfl | rfl | rfl | rfl | rfl | rfl | rfl | rfl | rfl |
      rfl | rfl <;> rfl
  have h := geocodeDestination_default asciiToLower (fun _ => .nan) (fun _ => false)
    (fun _ => .ok ()) (.response true (some (.arr []))) "Atlantis" rfl hcity
  exact ⟨rfl, hcity, h.1, h.2 rfl⟩

/-- Counterexample to C20: with the request failing and the destination
`'paris'`, `getDestinationCoordinates` returns `{ lat: 20, lng: 0 }`, not the
coordinate that the static table of the enhanced map holds for Paris. -/
theorem getDestinationCoordinates_ignores_city_table :
    getDestinationCoordinates (fun _ => .nan) (fun _ => false) .rejected "paris"
      = { lat := .fin 20, lng := .fin 0 } ∧
    getFallbackCoordinates asciiToLower "paris" = (48.8566, 2.3522) :=
  ⟨rfl, rfl⟩

/-- C20, amended: `getDestinationCoordinates` of `ItineraryMap.jsx` has two
tiers.  When the live lookup throws (the request or the reading of its body
fails) or returns the empty list, it returns `{ lat: 20, lng: 0 }` for every
destination, also one that contains a city name such as `'paris'`; it has no
static table, and it returns a coordinate in every case. -/
theorem getDestinationCoordinates_two_tiers (parseFloat : JSVal → JSNum)
    (coerceGt : JSVal → Bool) (fetchResult : FetchResult) (destination : String)
    (hno : fetchResult = .rejected ∨ (∃ ok, fetchResult = .response ok none) ∨
      ∃ ok, fetchResult = .response ok (some (.arr []))) :
    getDestinationCoordinates parseFloat coerceGt fetchResult destination
      = { lat := .fin 20, lng := .fin 0 } := by
  rcases hno with rfl | ⟨ok, rfl⟩ | ⟨ok, rfl⟩
  · rfl
  · rfl
  · simp [getDestinationCoordinates, JSVal.truthy, lengthGtZero]

/-- Witness for C20: the service answers `[]` for `'paris'`. -/
theorem getDestinationCoordinates_two_tiers_witness :
    ((FetchResult.response true (some (.arr [])) = .rejected ∨
      (∃ ok, FetchResult.response true (some (.arr [])) = .response ok none) ∨
      ∃ ok, FetchResult.response true (some (.arr [])) = .response ok (some (.arr [])))) ∧
    getDestinationCoordinates (fun _ => .nan) (fun _ => false)
        (.response true (some (.arr []))) "paris"
      = { lat := .fin 20, lng := .fin 0 } :=
  ⟨Or.inr (Or.inr ⟨true, rfl⟩),
    getDestinationCoordinates_two_tiers _ _ _ "paris" (Or.inr (Or.inr ⟨true, rfl⟩))⟩

end Geocoding

section Markers

open JSVal

theorem getProp_of_requireObject (v : JSVal) (key : String) (h : requireObject v = .ok ()) :
    v.getProp key = .ok (v.optChain key) := by
  cases v <;> simp_all [requireObject, getProp, optChain]

theorem activitiesLoop_eq (destCoords : ℝ × ℝ) (draws : Nat → ℝ) (dayIndex n : Nat) :
    ∀ (activities : List JSVal) (activityIndex : Nat) (scheduleMarkers dayMarkers : List Marker)
      (calls : Nat), (∀ activity ∈ activities, requireObject activity = .ok ()) →
      activitiesLoop destCoords draws dayIndex n activities activityIndex
          (scheduleMarkers, dayMarkers, calls)
        = .ok (scheduleMarkers ++
              dayMarkersFrom destCoords draws dayIndex n activities activityIndex calls,
            dayMarkers ++
              dayMarkersFrom destCoords draws dayIndex n activities activityIndex calls,
            calls +
              (dayMarkersFrom destCoords draws dayIndex n activities activityIndex calls).length)
    := by
  intro activities
  induction activities with
  | nil => intro ai sm dm k _; simp [activitiesLoop, dayMarkersFrom]
  | cons activity rest ih =>
    intro ai sm dm k hwf
    have hact := hwf activity (by simp)
    have hrest : ∀ a ∈ rest, requireObject a = .ok () :=
      fun a ha => hwf a (List.mem_cons_of_mem _ ha)
    simp only [activitiesLoop, getProp_of_requireObject _ _ hact, dayMarkersFrom]
    split
    · rw [ih _ _ _ _ hrest]
      simp [Nat.add_assoc, Nat.add_comm]
    · rw [ih _ _ _ _ hrest]

theorem daysLoop_eq (destCoords : ℝ × ℝ) (draws : Nat → ℝ) :
    ∀ (days : List JSVal) (dayIndex : Nat) (scheduleMarkers : List Marker)
      (dayRoutes : List DayRoute) (calls : Nat), wellFormedSchedule days →
      daysLoop destCoords draws days dayIndex (scheduleMarkers, dayRoutes, calls)
        = .ok (scheduleMarkers ++ (scheduleFrom destCoords draws days dayIndex calls).1,
            dayRoutes ++ (scheduleFrom destCoords draws days dayIndex calls).2,
            calls + (scheduleFrom destCoords draws days dayIndex calls).1.length) := by
  intro days
  induction days with
  | nil => intro d sm dr k _; simp [daysLoop, scheduleFrom]
  | cons day rest ih =>
    intro d sm dr k hwf
    have hday := (hwf day (by simp)).1
    have hacts := (hwf day (by simp)).2
    have hrest : wellFormedSchedule rest := fun x hx => hwf x (List.mem_cons_of_mem _ hx)
    simp only [daysLoop, getProp_of_requireObject _ _ hday, scheduleFrom]
    cases hv : day.optChain "activities" with
    | arr activities =>
      have hda : dayActivities day = activities := by simp [dayActivities, hv]
      rw [hda] at hacts ⊢
      simp only [activitiesLoop_eq destCoords draws d activities.length activities 0 sm [] k hacts,
        List.nil_append]
      split
      · next hlen =>
        rw [ih _ _ _ _ hrest]
        simp [hlen, Nat.add_assoc]
      · next hlen =>
        rw [ih _ _ _ _ hrest]
        simp [hlen, Nat.add_assoc]
    | _ =>
      have hda : dayActivities day = [] := by simp [dayActivities, hv]
      rw [hda]
      simp only [dayMarkersFrom, List.length_nil, Nat.add_zero, List.nil_append]
      rw [ih _ _ _ _ hrest]
      simp

theorem dayMarkersFrom_map (destCoords : ℝ × ℝ) (draws : Nat → ℝ) (dayIndex n : Nat) :
    ∀ (activities : List JSVal) (activityIndex calls : Nat),
      (dayMarkersFrom destCoords draws dayIndex n activities activityIndex calls).map
          (fun m => (m.day, m.activityNumber, m.title, m.location))
        = ((activities.enumFrom activityIndex).filter
            (fun p => (p.2.optChain "location").truthy)).map
          (fun a => (some (dayIndex + 1), some (a.1 + 1), a.2.optChain "activity",
            a.2.optChain "location")) := by
  intro activities
  induction activities with
  | nil => intro ai k; simp [dayMarkersFrom]
  | cons activity rest ih =>
    intro ai k
    simp only [dayMarkersFrom, List.enumFrom_cons]
    by_cases h : (activity.optChain "location").truthy = true
    · simp [h, List.filter_cons, ih, scheduleMarker]
    · simp [h, List.filter_cons, ih]

theorem scheduleFrom_map (destCoords : ℝ × ℝ) (draws : Nat → ℝ) :
    ∀ (days : List JSVal) (dayIndex calls : Nat),
      (scheduleFrom destCoords draws days dayIndex calls).1.map
          (fun m => (m.day, m.activityNumber, m.title, m.location))
        = ((days.enumFrom dayIndex).flatMap (fun d =>
            (locatedActivities (dayActivities d.2)).map (fun a => (d.1, a.1, a.2)))).map
          (fun s => (some (s.1 + 1), some (s.2.1 + 1), s.2.2.optChain "activity",
            s.2.2.optChain "location")) := by
  intro days
  induction days with
  | nil => intro d k; simp [scheduleFrom]
  | cons day rest ih =>
    intro d k
    simp only [scheduleFrom, List.enumFrom_cons, List.flatMap_cons, List.map_append, ih,
      dayMarkersFrom_map, locatedActivities, List.enum, List.map_map]
    rfl

theorem loadMapData_schedule (destCoords : ℝ × ℝ) (draws : Nat → ℝ) (days : List JSVal)
    (hwf : wellFormedSchedule days) :
    daysLoop destCoords draws days 0 ([], [], 0)
      = .ok ((scheduleFrom destCoords draws days 0 0).1,
          (scheduleFrom destCoords draws days 0 0).2,
          (scheduleFrom destCoords draws days 0 0).1.length) ∧
    loadMapData destCoords draws (arr days) (obj [])
      = .ok ((scheduleFrom destCoords draws days 0 0).1,
          (scheduleFrom destCoords draws days 0 0).2) := by
  have h := daysLoop_eq destCoords draws days 0 [] [] 0 hwf
  simp only [List.nil_append, Nat.zero_add] at h
  refine ⟨h, ?_⟩
  simp [loadMapData, isUndefined, h, objectEntries, recLoop]

/-- C15: for every schedule of day records with activity records, the loop over
the schedule returns, and its markers correspond one to one, in schedule order,
to the activities with a truthy (for a string: non-empty) `location`: the marker
of the activity at index `i` of the day at index `d` has `day = d + 1`,
`activityNumber = i + 1`, and the activity's title and location. -/
theorem scheduleMarkers_correspond (destCoords : ℝ × ℝ) (draws : Nat → ℝ) (days : List JSVal)
    (hwf : wellFormedSchedule days) :
    ∃ markers routes calls,
      daysLoop destCoords draws days 0 ([], [], 0) = .ok (markers, routes, calls) ∧
      loadMapData destCoords draws (arr days) (obj []) = .ok (markers, routes) ∧
      markers.map (fun m => (m.day, m.activityNumber, m.title, m.location))
        = (scheduledStops days).map
            (fun s => (some (s.1 + 1), some (s.2.1 + 1), s.2.2.optChain "activity",
              s.2.2.optChain "location")) := by
  obtain ⟨h1, h2⟩ := loadMapData_schedule destCoords draws days hwf
  exact ⟨_, _, _, h1, h2, scheduleFrom_map destCoords draws days 0 0⟩

theorem dayMarkersFrom_length (destCoords : ℝ × ℝ) (draws : Nat → ℝ) (dayIndex n : Nat)
    (activities : List JSVal) (activityIndex calls : Nat) :
    (dayMarkersFrom destCoords draws dayIndex n activities activityIndex calls).length
      = ((activities.enumFrom activityIndex).filter
          (fun p => (p.2.optChain "location").truthy)).length := by
  have h := congrArg List.length
    (dayMarkersFrom_map destCoords draws dayIndex n activities activityIndex calls)
  simpa using h

theorem dayMarkersFrom_day (destCoords : ℝ × ℝ) (draws : Nat → ℝ) (dayIndex n : Nat) :
    ∀ (activities : List JSVal) (activityIndex calls : Nat),
      ∀ m ∈ dayMarkersFrom destCoords draws dayIndex n activities activityIndex calls,
        m.day = some (dayIndex + 1) := by
  intro activities
  induction activities with
  | nil => intro ai k m hm; simp [dayMarkersFrom] at hm
  | cons activity rest ih =>
    intro ai k m hm
    simp only [dayMarkersFrom] at hm
    split at hm
    · rcases List.mem_cons.mp hm with rfl | hm
      · rfl
      · exact ih _ _ m hm
    · exact ih _ _ m hm

theorem scheduleFrom_day (destCoords : ℝ × ℝ) (draws : Nat → ℝ) :
    ∀ (days : List JSVal) (dayIndex calls : Nat),
      ∀ m ∈ (scheduleFrom destCoords draws days dayIndex calls).1,
        ∃ d, dayIndex ≤ d ∧ m.day = some (d + 1) := by
  intro days
  induction days with
  | nil => intro d k m hm; simp [scheduleFrom] at hm
  | cons day rest ih =>
    intro d k m hm
    simp only [scheduleFrom] at hm
    rcases List.mem_append.mp hm with hm | hm
    · exact ⟨d, Nat.le_refl _, dayMarkersFrom_day _ _ _ _ _ _ _ m hm⟩
    · obtain ⟨d', hd', hday⟩ := ih _ _ m hm
      exact ⟨d', by omega, hday⟩

theorem scheduleFrom_route_day (destCoords : ℝ × ℝ) (draws : Nat → ℝ) :
    ∀ (days : List JSVal) (dayIndex calls : Nat),
      ∀ r ∈ (scheduleFrom destCoords draws days dayIndex calls).2, dayIndex + 1 ≤ r.day := by
  intro days
  induction days with
  | nil => intro d k r hr; simp [scheduleFrom] at hr
  | cons day rest ih =>
    intro d k r hr
    simp only [scheduleFrom] at hr
    rcases List.mem_append.mp hr with hr | hr
    · split at hr
      · simp only [List.mem_singleton] at hr
        subst hr; exact Nat.le_refl _
      · simp at hr
    · have := ih _ _ r hr
      omega

theorem scheduleFrom_routes_days (destCoords : ℝ × ℝ) (draws : Nat → ℝ) :
    ∀ (days : List JSVal) (dayIndex calls : Nat),
      (scheduleFrom destCoords draws days dayIndex calls).2.map (fun r => r.day)
        = ((days.enumFrom dayIndex).filter
            (fun d => decide (2 ≤ (locatedActivities (dayActivities d.2)).length))).map
          (fun d => d.1 + 1) := by
  intro days
  induction days with
  | nil => intro d k; simp [scheduleFrom]
  | cons day rest ih =>
    intro d k
    have hlen := dayMarkersFrom_length destCoords draws d (dayActivities day).length
      (dayActivities day) 0 k
    simp only [scheduleFrom, List.enumFrom_cons, List.map_append, ih, List.filter_cons,
      locatedActivities, List.enum] at hlen ⊢
    by_cases h2 : 2 ≤ (List.filter (fun p => (p.2.optChain "location").truthy)
        (List.enumFrom 0 (dayActivities day))).length
    · have h1 : (dayMarkersFrom destCoords draws d (dayActivities day).length
          (dayActivities day) 0 k).length > 1 := by omega
      simp [h1, h2]
    · have h1 : ¬ (dayMarkersFrom destCoords draws d (dayActivities day).length
          (dayActivities day) 0 k).length > 1 := by omega
      simp [h1, h2]

theorem filter_day_eq_self (ms : List Marker) (d : Nat) (h : ∀ m ∈ ms, m.day = some d) :
    ms.filter (fun m => m.day == some d) = ms := by
  rw [List.filter_eq_self]
  intro m hm
  simp [h m hm]

theorem filter_day_eq_nil (ms : List Marker) (d : Nat) (h : ∀ m ∈ ms, m.day ≠ some d) :
    ms.filter (fun m => m.day == some d) = [] := by
  rw [List.filter_eq_nil_iff]
  intro m hm
  simpa using h m hm

theorem scheduleFrom_positions (destCoords : ℝ × ℝ) (draws : Nat → ℝ) :
    ∀ (days : List JSVal) (dayIndex calls : Nat),
      ∀ r ∈ (scheduleFrom destCoords draws days dayIndex calls).2,
        r.positions = ((scheduleFrom destCoords draws days dayIndex calls).1.filter
          (fun m => m.day == some r.day)).map (fun m => m.position) := by
  intro days
  induction days with
  | nil => intro d k r hr; simp [scheduleFrom] at hr
  | cons day rest ih =>
    intro d k r hr
    simp only [scheduleFrom] at hr ⊢
    rw [List.filter_append]
    rcases List.mem_append.mp hr with hr | hr
    · split at hr
      · simp only [List.mem_singleton] at hr
        subst hr
        rw [filter_day_eq_self _ _ (dayMarkersFrom_day _ _ _ _ _ _ _),
          filter_day_eq_nil _ _ (by
            intro m hm
            obtain ⟨d', hd', hday⟩ := scheduleFrom_day _ _ _ _ _ m hm
            rw [hday]; intro hc
            have := Option.some.inj hc
            dsimp only at this
            omega)]
        simp
      · simp at hr
    · have hday := scheduleFrom_route_day _ _ _ _ _ r hr
      rw [filter_day_eq_nil _ _ (by
          intro m hm
          rw [dayMarkersFrom_day _ _ _ _ _ _ _ m hm]; intro hc
          have := Option.some.inj hc
          omega)]
      simpa using ih _ _ r hr

/-- C16: for every schedule of day records with activity records, a route is
produced for exactly the days with at least two located activities, in schedule
order, and the positions of the route of a day are the positions of the markers
of that day, in the order of the markers. -/
theorem dayRoutes_correspond (destCoords : ℝ × ℝ) (draws : Nat → ℝ) (days : List JSVal)
    (hwf : wellFormedSchedule days) :
    ∃ markers routes calls,
      daysLoop destCoords draws days 0 ([], [], 0) = .ok (markers, routes, calls) ∧
      loadMapData destCoords draws (arr days) (obj []) = .ok (markers, routes) ∧
      routes.map (fun r => r.day)
        = (days.enum.filter
            (fun d => decide (2 ≤ (locatedActivities (dayActivities d.2)).length))).map
          (fun d => d.1 + 1) ∧
      ∀ r ∈ routes, r.positions
        = (markers.filter (fun m => m.day == some r.day)).map (fun m => m.position) := by
  obtain ⟨h1, h2⟩ := loadMapData_schedule destCoords draws days hwf
  exact ⟨_, _, _, h1, h2, scheduleFrom_routes_days destCoords draws days 0 0,
    scheduleFrom_positions destCoords draws days 0 0⟩

theorem splitChars_first (sep : Char) :
    ∀ l : List Char, ∃ first more rest, splitChars sep l = first :: more ∧
      l = first ++ rest ∧ sep ∉ first ∧ (rest = [] ∨ ∃ r, rest = sep :: r) := by
  intro l
  induction l with
  | nil => exact ⟨[], [], [], rfl, rfl, by simp, Or.inl rfl⟩
  | cons c cs ih =>
    obtain ⟨first, more, rest, hs, hl, hnot, hrest⟩ := ih
    by_cases hc : c = sep
    · subst hc
      exact ⟨[], splitChars c cs, c :: cs, by simp [splitChars], rfl, by simp,
        Or.inr ⟨cs, rfl⟩⟩
    · refine ⟨c :: first, more, rest, by simp [splitChars, hc, hs], by simp [hl], ?_, hrest⟩
      simp only [List.mem_cons, not_or]
      exact ⟨fun h => hc h.symm, hnot⟩

/-- C13: a recommendation item that is a plain string `s` gives a marker whose
description is `s` and whose title is the part of `s` before its first `':'`
(all of `s` when it has none); an item that is an object with a truthy `name`
gives a marker with `title = name`, `description = description || ''` and
`area = area || null`. -/
theorem recItem_title_description (destCoords : ℝ × ℝ) (random : ℝ) (category : String)
    (index n : Nat) :
    (∀ s : String, ∃ m, recItem destCoords random category index n (str s) = .ok (some m) ∧
      m.description = str s ∧
      ∃ title rest, m.title = str (String.mk title) ∧ s.toList = title ++ rest ∧
        ':' ∉ title ∧ (rest = [] ∨ ∃ r, rest = ':' :: r)) ∧
    (∀ fields : List (String × JSVal), (ownProp fields "name").truthy = true →
      ∃ m, recItem destCoords random category index n (obj fields) = .ok (some m) ∧
        m.title = ownProp fields "name" ∧
        m.description = (ownProp fields "description").or (str "") ∧
        m.area = (ownProp fields "area").or null) := by
  constructor
  · intro s
    obtain ⟨first, more, rest, hs, hl, hnot, hrest⟩ := splitChars_first ':' s.toList
    refine ⟨_, rfl, rfl, first, rest, ?_, hl, hnot, hrest⟩
    simp only [splitColonFirst, hs]
  · intro fields hname
    simp [recItem, typeofObject, getProp, hname, optChain]

/-- Counterexample to C14: the category `'Restaurants'` contains `'restaurant'`
when letter case is ignored, yet the marker of its string item has type
`'attraction'`; and in the category `'food'` the marker of an object item that
carries its own `type` has that type. -/
theorem recItem_type_not_food :
    includes (asciiToLower "Restaurants") "restaurant" = true ∧
    (∃ m, recItem (48.8566, 2.3522) 0 "Restaurants" 0 1 (str "Roscioli: pasta")
        = .ok (some m) ∧ m.type = str "attraction") ∧
    includes "food" "food" = true ∧
    (∃ m, recItem (48.8566, 2.3522) 0 "food" 0 1
        (obj [("name", str "Roscioli"), ("type", str "cultural")])
        = .ok (some m) ∧ m.type = str "cultural") :=
  ⟨rfl, ⟨_, rfl, rfl⟩, rfl, ⟨_, rfl, rfl⟩⟩

/-- C14, amended: for every category whose name contains `'restaurant'`,
`'cuisine'`, `'food'` or `'dining'` as written (the test is case-sensitive),
every marker synthesized for an item of that category has type
`item.type || 'food'`: the type `'food'` for a string item and for an object
item without a truthy `type` of its own. -/
theorem recItem_food_type (destCoords : ℝ × ℝ) (random : ℝ) (category : String)
    (index n : Nat) (item : JSVal) (m : Marker)
    (hcat : includes category "restaurant" = true ∨ includes category "cuisine" = true ∨
      includes category "food" = true ∨ includes category "dining" = true)
    (hm : recItem destCoords random category index n item = .ok (some m)) :
    m.type = (item.optChain "type").or (str "food") ∧
    (∀ s, item = str s → m.type = str "food") ∧
    ((item.optChain "type").truthy = false → m.type = str "food") := by
  have hfood : markerTypeOf category = "food" := by
    unfold markerTypeOf
    rcases hcat with h | h | h | h <;> simp [h]
  have hmain : m.type = (item.optChain "type").or (str "food") := by
    cases item with
    | str s =>
      simp only [recItem, typeofObject, hfood, Bool.false_eq_true, if_false,
        Except.ok.injEq, Option.some.injEq] at hm
      rw [← hm]; rfl
    | obj fields =>
      simp only [recItem, typeofObject, if_true, getProp, hfood] at hm
      split at hm
      · simp only [Except.ok.injEq, Option.some.injEq] at hm
        rw [← hm]
      · simp at hm
    | arr items =>
      simp [recItem, typeofObject, getProp, truthy] at hm
    | null => simp [recItem, typeofObject, getProp] at hm
    | undefined => simp [recItem, typeofObject] at hm
    | bool b => simp [recItem, typeofObject] at hm
    | num q => simp [recItem, typeofObject] at hm
  refine ⟨hmain, ?_, ?_⟩
  · intro s hs; rw [hmain, hs]; rfl
  · intro h; rw [hmain]; simp [JSVal.or, h]

/-- Witness for C14: the category `'local_cuisine'` with a string item. -/
theorem recItem_food_type_witness :
    (includes "local_cuisine" "restaurant" = true ∨ includes "local_cuisine" "cuisine" = true ∨
      includes "local_cuisine" "food" = true ∨ includes "local_cuisine" "dining" = true) ∧
    ∃ m, recItem (48.8566, 2.3522) 0 "local_cuisine" 0 2 (str "Crepes: try them") = .ok (some m) ∧
      m.type = (JSVal.optChain (str "Crepes: try them") "type").or (str "food") ∧
      (∀ s, str "Crepes: try them" = str s → m.type = str "food") ∧
      ((JSVal.optChain (str "Crepes: try them") "type").truthy = false →
        m.type = str "food") :=
  ⟨Or.inr (Or.inl rfl), _, rfl,
    recItem_food_type (48.8566, 2.3522) 0 "local_cuisine" 0 2 (str "Crepes: try them") _
      (Or.inr (Or.inl rfl)) rfl⟩

theorem parisSchedule_wellFormed : wellFormedSchedule parisSchedule := by
  intro day hday
  simp only [parisSchedule, List.mem_cons, List.mem_singleton, List.not_mem_nil,
    or_false] at hday
  rcases hday with rfl | rfl
  · refine ⟨rfl, ?_⟩
    intro activity hact
    have hda : dayActivities (obj [("day", num 1), ("activities", arr [
        obj [("activity", str "Louvre"), ("location", str "Rue de Rivoli")],
        obj [("activity", str "Free time"), ("location", str "")],
        obj [("activity", str "Lunch"), ("location", str "Le Marais")],
        obj [("activity", str "Eiffel Tower"), ("location", str "Champ de Mars")]])])
        = [obj [("activity", str "Louvre"), ("location", str "Rue de Rivoli")],
        obj [("activity", str "Free time"), ("location", str "")],
        obj [("activity", str "Lunch"), ("location", str "Le Marais")],
        obj [("activity", str "Eiffel Tower"), ("location", str "Champ de Mars")]] := rfl
    rw [hda] at hact
    simp only [List.mem_cons, List.mem_singleton, List.not_mem_nil, or_false] at hact
    rcases hact with rfl | rfl | rfl | rfl <;> rfl
  · refine ⟨rfl, ?_⟩
    intro activity hact
    have hda : dayActivities (obj [("day", num 2), ("activities", arr [
        obj [("activity", str "Rest at the hotel")]])])
        = [obj [("activity", str "Rest at the hotel")]] := rfl
    rw [hda] at hact
    simp only [List.mem_singleton] at hact
    subst hact; rfl

/-- Witness for C15: two days, three located activities on the first and none on
the second, give exactly three markers, all with `day = 1`, numbered by the
index of their activity in the full list of the day. -/
theorem scheduleMarkers_correspond_witness :
    wellFormedSchedule parisSchedule ∧
    ∃ markers routes calls,
      daysLoop (48.8566, 2.3522) (fun _ => 0) parisSchedule 0 ([], [], 0)
        = .ok (markers, routes, calls) ∧
      loadMapData (48.8566, 2.3522) (fun _ => 0) (arr parisSchedule) (obj [])
        = .ok (markers, routes) ∧
      markers.length = 3 ∧
      markers.map (fun m => (m.day, m.activityNumber, m.title, m.location))
        = [(some 1, some 1, str "Louvre", str "Rue de Rivoli"),
           (some 1, some 3, str "Lunch", str "Le Marais"),
           (some 1, some 4, str "Eiffel Tower", str "Champ de Mars")] := by
  obtain ⟨markers, routes, calls, h1, h2, h3⟩ :=
    scheduleMarkers_correspond (48.8566, 2.3522) (fun _ => 0) parisSchedule
      parisSchedule_wellFormed
  have h4 : (scheduledStops parisSchedule).map
      (fun s => (some (s.1 + 1), some (s.2.1 + 1), s.2.2.optChain "activity",
        s.2.2.optChain "location"))
      = [(some 1, some 1, str "Louvre", str "Rue de Rivoli"),
         (some 1, some 3, str "Lunch", str "Le Marais"),
         (some 1, some 4, str "Eiffel Tower", str "Champ de Mars")] := rfl
  rw [h4] at h3
  refine ⟨parisSchedule_wellFormed, markers, routes, calls, h1, h2, ?_, h3⟩
  have := congrArg List.length h3
  simpa using this

/-- Witness for C16: the same schedule gives one route, for day 1, through the
positions of the three markers of that day, and none for day 2. -/
theorem dayRoutes_correspond_witness :
    wellFormedSchedule parisSchedule ∧
    ∃ markers routes calls,
      daysLoop (48.8566, 2.3522) (fun _ => 0) parisSchedule 0 ([], [], 0)
        = .ok (markers, routes, calls) ∧
      loadMapData (48.8566, 2.3522) (fun _ => 0) (arr parisSchedule) (obj [])
        = .ok (markers, routes) ∧
      routes.map (fun r => r.day) = [1] ∧
      ∀ r ∈ routes, r.positions
        = (markers.filter (fun m => m.day == some r.day)).map (fun m => m.position) := by
  obtain ⟨markers, routes, calls, h1, h2, h3, h4⟩ :=
    dayRoutes_correspond (48.8566, 2.3522) (fun _ => 0) parisSchedule parisSchedule_wellFormed
  have h5 : (parisSchedule.enum.filter
      (fun d => decide (2 ≤ (locatedActivities (dayActivities d.2)).length))).map
      (fun d => d.1 + 1) = [1] := by decide
  rw [h5] at h3
  exact ⟨parisSchedule_wellFormed, markers, routes, calls, h1, h2, h3, h4⟩

/-- C23, the code at the failing input: with the items `'Roscioli: pasta'` and
`null` in one category the body of `loadMapData` throws a `TypeError` (the read
`item.name` on `null`), so that no marker is set; without the `null` item the
string item yields its marker. -/
theorem loadMapData_null_item_throws :
    loadMapData (48.8566, 2.3522) (fun _ => 0) (arr [])
        (obj [("restaurants", arr [str "Roscioli: pasta", null])]) = .error "TypeError" ∧
    ∃ markers, loadMapData (48.8566, 2.3522) (fun _ => 0) (arr [])
        (obj [("restaurants", arr [str "Roscioli: pasta"])]) = .ok (markers, []) ∧
      markers.map (fun m => m.description) = [str "Roscioli: pasta"] :=
  ⟨rfl, _, rfl, rfl⟩

theorem tenDaySchedule_wellFormed : wellFormedSchedule tenDaySchedule := by
  intro day hday
  have hd := List.eq_of_mem_replicate hday
  subst hd
  refine ⟨rfl, ?_⟩
  intro activity hact
  have hda : dayActivities (obj [("activities", arr [
      obj [("activity", str "Walk"), ("location", str "Old town")]])])
      = [obj [("activity", str "Walk"), ("location", str "Old town")]] := rfl
  rw [hda] at hact
  simp only [List.mem_singleton] at hact
  subst hact; rfl

/-- C29, the code at the failing input: for the markers of a schedule of ten
days, each with one located activity, the day list is `1, 10, 2, ..., 9`: each
day once, in the order of the decimal strings and not of the numbers. -/
theorem dayFilterDays_ten_days :
    ∃ markers routes,
      loadMapData (48.8566, 2.3522) (fun _ => 0) (arr tenDaySchedule) (obj [])
        = .ok (markers, routes) ∧
      markers.map (fun m => m.day)
        = [some 1, some 2, some 3, some 4, some 5, some 6, some 7, some 8, some 9, some 10] ∧
      dayFilterDays markers = [1, 10, 2, 3, 4, 5, 6, 7, 8, 9] :=
  ⟨_, _, (loadMapData_schedule (48.8566, 2.3522) (fun _ => 0) tenDaySchedule
    tenDaySchedule_wellFormed).2, rfl, rfl⟩

end Markers

section MarkersDouble

open JSVal

theorem activitiesLoop_double_eq (cos sin : ℝ → ℝ) (destCoords : ℝ × ℝ) (draws : Nat → ℝ)
    (dayIndex n : Nat) :
    ∀ (activities : List JSVal) (activityIndex : Nat) (scheduleMarkers dayMarkers : List Marker)
      (calls : Nat), (∀ activity ∈ activities, requireObject activity = .ok ()) →
      Double.activitiesLoop cos sin destCoords draws dayIndex n activities activityIndex
          (scheduleMarkers, dayMarkers, calls)
        = .ok (scheduleMarkers ++
              Double.dayMarkersFrom cos sin destCoords draws dayIndex n activities activityIndex
                calls,
            dayMarkers ++
              Double.dayMarkersFrom cos sin destCoords draws dayIndex n activities activityIndex
                calls,
            calls +
              (Double.dayMarkersFrom cos sin destCoords draws dayIndex n activities activityIndex
                calls).length) := by
  intro activities
  induction activities with
  | nil => intro ai sm dm k _; simp [Double.activitiesLoop, Double.dayMarkersFrom]
  | cons activity rest ih =>
    intro ai sm dm k hwf
    have hact := hwf activity (by simp)
    have hrest : ∀ a ∈ rest, requireObject a = .ok () :=
      fun a ha => hwf a (List.mem_cons_of_mem _ ha)
    simp only [Double.activitiesLoop, getProp_of_requireObject _ _ hact, Double.dayMarkersFrom]
    split
    · rw [ih _ _ _ _ hrest]
      simp [Nat.add_assoc, Nat.add_comm]
    · rw [ih _ _ _ _ hrest]

theorem daysLoop_double_eq (cos sin : ℝ → ℝ) (destCoords : ℝ × ℝ) (draws : Nat → ℝ) :
    ∀ (days : List JSVal) (dayIndex : Nat) (scheduleMarkers : List Marker)
      (dayRoutes : List DayRoute) (calls : Nat), wellFormedSchedule days →
      Double.daysLoop cos sin destCoords draws days dayIndex (scheduleMarkers, dayRoutes, calls)
        = .ok (scheduleMarkers ++
              (Double.scheduleFrom cos sin destCoords draws days dayIndex calls).1,
            dayRoutes ++ (Double.scheduleFrom cos sin destCoords draws days dayIndex calls).2,
            calls + (Double.scheduleFrom cos sin destCoords draws days dayIndex calls).1.length)
    := by
  intro days
  induction days with
  | nil => intro d sm dr k _; simp [Double.daysLoop, Double.scheduleFrom]
  | cons day rest ih =>
    intro d sm dr k hwf
    have hday := (hwf day (by simp)).1
    have hacts := (hwf day (by simp)).2
    have hrest : wellFormedSchedule rest := fun x hx => hwf x (List.mem_cons_of_mem _ hx)
    simp only [Double.daysLoop, getProp_of_requireObject _ _ hday, Double.scheduleFrom]
    cases hv : day.optChain "activities" with
    | arr activities =>
      have hda : dayActivities day = activities := by simp [dayActivities, hv]
      rw [hda] at hacts ⊢
      simp only [activitiesLoop_double_eq cos sin destCoords draws d activities.length activities
        0 sm [] k hacts, List.nil_append]
      split
      · next hlen =>
        rw [ih _ _ _ _ hrest]
        simp [hlen, Nat.add_assoc]
      · next hlen =>
        rw [ih _ _ _ _ hrest]
        simp [hlen, Nat.add_assoc]
    | _ =>
      have hda : dayActivities day = [] := by simp [dayActivities, hv]
      rw [hda]
      simp only [Double.dayMarkersFrom, List.length_nil, Nat.add_zero, List.nil_append]
      rw [ih _ _ _ _ hrest]
      simp

theorem dayMarkersFrom_double_map (cos sin : ℝ → ℝ) (destCoords : ℝ × ℝ) (draws : Nat → ℝ)
    (dayIndex n : Nat) :
    ∀ (activities : List JSVal) (activityIndex calls : Nat),
      (Double.dayMarkersFrom cos sin destCoords draws dayIndex n activities activityIndex
          calls).map (fun m => (m.day, m.activityNumber, m.title, m.location))
        = ((activities.enumFrom activityIndex).filter
            (fun p => (p.2.optChain "location").truthy)).map
          (fun a => (some (dayIndex + 1), some (a.1 + 1), a.2.optChain "activity",
            a.2.optChain "location")) := by
  intro activities
  induction activities with
  | nil => intro ai k; simp [Double.dayMarkersFrom]
  | cons activity rest ih =>
    intro ai k
    simp only [Double.dayMarkersFrom, List.enumFrom_cons]
    by_cases h : (activity.optChain "location").truthy = true
    · simp [h, List.filter_cons, ih, Double.scheduleMarker]
    · simp [h, List.filter_cons, ih]

theorem scheduleFrom_double_map (cos sin : ℝ → ℝ) (destCoords : ℝ × ℝ) (draws : Nat → ℝ) :
    ∀ (days : List JSVal) (dayIndex calls : Nat),
      (Double.scheduleFrom cos sin destCoords draws days dayIndex calls).1.map
          (fun m => (m.day, m.activityNumber, m.title, m.location))
        = ((days.enumFrom dayIndex).flatMap (fun d =>
            (locatedActivities (dayActivities d.2)).map (fun a => (d.1, a.1, a.2)))).map
          (fun s => (some (s.1 + 1), some (s.2.1 + 1), s.2.2.optChain "activity",
            s.2.2.optChain "location")) := by
  intro days
  induction days with
  | nil => intro d k; simp [Double.scheduleFrom]
  | cons day rest ih =>
    intro d k
    simp only [Double.scheduleFrom, List.enumFrom_cons, List.flatMap_cons, List.map_append, ih,
      dayMarkersFrom_double_map, locatedActivities, List.enum, List.map_map]
    rfl

theorem dayMarkersFrom_double_located (cos sin : ℝ → ℝ) (destCoords : ℝ × ℝ)
    (draws : Nat → ℝ) (dayIndex n : Nat) :
    ∀ (activities : List JSVal) (activityIndex calls i : Nat) (activity : JSVal),
      activities[i]? = some activity → (activity.optChain "location").truthy = true →
      ∃ j, (Double.dayMarkersFrom cos sin destCoords draws dayIndex n activities activityIndex
          calls)[j]?
        = some (Double.scheduleMarker cos sin destCoords (draws (calls + j)) dayIndex
            (activityIndex + i) n activity) := by
  intro activities
  induction activities with
  | nil => intro ai k i act h; simp at h
  | cons a rest ih =>
    intro ai k i act h hloc
    simp only [Double.dayMarkersFrom]
    cases i with
    | zero =>
      simp only [List.getElem?_cons_zero, Option.some.injEq] at h
      subst h
      rw [if_pos hloc]
      exact ⟨0, by simp⟩
    | succ i =>
      simp only [List.getElem?_cons_succ] at h
      have e2 : ai + 1 + i = ai + (i + 1) := by omega
      by_cases ha : (a.optChain "location").truthy = true
      · rw [if_pos ha]
        obtain ⟨j, hj⟩ := ih (ai + 1) (k + 1) i act h hloc
        have e1 : k + 1 + j = k + (j + 1) := by omega
        refine ⟨j + 1, ?_⟩
        rw [List.getElem?_cons_succ, hj, e1, e2]
      · rw [if_neg ha]
        obtain ⟨j, hj⟩ := ih (ai + 1) k i act h hloc
        exact ⟨j, by rw [hj, e2]⟩

theorem scheduleFrom_double_located (cos sin : ℝ → ℝ) (destCoords : ℝ × ℝ)
    (draws : Nat → ℝ) :
    ∀ (days : List JSVal) (dayIndex calls d : Nat) (day : JSVal) (i : Nat) (activity : JSVal),
      days[d]? = some day → (dayActivities day)[i]? = some activity →
      (activity.optChain "location").truthy = true →
      ∃ j, (Double.scheduleFrom cos sin destCoords draws days dayIndex calls).1[j]?
        = some (Double.scheduleMarker cos sin destCoords (draws (calls + j)) (dayIndex + d) i
            (dayActivities day).length activity) := by
  intro days
  induction days with
  | nil => intro di k d day i act h; simp at h
  | cons day0 rest ih =>
    intro di k d day i act h hi hloc
    simp only [Double.scheduleFrom]
    cases d with
    | zero =>
      simp only [List.getElem?_cons_zero, Option.some.injEq] at h
      subst h
      obtain ⟨j, hj⟩ := dayMarkersFrom_double_located cos sin destCoords draws di
        (dayActivities day0).length (dayActivities day0) 0 k i act hi hloc
      have hjlt : j < (Double.dayMarkersFrom cos sin destCoords draws di
          (dayActivities day0).length (dayActivities day0) 0 k).length := by
        by_contra hcon
        rw [List.getElem?_eq_none (by omega)] at hj
        exact Option.noConfusion hj
      refine ⟨j, ?_⟩
      rw [List.getElem?_append_left hjlt, hj]
      simp
    | succ d =>
      simp only [List.getElem?_cons_succ] at h
      obtain ⟨j, hj⟩ := ih (di + 1) (k + (Double.dayMarkersFrom cos sin destCoords draws di
        (dayActivities day0).length (dayActivities day0) 0 k).length) d day i act h hi hloc
      refine ⟨(Double.dayMarkersFrom cos sin destCoords draws di
        (dayActivities day0).length (dayActivities day0) 0 k).length + j, ?_⟩
      rw [List.getElem?_append_right (by omega), Nat.add_sub_cancel_left, hj]
      have e1 : di + 1 + d = di + (d + 1) := by omega
      rw [e1, Nat.add_assoc]

theorem round_close (z z0 ez Z : ℝ) (h : |z - z0| ≤ ez) (hZ : |z| ≤ Z) :
    |roundDouble z - z0| ≤ ez + Z / 2 ^ 53 := by
  have h1 := roundDouble_abs_sub_le z
  have h2 : |z| / 2 ^ 53 ≤ Z / 2 ^ 53 := by gcongr
  calc |roundDouble z - z0| = |(roundDouble z - z) + (z - z0)| := by ring_nf
    _ ≤ |roundDouble z - z| + |z - z0| := abs_add _ _
    _ ≤ ez + Z / 2 ^ 53 := by linarith

theorem mul_close (x x' y y' ex ey X Y : ℝ) (hx : |x' - x| ≤ ex) (hy : |y' - y| ≤ ey)
    (hX : |x| ≤ X) (hY : |y'| ≤ Y) : |x' * y' - x * y| ≤ ex * Y + X * ey := by
  have hex : 0 ≤ ex := le_trans (abs_nonneg _) hx
  have hX0 : 0 ≤ X := le_trans (abs_nonneg _) hX
  calc |x' * y' - x * y| = |(x' - x) * y' + x * (y' - y)| := by ring_nf
    _ ≤ |(x' - x) * y'| + |x * (y' - y)| := abs_add _ _
    _ = |x' - x| * |y'| + |x| * |y' - y| := by rw [abs_mul, abs_mul]
    _ ≤ ex * Y + X * ey := by
        have h1 : |x' - x| * |y'| ≤ ex * Y := mul_le_mul hx hY (abs_nonneg _) hex
        have h2 : |x| * |y' - y| ≤ X * ey := mul_le_mul hX hy (abs_nonneg _) hX0
        linarith

theorem abs_le_of_close (v v' e V : ℝ) (h : |v' - v| ≤ e) (hV : |v| ≤ V) : |v'| ≤ V + e := by
  calc |v'| = |(v' - v) + v| := by ring_nf
    _ ≤ |v' - v| + |v| := abs_add _ _
    _ ≤ V + e := by linarith

theorem cos_lipschitz (x y : ℝ) : |Real.cos x - Real.cos y| ≤ |x - y| := by
  rw [Real.cos_sub_cos]
  have h1 := Real.abs_sin_le_one ((x + y) / 2)
  have h2 := @Real.abs_sin_le_abs ((x - y) / 2)
  have h3 : |(x - y) / 2| = |x - y| / 2 := by rw [abs_div]; norm_num
  calc |-2 * Real.sin ((x + y) / 2) * Real.sin ((x - y) / 2)|
      = 2 * |Real.sin ((x + y) / 2)| * |Real.sin ((x - y) / 2)| := by
        rw [abs_mul, abs_mul]; norm_num
    _ ≤ 2 * 1 * (|x - y| / 2) := by
        have := abs_nonneg (Real.sin ((x - y) / 2))
        have := abs_nonneg (Real.sin ((x + y) / 2))
        rw [h3] at h2
        nlinarith
    _ = |x - y| := by ring

theorem sin_lipschitz (x y : ℝ) : |Real.sin x - Real.sin y| ≤ |x - y| := by
  rw [Real.sin_sub_sin]
  have h1 := Real.abs_cos_le_one ((x + y) / 2)
  have h2 := @Real.abs_sin_le_abs ((x - y) / 2)
  have h3 : |(x - y) / 2| = |x - y| / 2 := by rw [abs_div]; norm_num
  calc |2 * Real.sin ((x - y) / 2) * Real.cos ((x + y) / 2)|
      = 2 * |Real.sin ((x - y) / 2)| * |Real.cos ((x + y) / 2)| := by
        rw [abs_mul, abs_mul]; norm_num
    _ ≤ 2 * (|x - y| / 2) * 1 := by
        have := abs_nonneg (Real.sin ((x - y) / 2))
        have := abs_nonneg (Real.cos ((x + y) / 2))
        rw [h3] at h2
        nlinarith
    _ = |x - y| := by ring

/-- The constant `Math.PI` differs from `π` by less than `2 ^ -52`. -/
theorem mathPI_close : |(mathPI : ℝ) - Real.pi| ≤ 2 / 2 ^ 53 := by
  have h1 := Real.pi_gt_d20
  have h2 := Real.pi_lt_d20
  have hv : ((mathPI : ℚ) : ℝ) = 7074237752028440 / 2 ^ 51 := by
    simp only [mathPI, dbl]
    push_cast
    norm_num
  rw [hv, abs_le]
  constructor
  · norm_num at h1 h2 ⊢; linarith
  · norm_num at h1 h2 ⊢; linarith

/-- The angle computed for the activity at index `i` of `n` differs from
`2 * π * i / n` by at most `28 * 2 ^ -53`. -/
theorem angle_close (i n : Nat) (hi : i < n) :
    |roundDouble (roundDouble (roundDouble ((i : ℝ) / (n : ℝ)) * 2) * (mathPI : ℝ))
        - 2 * Real.pi * (i : ℝ) / (n : ℝ)| ≤ 28 / 2 ^ 53 := by
  have e0 : 2 * Real.pi * (i : ℝ) / (n : ℝ) = (i : ℝ) / (n : ℝ) * 2 * Real.pi := by ring
  rw [e0]
  have hn : (0 : ℝ) < n := by exact_mod_cast (by omega : 0 < n)
  have hρ0 : (0 : ℝ) ≤ (i : ℝ) / n := by positivity
  have hρ1 : (i : ℝ) / n ≤ 1 := by
    rw [div_le_one hn]
    exact_mod_cast hi.le
  generalize (i : ℝ) / (n : ℝ) = ρ at hρ0 hρ1 ⊢
  have hρabs : |ρ| ≤ 1 := by rw [abs_of_nonneg hρ0]; exact hρ1
  have hq1 : |roundDouble ρ - ρ| ≤ 1 / 2 ^ 53 :=
    le_trans (round_close ρ ρ 0 1 (by simp) hρabs) (by norm_num)
  have hm : |roundDouble ρ * 2 - ρ * 2| ≤ 2 / 2 ^ 53 :=
    le_trans (mul_close ρ (roundDouble ρ) 2 2 _ 0 1 2 hq1 (by simp) hρabs (by norm_num))
      (by norm_num)
  have hρ2abs : |ρ * 2| ≤ 2 := by rw [abs_mul]; norm_num; linarith
  have hmabs : |roundDouble ρ * 2| ≤ 22 / 10 :=
    le_trans (abs_le_of_close (ρ * 2) _ _ 2 hm hρ2abs) (by norm_num)
  have hq2 : |roundDouble (roundDouble ρ * 2) - ρ * 2| ≤ 5 / 2 ^ 53 :=
    le_trans (round_close _ (ρ * 2) _ _ hm hmabs) (by norm_num)
  have hq2abs : |roundDouble (roundDouble ρ * 2)| ≤ 21 / 10 :=
    le_trans (abs_le_of_close (ρ * 2) _ _ 2 hq2 hρ2abs) (by norm_num)
  have hpi := mathPI_close
  have hpi3 : |Real.pi| ≤ 32 / 10 := by
    rw [abs_of_pos Real.pi_pos]
    have := Real.pi_lt_d6
    norm_num at this ⊢; linarith
  have hPIabs : |(mathPI : ℝ)| ≤ 33 / 10 :=
    le_trans (abs_le_of_close Real.pi _ _ _ hpi hpi3) (by norm_num)
  have hp : |roundDouble (roundDouble ρ * 2) * (mathPI : ℝ) - ρ * 2 * Real.pi|
      ≤ 21 / 2 ^ 53 :=
    le_trans (mul_close (ρ * 2) _ Real.pi (mathPI : ℝ) _ _ 2 (33 / 10) hq2 hpi hρ2abs hPIabs)
      (by norm_num)
  have hpabs : |roundDouble (roundDouble ρ * 2) * (mathPI : ℝ)| ≤ 7 := by
    rw [abs_mul]
    calc |roundDouble (roundDouble ρ * 2)| * |(mathPI : ℝ)| ≤ 21 / 10 * (33 / 10) :=
          mul_le_mul hq2abs hPIabs (abs_nonneg _) (by norm_num)
      _ ≤ 7 := by norm_num
  have hθ := round_close _ (ρ * 2 * Real.pi) _ 7 hp hpabs
  exact le_trans hθ (by norm_num)

/-- One coordinate of the marker position, computed in double arithmetic with a
function `f` that is within `2 ^ -52` of the exact `F` (cosine or sine), differs
from the exact coordinate by at most `(bound + 8) * 2 ^ -53`. -/
theorem coordinate_close (f F : ℝ → ℝ) (hf : ∀ x, |f x - F x| ≤ 1 / 2 ^ 52)
    (hF1 : ∀ x, |F x| ≤ 1) (hlip : ∀ x y, |F x - F y| ≤ |x - y|)
    (base bound random : ℝ) (i n : Nat) (hi : i < n) (hu0 : 0 ≤ random) (hu1 : random < 1)
    (hbase : |base| ≤ bound) :
    |roundDouble (base + roundDouble
          (roundDouble (roundDouble (0.02 : ℝ) + roundDouble (random * roundDouble (0.015 : ℝ)))
            * f (roundDouble (roundDouble (roundDouble ((i : ℝ) / (n : ℝ)) * 2)
                * (mathPI : ℝ)))))
        - (base + (0.02 + 0.015 * random) * F (2 * Real.pi * (i : ℝ) / (n : ℝ)))|
      ≤ (bound + 8) / 2 ^ 53 := by
  have hθ := angle_close i n hi
  generalize roundDouble (roundDouble (roundDouble ((i : ℝ) / (n : ℝ)) * 2) * (mathPI : ℝ)) = θ
    at hθ ⊢
  generalize 2 * Real.pi * (i : ℝ) / (n : ℝ) = t at hθ ⊢
  have hc : |f θ - F t| ≤ 30 / 2 ^ 53 := by
    calc |f θ - F t| = |(f θ - F θ) + (F θ - F t)| := by ring_nf
      _ ≤ |f θ - F θ| + |F θ - F t| := abs_add _ _
      _ ≤ 1 / 2 ^ 52 + 28 / 2 ^ 53 := add_le_add (hf θ) (le_trans (hlip θ t) hθ)
      _ = 30 / 2 ^ 53 := by norm_num
  have hcabs : |f θ| ≤ 11 / 10 :=
    le_trans (abs_le_of_close (F t) _ _ 1 hc (hF1 t)) (by norm_num)
  have hL15 : |roundDouble (0.015 : ℝ) - 0.015| ≤ 1 / 2 ^ 53 :=
    le_trans (round_close (0.015 : ℝ) 0.015 0 1 (by simp) (by rw [abs_of_pos] <;> norm_num))
      (by norm_num)
  have hL15abs : |roundDouble (0.015 : ℝ)| ≤ 16 / 1000 :=
    le_trans (abs_le_of_close 0.015 _ _ (15 / 1000) hL15 (by rw [abs_of_pos] <;> norm_num))
      (by norm_num)
  have hL02 : |roundDouble (0.02 : ℝ) - 0.02| ≤ 1 / 2 ^ 53 :=
    le_trans (round_close (0.02 : ℝ) 0.02 0 1 (by simp) (by rw [abs_of_pos] <;> norm_num))
      (by norm_num)
  have huabs : |random| ≤ 1 := by rw [abs_of_nonneg hu0]; exact hu1.le
  have hprod : |random * roundDouble (0.015 : ℝ) - random * 0.015| ≤ 1 / 2 ^ 53 :=
    le_trans (mul_close random random 0.015 _ 0 _ 1 (16 / 1000) (by simp) hL15 huabs hL15abs)
      (by norm_num)
  have hprodabs : |random * roundDouble (0.015 : ℝ)| ≤ 16 / 1000 := by
    rw [abs_mul]
    calc |random| * |roundDouble (0.015 : ℝ)| ≤ 1 * (16 / 1000) :=
          mul_le_mul huabs hL15abs (abs_nonneg _) (by norm_num)
      _ = 16 / 1000 := by norm_num
  have ha1 : |roundDouble (random * roundDouble (0.015 : ℝ)) - random * 0.015| ≤ 2 / 2 ^ 53 :=
    le_trans (round_close _ _ _ _ hprod hprodabs) (by norm_num)
  have hr015 : |random * 0.015| ≤ 15 / 1000 := by
    rw [abs_of_nonneg (by positivity)]; linarith
  have hsum : |roundDouble (0.02 : ℝ) + roundDouble (random * roundDouble (0.015 : ℝ))
      - (0.02 + 0.015 * random)| ≤ 3 / 2 ^ 53 := by
    have e : roundDouble (0.02 : ℝ) + roundDouble (random * roundDouble (0.015 : ℝ))
        - (0.02 + 0.015 * random)
        = (roundDouble (0.02 : ℝ) - 0.02)
          + (roundDouble (random * roundDouble (0.015 : ℝ)) - random * 0.015) := by ring
    rw [e]
    exact le_trans (abs_add _ _) (by linarith)
  have hrabs : |(0.02 : ℝ) + 0.015 * random| ≤ 35 / 1000 := by
    rw [abs_of_nonneg (by positivity)]; linarith
  have hsumabs : |roundDouble (0.02 : ℝ) + roundDouble (random * roundDouble (0.015 : ℝ))|
      ≤ 36 / 1000 := le_trans (abs_le_of_close _ _ _ _ hsum hrabs) (by norm_num)
  have hr := round_close _ _ _ _ hsum hsumabs
  generalize roundDouble (roundDouble (0.02 : ℝ) + roundDouble (random * roundDouble (0.015 : ℝ)))
    = r at hr ⊢
  have hr' : |r - (0.02 + 0.015 * random)| ≤ 4 / 2 ^ 53 := le_trans hr (by norm_num)
  have hx : |r * f θ - (0.02 + 0.015 * random) * F t| ≤ 6 / 2 ^ 53 :=
    le_trans (mul_close _ r _ (f θ) _ _ _ _ hr' hc hrabs hcabs) (by norm_num)
  have hxexact : |(0.02 + 0.015 * random) * F t| ≤ 35 / 1000 := by
    rw [abs_mul]
    calc |(0.02 : ℝ) + 0.015 * random| * |F t| ≤ 35 / 1000 * 1 :=
          mul_le_mul hrabs (hF1 t) (abs_nonneg _) (by norm_num)
      _ = 35 / 1000 := by norm_num
  have hxabs : |r * f θ| ≤ 4 / 100 :=
    le_trans (abs_le_of_close _ _ _ _ hx hxexact) (by norm_num)
  have hrx := round_close _ _ _ _ hx hxabs
  generalize roundDouble (r * f θ) = x at hrx ⊢
  have hrx' : |x - (0.02 + 0.015 * random) * F t| ≤ 7 / 2 ^ 53 :=
    le_trans hrx (by norm_num)
  have hxa : |x| ≤ 4 / 100 := le_trans (abs_le_of_close _ _ _ _ hrx' hxexact) (by norm_num)
  have hs : |base + x - (base + (0.02 + 0.015 * random) * F t)| ≤ 7 / 2 ^ 53 := by
    have e : base + x - (base + (0.02 + 0.015 * random) * F t)
        = x - (0.02 + 0.015 * random) * F t := by ring
    rw [e]; exact hrx'
  have hsabs : |base + x| ≤ bound + 4 / 100 :=
    le_trans (abs_add _ _) (add_le_add hbase hxa)
  have hfinal := round_close _ _ _ _ hs hsabs
  refine le_trans hfinal ?_
  have : (7 : ℝ) / 2 ^ 53 + (bound + 4 / 100) / 2 ^ 53 = (bound + 704 / 100) / 2 ^ 53 := by
    ring
  rw [this]
  gcongr
  norm_num

theorem offset_length_close (a b r t E1 E2 : ℝ) (hr : 0 ≤ r)
    (ha : |a - r * Real.cos t| ≤ E1) (hb : |b - r * Real.sin t| ≤ E2) :
    |Real.sqrt (a ^ 2 + b ^ 2) - r| ≤ E1 + E2 := by
  have hz : Complex.abs ⟨a, b⟩ = Real.sqrt (a ^ 2 + b ^ 2) := by
    rw [Complex.abs_apply, Complex.normSq_mk]
    congr 1; ring
  have hw : Complex.abs ⟨r * Real.cos t, r * Real.sin t⟩ = r := by
    rw [Complex.abs_apply, Complex.normSq_mk]
    have h1 : r * Real.cos t * (r * Real.cos t) + r * Real.sin t * (r * Real.sin t)
        = r ^ 2 := by
      have := Real.sin_sq_add_cos_sq t
      nlinarith
    rw [h1, Real.sqrt_sq hr]
  have h1 := Complex.abs.abs_abv_sub_le_abv_sub ⟨a, b⟩ ⟨r * Real.cos t, r * Real.sin t⟩
  have h2 := Complex.abs_le_abs_re_add_abs_im
    ((⟨a, b⟩ : ℂ) - ⟨r * Real.cos t, r * Real.sin t⟩)
  rw [hz, hw] at h1
  simp only [Complex.sub_re, Complex.sub_im] at h2
  linarith

/-- The position computed in double arithmetic lies within `10^-13` of
`destination + r * (cos t, sin t)` in each coordinate, and the length of its
offset from the destination within `10^-13` of the band from `0.02` to `0.035`. -/
theorem markerPosition_close (cos sin : ℝ → ℝ) (destCoords : ℝ × ℝ) (random : ℝ) (i n : Nat)
    (hcos : ∀ x, |cos x - Real.cos x| ≤ 1 / 2 ^ 52)
    (hsin : ∀ x, |sin x - Real.sin x| ≤ 1 / 2 ^ 52)
    (hlat : |destCoords.1| ≤ 90) (hlng : |destCoords.2| ≤ 180)
    (hu0 : 0 ≤ random) (hu1 : random < 1) (hi : i < n) :
    |(Double.markerPosition cos sin destCoords random i n).1
        - (destCoords.1 + (0.02 + 0.015 * random) * Real.cos (2 * Real.pi * (i : ℝ) / (n : ℝ)))|
      ≤ 1 / 10 ^ 13 ∧
    |(Double.markerPosition cos sin destCoords random i n).2
        - (destCoords.2 + (0.02 + 0.015 * random) * Real.sin (2 * Real.pi * (i : ℝ) / (n : ℝ)))|
      ≤ 1 / 10 ^ 13 ∧
    0.02 - 1 / 10 ^ 13 < Real.sqrt
      (((Double.markerPosition cos sin destCoords random i n).1 - destCoords.1) ^ 2 +
        ((Double.markerPosition cos sin destCoords random i n).2 - destCoords.2) ^ 2) ∧
    Real.sqrt
      (((Double.markerPosition cos sin destCoords random i n).1 - destCoords.1) ^ 2 +
        ((Double.markerPosition cos sin destCoords random i n).2 - destCoords.2) ^ 2)
      < 0.035 + 1 / 10 ^ 13 := by
  have h1 := coordinate_close cos Real.cos hcos Real.abs_cos_le_one cos_lipschitz
    destCoords.1 90 random i n hi hu0 hu1 hlat
  have h2 := coordinate_close sin Real.sin hsin Real.abs_sin_le_one sin_lipschitz
    destCoords.2 180 random i n hi hu0 hu1 hlng
  have hp1 : (Double.markerPosition cos sin destCoords random i n).1
      = roundDouble (destCoords.1 + roundDouble
          (roundDouble (roundDouble (0.02 : ℝ) + roundDouble (random * roundDouble (0.015 : ℝ)))
            * cos (roundDouble (roundDouble (roundDouble ((i : ℝ) / (n : ℝ)) * 2)
                * (mathPI : ℝ))))) := rfl
  have hp2 : (Double.markerPosition cos sin destCoords random i n).2
      = roundDouble (destCoords.2 + roundDouble
          (roundDouble (roundDouble (0.02 : ℝ) + roundDouble (random * roundDouble (0.015 : ℝ)))
            * sin (roundDouble (roundDouble (roundDouble ((i : ℝ) / (n : ℝ)) * 2)
                * (mathPI : ℝ))))) := rfl
  rw [← hp1] at h1
  rw [← hp2] at h2
  have hr0 : (0 : ℝ) ≤ 0.02 + 0.015 * random := by positivity
  have hlen := offset_length_close
    ((Double.markerPosition cos sin destCoords random i n).1 - destCoords.1)
    ((Double.markerPosition cos sin destCoords random i n).2 - destCoords.2)
    (0.02 + 0.015 * random) (2 * Real.pi * (i : ℝ) / (n : ℝ)) ((90 + 8) / 2 ^ 53)
    ((180 + 8) / 2 ^ 53) hr0
    (by
      have e : (Double.markerPosition cos sin destCoords random i n).1 - destCoords.1
          - (0.02 + 0.015 * random) * Real.cos (2 * Real.pi * (i : ℝ) / (n : ℝ))
          = (Double.markerPosition cos sin destCoords random i n).1
            - (destCoords.1 + (0.02 + 0.015 * random)
              * Real.cos (2 * Real.pi * (i : ℝ) / (n : ℝ))) := by ring
      rw [e]; exact h1)
    (by
      have e : (Double.markerPosition cos sin destCoords random i n).2 - destCoords.2
          - (0.02 + 0.015 * random) * Real.sin (2 * Real.pi * (i : ℝ) / (n : ℝ))
          = (Double.markerPosition cos sin destCoords random i n).2
            - (destCoords.2 + (0.02 + 0.015 * random)
              * Real.sin (2 * Real.pi * (i : ℝ) / (n : ℝ))) := by ring
      rw [e]; exact h2)
  have hlen' := abs_le.mp hlen
  refine ⟨le_trans h1 (by norm_num), le_trans h2 (by norm_num), ?_, ?_⟩
  · have : (0.02 : ℝ) - 1 / 10 ^ 13 < 0.02 + 0.015 * random - ((90 + 8) / 2 ^ 53
        + (180 + 8) / 2 ^ 53) := by
      have : (0 : ℝ) ≤ 0.015 * random := by positivity
      norm_num
      linarith
    linarith [hlen'.1]
  · have : (0.02 : ℝ) + 0.015 * random + ((90 + 8) / 2 ^ 53 + (180 + 8) / 2 ^ 53)
        < 0.035 + 1 / 10 ^ 13 := by
      norm_num
      linarith
    linarith [hlen'.2]

/-- C17, amended: for every schedule of day records with activity records, a
destination with latitude within `±90` and longitude within `±180`, all draws in
`[0, 1)` and functions `Math.cos`, `Math.sin` within `2^-52` of the cosine and
the sine, the loop returns one marker for each located activity, in schedule
order; the marker of the activity at index `i` of a day with `n` activities is
placed at the double-arithmetic value of `destination + r * (cos t, sin t)` with
`t = 2 * pi * i / n` and `r = 0.02 + 0.015 * u`, `u` being the draw made for it.
Each coordinate lies within `10^-13` of the exact value, and the Euclidean
length of the offset from the destination is greater than `0.02 - 10^-13` and
less than `0.035 + 10^-13`. -/
theorem scheduleMarker_offset (cos sin : ℝ → ℝ) (destCoords : ℝ × ℝ) (draws : Nat → ℝ)
    (days : List JSVal) (hwf : wellFormedSchedule days)
    (hdraws : ∀ k, 0 ≤ draws k ∧ draws k < 1)
    (hcos : ∀ x, |cos x - Real.cos x| ≤ 1 / 2 ^ 52)
    (hsin : ∀ x, |sin x - Real.sin x| ≤ 1 / 2 ^ 52)
    (hlat : |destCoords.1| ≤ 90) (hlng : |destCoords.2| ≤ 180) :
    ∃ markers routes calls,
      Double.daysLoop cos sin destCoords draws days 0 ([], [], 0)
        = .ok (markers, routes, calls) ∧
      markers.map (fun m => (m.day, m.activityNumber, m.title, m.location))
        = (scheduledStops days).map
            (fun s => (some (s.1 + 1), some (s.2.1 + 1), s.2.2.optChain "activity",
              s.2.2.optChain "location")) ∧
      ∀ (d : Nat) (day : JSVal) (i : Nat) (activity : JSVal),
        days[d]? = some day → (dayActivities day)[i]? = some activity →
        (activity.optChain "location").truthy = true →
        ∃ (j : Nat) (m : Marker), markers[j]? = some m ∧ m.day = some (d + 1) ∧
          m.activityNumber = some (i + 1) ∧
          m.position = Double.markerPosition cos sin destCoords (draws j) i
            (dayActivities day).length ∧
          |m.position.1 - (destCoords.1 + (0.02 + 0.015 * draws j) *
              Real.cos (2 * Real.pi * (i : ℝ) / ((dayActivities day).length : ℝ)))|
            ≤ 1 / 10 ^ 13 ∧
          |m.position.2 - (destCoords.2 + (0.02 + 0.015 * draws j) *
              Real.sin (2 * Real.pi * (i : ℝ) / ((dayActivities day).length : ℝ)))|
            ≤ 1 / 10 ^ 13 ∧
          0.02 - 1 / 10 ^ 13 < Real.sqrt ((m.position.1 - destCoords.1) ^ 2 +
            (m.position.2 - destCoords.2) ^ 2) ∧
          Real.sqrt ((m.position.1 - destCoords.1) ^ 2 +
            (m.position.2 - destCoords.2) ^ 2) < 0.035 + 1 / 10 ^ 13 := by
  have h := daysLoop_double_eq cos sin destCoords draws days 0 [] [] 0 hwf
  simp only [List.nil_append, Nat.zero_add] at h
  refine ⟨_, _, _, h, scheduleFrom_double_map cos sin destCoords draws days 0 0, ?_⟩
  intro d day i activity hd hi hloc
  obtain ⟨j, hj⟩ := scheduleFrom_double_located cos sin destCoords draws days 0 0 d day i
    activity hd hi hloc
  simp only [Nat.zero_add] at hj
  have hilt : i < (dayActivities day).length := by
    by_contra hcon
    rw [List.getElem?_eq_none (by omega)] at hi
    exact Option.noConfusion hi
  obtain ⟨c1, c2, c3, c4⟩ := markerPosition_close cos sin destCoords (draws j) i
    (dayActivities day).length hcos hsin hlat hlng (hdraws j).1 (hdraws j).2 hilt
  exact ⟨j, _, hj, rfl, rfl, rfl, c1, c2, c3, c4⟩

theorem roundDouble_one : roundDouble (1 : ℝ) = 1 := by
  have h := roundDouble_eq_pos (1 : ℝ) (-52) 4503599627370496 (by norm_num) (by norm_num)
    (by norm_num) (by norm_num)
  rw [h]
  norm_num

theorem nearestCos_close (x : ℝ) : |nearestCos x - Real.cos x| ≤ 1 / 2 ^ 52 := by
  have h1 := roundDouble_abs_sub_le (Real.cos x)
  have h2 := Real.abs_cos_le_one x
  have h3 : |Real.cos x| / 2 ^ 53 ≤ 1 / 2 ^ 53 := by gcongr
  unfold nearestCos
  exact le_trans h1 (le_trans h3 (by norm_num))

theorem nearestSin_close (x : ℝ) : |nearestSin x - Real.sin x| ≤ 1 / 2 ^ 52 := by
  have h1 := roundDouble_abs_sub_le (Real.sin x)
  have h2 := Real.abs_sin_le_one x
  have h3 : |Real.sin x| / 2 ^ 53 ≤ 1 / 2 ^ 53 := by gcongr
  unfold nearestSin
  exact le_trans h1 (le_trans h3 (by norm_num))

/-- The position computed for the only activity of a day, with the destination
`(20, 0)` and the draw `0`: the latitude is the double `20.02`, which is
`20.019999999999999573...`, and the longitude is `0`. -/
theorem markerPosition_at_twenty :
    Double.markerPosition nearestCos nearestSin (20, 0) 0 0 1
      = (5635129033747333 / 2 ^ 48, 0) := by
  have h02 : roundDouble (0.02 : ℝ) = 5764607523034235 / 2 ^ 58 := by
    have h := roundDouble_eq_pos (0.02 : ℝ) (-58) 5764607523034235 (by norm_num)
      (by norm_num) (by norm_num) (by norm_num)
    rw [h]
    norm_num
  have hL : roundDouble (5764607523034235 / 2 ^ 58 : ℝ) = 5764607523034235 / 2 ^ 58 := by
    have h := roundDouble_eq_pos (5764607523034235 / 2 ^ 58 : ℝ) (-58) 5764607523034235
      (by norm_num) (by norm_num) (by norm_num) (by norm_num)
    rw [h]
    norm_num
  have h20 : roundDouble (20 + 5764607523034235 / 2 ^ 58 : ℝ) = 5635129033747333 / 2 ^ 48 := by
    have h := roundDouble_eq_pos (20 + 5764607523034235 / 2 ^ 58 : ℝ) (-48) 5635129033747333
      (by norm_num) (by norm_num) (by norm_num) (by norm_num)
    rw [h]
    norm_num
  simp only [Double.markerPosition, nearestCos, nearestSin, Nat.cast_zero, Nat.cast_one,
    div_one, zero_mul, mul_zero, mul_one, add_zero, zero_add, roundDouble_zero, Real.cos_zero,
    Real.sin_zero, roundDouble_one, h02, hL, h20]

theorem oneStopSchedule_wellFormed : wellFormedSchedule oneStopSchedule := by
  intro day hday
  simp only [oneStopSchedule, List.mem_singleton] at hday
  subst hday
  refine ⟨rfl, ?_⟩
  intro activity hact
  have hda : dayActivities (obj [("day", num 1), ("activities", arr [
      obj [("activity", str "Walk"), ("location", str "Old town")]])])
      = [obj [("activity", str "Walk"), ("location", str "Old town")]] := rfl
  rw [hda] at hact
  simp only [List.mem_singleton] at hact
  subst hact; rfl

/-- Counterexample to C17: for the destination `(20, 0)`, one located activity
and the draw `0`, the latitude `20 + 0.02` rounds to the double
`20.019999999999999573...`, so that the offset of the marker from the
destination has the length `0.019999999999999573...`, less than `0.02`. -/
theorem scheduleMarker_offset_below_band :
    ∃ markers routes calls,
      Double.daysLoop nearestCos nearestSin (20, 0) (fun _ => 0) oneStopSchedule 0 ([], [], 0)
        = .ok (markers, routes, calls) ∧
      ∃ m, markers = [m] ∧ m.position = (5635129033747333 / 2 ^ 48, 0) ∧
        Real.sqrt ((m.position.1 - 20) ^ 2 + (m.position.2 - 0) ^ 2) < 0.02 := by
  have h := daysLoop_double_eq nearestCos nearestSin (20, 0) (fun _ => 0) oneStopSchedule 0 [] []
    0 oneStopSchedule_wellFormed
  simp only [List.nil_append, Nat.zero_add] at h
  have hmarkers : (Double.scheduleFrom nearestCos nearestSin (20, 0) (fun _ => 0)
      oneStopSchedule 0 0).1
      = [Double.scheduleMarker nearestCos nearestSin (20, 0) 0 0 0 1
          (obj [("activity", str "Walk"), ("location", str "Old town")])] := rfl
  refine ⟨_, _, _, h, _, hmarkers, markerPosition_at_twenty, ?_⟩
  have hpos : (Double.scheduleMarker nearestCos nearestSin (20, 0) 0 0 0 1
      (obj [("activity", str "Walk"), ("location", str "Old town")])).position
      = (5635129033747333 / 2 ^ 48, 0) := markerPosition_at_twenty
  rw [hpos]
  have e : ((5635129033747333 / 2 ^ 48 : ℝ) - 20) ^ 2 + ((0 : ℝ) - 0) ^ 2
      = (5629499534213 / 2 ^ 48 : ℝ) ^ 2 := by norm_num
  rw [e, Real.sqrt_sq (by norm_num)]
  norm_num

/-- Witness for C17: the two-day schedule, the destination `(48.8566, 2.3522)`,
every draw `1/2`, and the math library that returns the nearest doubles. -/
theorem scheduleMarker_offset_witness :
    wellFormedSchedule parisSchedule ∧
    (∀ k : Nat, (0 : ℝ) ≤ (fun _ => (1 / 2 : ℝ)) k ∧ (fun _ => (1 / 2 : ℝ)) k < 1) ∧
    (∀ x, |nearestCos x - Real.cos x| ≤ 1 / 2 ^ 52) ∧
    (∀ x, |nearestSin x - Real.sin x| ≤ 1 / 2 ^ 52) ∧
    |((48.8566, 2.3522) : ℝ × ℝ).1| ≤ 90 ∧ |((48.8566, 2.3522) : ℝ × ℝ).2| ≤ 180 ∧
    ∃ markers routes calls,
      Double.daysLoop nearestCos nearestSin (48.8566, 2.3522) (fun _ => 1 / 2) parisSchedule 0
          ([], [], 0) = .ok (markers, routes, calls) ∧
      markers.map (fun m => (m.day, m.activityNumber, m.title, m.location))
        = (scheduledStops parisSchedule).map
            (fun s => (some (s.1 + 1), some (s.2.1 + 1), s.2.2.optChain "activity",
              s.2.2.optChain "location")) ∧
      ∀ (d : Nat) (day : JSVal) (i : Nat) (activity : JSVal),
        parisSchedule[d]? = some day → (dayActivities day)[i]? = some activity →
        (activity.optChain "location").truthy = true →
        ∃ (j : Nat) (m : Marker), markers[j]? = some m ∧ m.day = some (d + 1) ∧
          m.activityNumber = some (i + 1) ∧
          m.position = Double.markerPosition nearestCos nearestSin (48.8566, 2.3522)
            ((fun _ => (1 / 2 : ℝ)) j) i (dayActivities day).length ∧
          |m.position.1 - (((48.8566, 2.3522) : ℝ × ℝ).1
              + (0.02 + 0.015 * (fun _ => (1 / 2 : ℝ)) j) *
                Real.cos (2 * Real.pi * (i : ℝ) / ((dayActivities day).length : ℝ)))|
            ≤ 1 / 10 ^ 13 ∧
          |m.position.2 - (((48.8566, 2.3522) : ℝ × ℝ).2
              + (0.02 + 0.015 * (fun _ => (1 / 2 : ℝ)) j) *
                Real.sin (2 * Real.pi * (i : ℝ) / ((dayActivities day).length : ℝ)))|
            ≤ 1 / 10 ^ 13 ∧
          0.02 - 1 / 10 ^ 13 < Real.sqrt
            ((m.position.1 - ((48.8566, 2.3522) : ℝ × ℝ).1) ^ 2 +
              (m.position.2 - ((48.8566, 2.3522) : ℝ × ℝ).2) ^ 2) ∧
          Real.sqrt ((m.position.1 - ((48.8566, 2.3522) : ℝ × ℝ).1) ^ 2 +
            (m.position.2 - ((48.8566, 2.3522) : ℝ × ℝ).2) ^ 2) < 0.035 + 1 / 10 ^ 13 :=
  have hd : ∀ k : Nat, (0 : ℝ) ≤ (fun _ => (1 / 2 : ℝ)) k ∧ (fun _ => (1 / 2 : ℝ)) k < 1 :=
    fun _ => ⟨by norm_num, by norm_num⟩
  have hlat : |((48.8566, 2.3522) : ℝ × ℝ).1| ≤ 90 := by
    rw [abs_of_pos] <;> norm_num
  have hlng : |((48.8566, 2.3522) : ℝ × ℝ).2| ≤ 180 := by
    rw [abs_of_pos] <;> norm_num
  ⟨parisSchedule_wellFormed, hd, nearestCos_close, nearestSin_close, hlat, hlng,
    scheduleMarker_offset nearestCos nearestSin (48.8566, 2.3522) (fun _ => 1 / 2) parisSchedule
      parisSchedule_wellFormed hd nearestCos_close nearestSin_close hlat hlng⟩

end MarkersDouble

section Forms

open AIItineraryGenerator in
theorem checkDestination_fields (trim : String → String)
    (formData : AIItineraryGenerator.FormData) (e : AIItineraryGenerator.FormErrors) :
    (checkDestination trim formData e).destination
      = (if trim formData.destination = "" then some "Destination is required"
          else e.destination) ∧
    (checkDestination trim formData e).start_date = e.start_date ∧
    (checkDestination trim formData e).end_date = e.end_date := by
  unfold checkDestination
  split <;> exact ⟨rfl, rfl, rfl⟩

open AIItineraryGenerator in
theorem checkStartDate_fields (formData : AIItineraryGenerator.FormData)
    (e : AIItineraryGenerator.FormErrors) :
    (checkStartDate formData e).destination = e.destination ∧
    (checkStartDate formData e).start_date
      = (if formData.start_date = "" then some "Start date is required" else e.start_date) ∧
    (checkStartDate formData e).end_date = e.end_date := by
  unfold checkStartDate
  split <;> exact ⟨rfl, rfl, rfl⟩

open AIItineraryGenerator in
theorem checkEndDate_fields (formData : AIItineraryGenerator.FormData)
    (e : AIItineraryGenerator.FormErrors) :
    (checkEndDate formData e).destination = e.destination ∧
    (checkEndDate formData e).start_date = e.start_date ∧
    (checkEndDate formData e).end_date
      = (if formData.end_date = "" then some "End date is required" else e.end_date) := by
  unfold checkEndDate
  split <;> exact ⟨rfl, rfl, rfl⟩

open AIItineraryGenerator in
theorem checkDateOrder_fields (dateValue : String → Option Int)
    (formData : AIItineraryGenerator.FormData) (e : AIItineraryGenerator.FormErrors) :
    (checkDateOrder dateValue formData e).destination = e.destination ∧
    (checkDateOrder dateValue formData e).start_date = e.start_date ∧
    (checkDateOrder dateValue formData e).end_date
      = (if formData.start_date ≠ "" ∧ formData.end_date ≠ "" ∧
            dateLe (dateValue formData.end_date) (dateValue formData.start_date) = true
          then some "End date must be after start date" else e.end_date) := by
  unfold checkDateOrder
  by_cases h1 : formData.start_date ≠ "" ∧ formData.end_date ≠ ""
  · by_cases h2 : dateLe (dateValue formData.end_date) (dateValue formData.start_date) = true
    · rw [if_pos h1, if_pos h2, if_pos ⟨h1.1, h1.2, h2⟩]
      exact ⟨rfl, rfl, rfl⟩
    · rw [if_pos h1, if_neg h2, if_neg (fun hc => h2 hc.2.2)]
      exact ⟨rfl, rfl, rfl⟩
  · rw [if_neg h1, if_neg (fun hc => h1 ⟨hc.1, hc.2.1⟩)]
    exact ⟨rfl, rfl, rfl⟩

open AIItineraryGenerator in
theorem checkLater_fields (parseFloat : JSVal → JSNum) (coerceLt : JSVal → Bool)
    (formData : AIItineraryGenerator.FormData) (e : AIItineraryGenerator.FormErrors) :
    (checkGroupSize coerceLt formData (checkTravelStyle formData
      (checkBudget parseFloat formData e))).destination = e.destination ∧
    (checkGroupSize coerceLt formData (checkTravelStyle formData
      (checkBudget parseFloat formData e))).start_date = e.start_date ∧
    (checkGroupSize coerceLt formData (checkTravelStyle formData
      (checkBudget parseFloat formData e))).end_date = e.end_date := by
  unfold checkGroupSize checkTravelStyle checkBudget
  split <;> split <;> split <;> exact ⟨rfl, rfl, rfl⟩

open AIItineraryGenerator in
/-- C21: for every form state in which the destination is blank, a date is
missing, or both dates are given and the end date is not after the start date,
`validateForm` returns `false` and records the message of each offending field,
and `handleSubmit` does not call `generateAIItinerary`. -/
theorem validateForm_rejects (trim : String → String) (dateValue : String → Option Int)
    (parseFloat : JSVal → JSNum) (coerceLt : JSVal → Bool)
    (formData : AIItineraryGenerator.FormData)
    (h : trim formData.destination = "" ∨ formData.start_date = "" ∨ formData.end_date = "" ∨
      (formData.start_date ≠ "" ∧ formData.end_date ≠ "" ∧
        ∃ s e, dateValue formData.start_date = some s ∧ dateValue formData.end_date = some e ∧
          e ≤ s)) :
    (validateForm trim dateValue parseFloat coerceLt formData).2 = false ∧
    (handleSubmit trim dateValue parseFloat coerceLt formData).2 = none ∧
    (trim formData.destination = "" →
      (validateForm trim dateValue parseFloat coerceLt formData).1.destination
        = some "Destination is required") ∧
    (formData.start_date = "" →
      (validateForm trim dateValue parseFloat coerceLt formData).1.start_date
        = some "Start date is required") ∧
    (formData.end_date = "" →
      (validateForm trim dateValue parseFloat coerceLt formData).1.end_date
        = some "End date is required") ∧
    ((formData.start_date ≠ "" ∧ formData.end_date ≠ "" ∧
        ∃ s e, dateValue formData.start_date = some s ∧ dateValue formData.end_date = some e ∧
          e ≤ s) →
      (validateForm trim dateValue parseFloat coerceLt formData).1.end_date
        = some "End date must be after start date") := by
  have hle : ∀ s e : Int, dateValue formData.start_date = some s →
      dateValue formData.end_date = some e → e ≤ s →
      dateLe (dateValue formData.end_date) (dateValue formData.start_date) = true := by
    intro s e hs he hes
    rw [hs, he]; simp [dateLe, hes]
  have hdest : (validateForm trim dateValue parseFloat coerceLt formData).1.destination
      = if trim formData.destination = "" then some "Destination is required" else none := by
    simp only [validateForm, (checkLater_fields parseFloat coerceLt formData _).1,
      (checkDateOrder_fields dateValue formData _).1, (checkEndDate_fields formData _).1,
      (checkStartDate_fields formData _).1, (checkDestination_fields trim formData _).1]
  have hstart : (validateForm trim dateValue parseFloat coerceLt formData).1.start_date
      = if formData.start_date = "" then some "Start date is required" else none := by
    simp only [validateForm, (checkLater_fields parseFloat coerceLt formData _).2.1,
      (checkDateOrder_fields dateValue formData _).2.1, (checkEndDate_fields formData _).2.1,
      (checkStartDate_fields formData _).2.1, (checkDestination_fields trim formData _).2.1]
  have hend : (validateForm trim dateValue parseFloat coerceLt formData).1.end_date
      = if formData.start_date ≠ "" ∧ formData.end_date ≠ "" ∧
          dateLe (dateValue formData.end_date) (dateValue formData.start_date) = true
        then some "End date must be after start date"
        else if formData.end_date = "" then some "End date is required" else none := by
    simp only [validateForm, (checkLater_fields parseFloat coerceLt formData _).2.2,
      (checkDateOrder_fields dateValue formData _).2.2, (checkEndDate_fields formData _).2.2,
      (checkStartDate_fields formData _).2.2, (checkDestination_fields trim formData _).2.2]
  have hcount : ∀ e : FormErrors,
      (e.destination.isSome ∨ e.start_date.isSome ∨ e.end_date.isSome) →
      (e.keyCount == 0) = false := by
    intro e he
    rcases e with ⟨a, b, c, d, f, g⟩
    cases a <;> cases b <;> cases c <;> cases d <;> cases f <;> cases g <;>
      simp_all [FormErrors.keyCount]
  have hfalse : (validateForm trim dateValue parseFloat coerceLt formData).2 = false := by
    have h2 : (validateForm trim dateValue parseFloat coerceLt formData).2
        = ((validateForm trim dateValue parseFloat coerceLt formData).1.keyCount == 0) := rfl
    rw [h2]
    apply hcount
    rcases h with h | h | h | ⟨h1, h2, s, e, hs, he, hes⟩
    · left; rw [hdest, if_pos h]; rfl
    · right; left; rw [hstart, if_pos h]; rfl
    · right; right
      rw [hend]
      have : ¬ (formData.start_date ≠ "" ∧ formData.end_date ≠ "" ∧
          dateLe (dateValue formData.end_date) (dateValue formData.start_date) = true) :=
        fun hc => hc.2.1 h
      rw [if_neg this, if_pos h]; rfl
    · right; right
      rw [hend, if_pos ⟨h1, h2, hle s e hs he hes⟩]; rfl
  refine ⟨hfalse, ?_, ?_, ?_, ?_, ?_⟩
  · unfold handleSubmit
    split
    · rfl
    · next heq =>
      have := congrArg Prod.snd heq
      rw [hfalse] at this
      simp at this
  · intro h1; rw [hdest, if_pos h1]
  · intro h1; rw [hstart, if_pos h1]
  · intro h1
    rw [hend]
    have : ¬ (formData.start_date ≠ "" ∧ formData.end_date ≠ "" ∧
        dateLe (dateValue formData.end_date) (dateValue formData.start_date) = true) :=
      fun hc => hc.2.1 h1
    rw [if_neg this, if_pos h1]
  · rintro ⟨h1, h2, s, e, hs, he, hes⟩
    rw [hend, if_pos ⟨h1, h2, hle s e hs he hes⟩]

/-- Witness for C21: a form with the end date before the start date. -/
theorem validateForm_rejects_witness :
    (String.trim lateStartGeneratorForm.destination = "" ∨
      lateStartGeneratorForm.start_date = "" ∨ lateStartGeneratorForm.end_date = "" ∨
      (lateStartGeneratorForm.start_date ≠ "" ∧ lateStartGeneratorForm.end_date ≠ "" ∧
        ∃ s e, sampleDateValue lateStartGeneratorForm.start_date = some s ∧
          sampleDateValue lateStartGeneratorForm.end_date = some e ∧ e ≤ s)) ∧
    (AIItineraryGenerator.validateForm String.trim sampleDateValue (fun _ => .fin 1500)
      (fun _ => false) lateStartGeneratorForm).2 = false ∧
    (AIItineraryGenerator.handleSubmit String.trim sampleDateValue (fun _ => .fin 1500)
      (fun _ => false) lateStartGeneratorForm).2 = none ∧
    (AIItineraryGenerator.validateForm String.trim sampleDateValue (fun _ => .fin 1500)
      (fun _ => false) lateStartGeneratorForm).1.end_date
        = some "End date must be after start date" := by
  have h : String.trim lateStartGeneratorForm.destination = "" ∨
      lateStartGeneratorForm.start_date = "" ∨ lateStartGeneratorForm.end_date = "" ∨
      (lateStartGeneratorForm.start_date ≠ "" ∧ lateStartGeneratorForm.end_date ≠ "" ∧
        ∃ s e, sampleDateValue lateStartGeneratorForm.start_date = some s ∧
          sampleDateValue lateStartGeneratorForm.end_date = some e ∧ e ≤ s) :=
    Or.inr (Or.inr (Or.inr ⟨by decide, by decide, 20249, 20240, rfl, rfl, by decide⟩))
  have t := validateForm_rejects String.trim sampleDateValue (fun _ => .fin 1500)
    (fun _ => false) lateStartGeneratorForm h
  exact ⟨h, t.1, t.2.1, t.2.2.2.2.2 ⟨by decide, by decide, 20249, 20240, rfl, rfl, by decide⟩⟩

/-- C22, the code at the failing input: for an authenticated user and a form
whose end date `2025-06-01` lies before its start date `2025-06-10`,
`handleSubmit` of `TripPlanForm.jsx` calls `saveTrip` with these two dates,
reports no error and navigates to the map. -/
theorem TripPlanForm_handleSubmit_saves_reversed_dates :
    TripPlanForm.handleSubmit (fun _ => .fin 2) (fun _ => .fin 1000) "2025-05-01T00:00:00.000Z"
        (fun _ => .ok (JSVal.obj [("id", .num 7)])) true lateStartTripForm
      = { error := ""
          saveTripCall := some
            { destination := "Rome", start_date := "2025-06-10", end_date := "2025-06-01",
              travelers := .fin 2, interests := ["Culture"], budget_per_person := .fin 1000,
              generated_at := "2025-05-01T00:00:00.000Z" }
          navigated := true } :=
  rfl

end Forms

section SavedTripsCost

open JSVal TripContext

theorem takeWhile_dropWhile_digits (digits rest : List Char)
    (hd : ∀ c ∈ digits, c.isDigit = true)
    (hr : rest = [] ∨ ∃ c r, rest = c :: r ∧ c.isDigit = false) :
    (digits ++ rest).takeWhile Char.isDigit = digits ∧
    (digits ++ rest).dropWhile Char.isDigit = rest := by
  induction digits with
  | nil =>
    rcases hr with rfl | ⟨c, r, rfl, hc⟩
    · exact ⟨rfl, rfl⟩
    · simp [List.takeWhile, List.dropWhile, hc]
  | cons d ds ih =>
    have hdd := hd d (by simp)
    obtain ⟨h1, h2⟩ := ih (fun c hc => hd c (List.mem_cons_of_mem _ hc))
    simp [List.takeWhile, List.dropWhile, hdd, h1, h2]

theorem matchNumber_skip (pre rest : List Char) (hp : ∀ c ∈ pre, c.isDigit = false) :
    matchNumber (pre ++ rest) = matchNumber rest := by
  induction pre with
  | nil => rfl
  | cons c cs ih =>
    have hc := hp c (by simp)
    simp only [List.cons_append, matchNumber, hc, Bool.false_eq_true, if_false]
    exact ih (fun x hx => hp x (List.mem_cons_of_mem _ hx))

theorem matchNumber_none (text : List Char) (hp : ∀ c ∈ text, c.isDigit = false) :
    matchNumber text = none := by
  have := matchNumber_skip text [] hp
  simpa [matchNumber] using this

theorem matchNumber_integer (intDigits suf : List Char) (hne : intDigits ≠ [])
    (hd : ∀ c ∈ intDigits, c.isDigit = true)
    (hs : suf = [] ∨ ∃ c r, suf = c :: r ∧ c.isDigit = false ∧ c ≠ '.') :
    matchNumber (intDigits ++ suf) = some intDigits := by
  have hs' : suf = [] ∨ ∃ c r, suf = c :: r ∧ c.isDigit = false := by
    rcases hs with h | ⟨c, r, h1, h2, -⟩
    · exact Or.inl h
    · exact Or.inr ⟨c, r, h1, h2⟩
  obtain ⟨h1, h2⟩ := takeWhile_dropWhile_digits intDigits suf hd hs'
  cases intDigits with
  | nil => exact absurd rfl hne
  | cons d ds =>
    have hdd := hd d (by simp)
    rw [List.cons_append] at h1 h2 ⊢
    simp only [matchNumber, hdd, if_true, h1, h2]
    rcases hs with rfl | ⟨c, r, rfl, -, hc⟩
    · rfl
    · split
      · next heq => simp at heq; exact absurd heq.1 hc
      · rfl

theorem matchNumber_decimal (intDigits fracDigits suf : List Char) (hne : intDigits ≠ [])
    (hd : ∀ c ∈ intDigits, c.isDigit = true) (hf : ∀ c ∈ fracDigits, c.isDigit = true)
    (hs : suf = [] ∨ ∃ c r, suf = c :: r ∧ c.isDigit = false) :
    matchNumber (intDigits ++ '.' :: (fracDigits ++ suf))
      = some (intDigits ++ '.' :: fracDigits) := by
  obtain ⟨h1, h2⟩ := takeWhile_dropWhile_digits intDigits ('.' :: (fracDigits ++ suf)) hd
    (Or.inr ⟨'.', _, rfl, by decide⟩)
  obtain ⟨h3, -⟩ := takeWhile_dropWhile_digits fracDigits suf hf hs
  cases intDigits with
  | nil => exact absurd rfl hne
  | cons d ds =>
    have hdd := hd d (by simp)
    rw [List.cons_append] at h1 h2 ⊢
    simp only [matchNumber, hdd, if_true, h1, h2, h3]

theorem parseFloatMatched_integer (intDigits : List Char)
    (hd : ∀ c ∈ intDigits, c.isDigit = true) :
    parseFloatMatched intDigits = (digitsValue intDigits : ℚ) := by
  obtain ⟨h1, h2⟩ := takeWhile_dropWhile_digits intDigits [] hd (Or.inl rfl)
  rw [List.append_nil] at h1 h2
  simp [parseFloatMatched, h1, h2, digitsValue]

theorem parseFloatMatched_decimal (intDigits fracDigits : List Char)
    (hd : ∀ c ∈ intDigits, c.isDigit = true) (hf : ∀ c ∈ fracDigits, c.isDigit = true) :
    parseFloatMatched (intDigits ++ '.' :: fracDigits)
      = (digitsValue intDigits : ℚ) + (digitsValue fracDigits : ℚ) / 10 ^ fracDigits.length := by
  obtain ⟨h1, h2⟩ := takeWhile_dropWhile_digits intDigits ('.' :: fracDigits) hd
    (Or.inr ⟨'.', _, rfl, by decide⟩)
  obtain ⟨h3, -⟩ := takeWhile_dropWhile_digits fracDigits [] hf (Or.inl rfl)
  rw [List.append_nil] at h3
  simp only [parseFloatMatched, h1, h2, List.drop_succ_cons, List.drop_zero, h3]

theorem parseCost_string (text : List Char) (hne : text ≠ []) :
    parseCost (str (String.mk text))
      = match matchNumber text with
        | some numbers => parseFloatMatched numbers
        | none => 0 := by
  have ht : (str (String.mk text)).truthy = true := by
    simp only [truthy, decide_eq_true_eq]
    intro hc
    have := congrArg String.data hc
    exact hne this
  simp only [parseCost, JSVal.or, ht, if_true]
  rfl

theorem parseCost_cases :
    (∀ pre intDigits suf : List Char, (∀ c ∈ pre, c.isDigit = false) → intDigits ≠ [] →
      (∀ c ∈ intDigits, c.isDigit = true) →
      (suf = [] ∨ ∃ c r, suf = c :: r ∧ c.isDigit = false ∧ c ≠ '.') →
      parseCost (str (String.mk (pre ++ (intDigits ++ suf)))) = (digitsValue intDigits : ℚ)) ∧
    (∀ pre intDigits fracDigits suf : List Char, (∀ c ∈ pre, c.isDigit = false) →
      intDigits ≠ [] → (∀ c ∈ intDigits, c.isDigit = true) →
      (∀ c ∈ fracDigits, c.isDigit = true) →
      (suf = [] ∨ ∃ c r, suf = c :: r ∧ c.isDigit = false) →
      parseCost (str (String.mk (pre ++ (intDigits ++ '.' :: (fracDigits ++ suf)))))
        = (digitsValue intDigits : ℚ) + (digitsValue fracDigits : ℚ) / 10 ^ fracDigits.length) ∧
    (∀ text : String, (∀ c ∈ text.toList, c.isDigit = false) → parseCost (str text) = 0) ∧
    (∀ n : ℚ, parseCost (num n) = n) ∧
    parseCost undefined = 0 ∧
    parseCost (str "$50") = 50 ∧ parseCost (str "50 USD") = 50 ∧
    parseCost (str "$12.50") = 12.5 := by
  have hint : ∀ pre intDigits suf : List Char, (∀ c ∈ pre, c.isDigit = false) →
      intDigits ≠ [] → (∀ c ∈ intDigits, c.isDigit = true) →
      (suf = [] ∨ ∃ c r, suf = c :: r ∧ c.isDigit = false ∧ c ≠ '.') →
      parseCost (str (String.mk (pre ++ (intDigits ++ suf)))) = (digitsValue intDigits : ℚ) := by
    intro pre intDigits suf hp hne hd hs
    rw [parseCost_string _ (by
      intro hc
      have := congrArg List.length hc
      simp only [List.length_append, List.length_nil] at this
      have : intDigits.length = 0 := by omega
      exact hne (List.length_eq_zero.mp this)),
      matchNumber_skip pre _ hp, matchNumber_integer intDigits suf hne hd hs]
    exact parseFloatMatched_integer intDigits hd
  have hdec : ∀ pre intDigits fracDigits suf : List Char, (∀ c ∈ pre, c.isDigit = false) →
      intDigits ≠ [] → (∀ c ∈ intDigits, c.isDigit = true) →
      (∀ c ∈ fracDigits, c.isDigit = true) →
      (suf = [] ∨ ∃ c r, suf = c :: r ∧ c.isDigit = false) →
      parseCost (str (String.mk (pre ++ (intDigits ++ '.' :: (fracDigits ++ suf)))))
        = (digitsValue intDigits : ℚ) + (digitsValue fracDigits : ℚ) / 10 ^ fracDigits.length
      := by
    intro pre intDigits fracDigits suf hp hne hd hf hs
    rw [parseCost_string _ (by
      intro hc
      have := congrArg List.length hc
      simp only [List.length_append, List.length_nil] at this
      have : intDigits.length = 0 := by omega
      exact hne (List.length_eq_zero.mp this)),
      matchNumber_skip pre _ hp, matchNumber_decimal intDigits fracDigits suf hne hd hf hs]
    exact parseFloatMatched_decimal intDigits fracDigits hd hf
  refine ⟨hint, hdec, ?_, ?_, rfl, ?_, ?_, ?_⟩
  · intro text hp
    by_cases ht : text = ""
    · subst ht; rfl
    · have hne : text.toList ≠ [] := by
        intro hc
        apply ht
        exact String.ext hc
      have := parseCost_string text.toList hne
      rw [matchNumber_none _ hp] at this
      exact this
  · intro n
    by_cases hn : n = 0
    · subst hn; rfl
    · simp [parseCost, JSVal.or, truthy, hn]
  · have h := hint ['$'] ['5', '0'] [] (by decide) (by decide) (by decide) (Or.inl rfl)
    have e : String.mk (['$'] ++ (['5', '0'] ++ [])) = "$50" := rfl
    have hv : digitsValue ['5', '0'] = 50 := by decide
    rw [e] at h
    rw [h, hv]; norm_num
  · have h := hint [] ['5', '0'] [' ', 'U', 'S', 'D'] (by decide) (by decide) (by decide)
      (Or.inr ⟨' ', ['U', 'S', 'D'], rfl, by decide, by decide⟩)
    have e : String.mk ([] ++ (['5', '0'] ++ [' ', 'U', 'S', 'D'])) = "50 USD" := rfl
    have hv : digitsValue ['5', '0'] = 50 := by decide
    rw [e] at h
    rw [h, hv]; norm_num
  · have h := hdec ['$'] ['1', '2'] ['5', '0'] [] (by decide) (by decide) (by decide)
      (by decide) (Or.inl rfl)
    have e : String.mk (['$'] ++ (['1', '2'] ++ '.' :: (['5', '0'] ++ []))) = "$12.50" := rfl
    have hv : digitsValue ['5', '0'] = 50 := by decide
    have hw : digitsValue ['1', '2'] = 12 := by decide
    rw [e] at h
    rw [h, hv, hw]; norm_num

/-- Counterexample to C24: the cost string `'$1,200'`, the number 1200 with a
currency prefix as `formatCurrency` writes it, parses to `1`. -/
theorem parseCost_grouped_number : parseCost (str "$1,200") = 1 := by
  have h := parseCost_cases.1 ['$'] ['1'] [',', '2', '0', '0'] (by decide) (by decide)
    (by decide) (Or.inr ⟨',', ['2', '0', '0'], rfl, by decide, by decide⟩)
  have e : String.mk (['$'] ++ (['1'] ++ [',', '2', '0', '0'])) = "$1,200" := rfl
  have hv : digitsValue ['1'] = 1 := by decide
  rw [e] at h
  rw [h, hv]; norm_num

theorem activitiesOfDay_costs (destination : JSVal) :
    ∀ list : List JSVal, (∀ activity ∈ list, requireObject activity = .ok ()) →
      ∃ activities, activitiesOfDay destination list = .ok activities ∧
        activities.map (fun a => a.estimatedCost)
          = list.map (fun a => parseCost (a.optChain "estimated_cost")) := by
  intro list
  induction list with
  | nil => intro _; exact ⟨[], rfl, rfl⟩
  | cons activity rest ih =>
    intro hwf
    obtain ⟨later, hl, hm⟩ := ih (fun a ha => hwf a (List.mem_cons_of_mem _ ha))
    have ha := hwf activity (by simp)
    simp only [activitiesOfDay, getProp_of_requireObject _ _ ha, hl]
    exact ⟨_, rfl, by simp [hm]⟩

theorem activitiesOfSchedule_costs (destination : JSVal) :
    ∀ days : List JSVal, wellFormedTripSchedule days →
      ∃ activities, activitiesOfSchedule destination days = .ok activities ∧
        activities.map (fun a => a.estimatedCost)
          = (days.flatMap dayActivities).map
              (fun a => parseCost (a.optChain "estimated_cost")) := by
  intro days
  induction days with
  | nil => intro _; exact ⟨[], rfl, rfl⟩
  | cons day rest ih =>
    intro hwf
    have hrest : wellFormedTripSchedule rest :=
      ⟨fun d hd => hwf.1 d (List.mem_cons_of_mem _ hd),
        fun d hd => hwf.2 d (List.mem_cons_of_mem _ hd)⟩
    obtain ⟨later, hl, hm⟩ := ih hrest
    have hday := (hwf.1 day (by simp)).1
    have hacts := (hwf.1 day (by simp)).2
    by_cases ht : (day.optChain "activities").truthy = true
    · obtain ⟨list, hlist⟩ := hwf.2 day (by simp) ht
      have hda : dayActivities day = list := by simp [dayActivities, hlist]
      rw [hda] at hacts
      obtain ⟨first, hf, hfm⟩ := activitiesOfDay_costs destination list hacts
      refine ⟨first ++ later, ?_, ?_⟩
      · have ht2 : (arr list).truthy = true := rfl
        simp only [activitiesOfSchedule, getProp_of_requireObject _ _ hday, hlist, ht2, if_true,
          hf, hl]
      · simp [hfm, hm, hda]
    · have hda : dayActivities day = [] := by
        cases hv : day.optChain "activities" <;> simp_all [dayActivities, truthy]
      refine ⟨later, ?_, ?_⟩
      · simp only [activitiesOfSchedule, getProp_of_requireObject _ _ hday, ht,
          Bool.false_eq_true, if_false, hl]
      · simp [hm, hda]

theorem foldl_cost_sum (activities : List TripContext.Activity) :
    ∀ init : ℚ, activities.foldl
        (fun sum activity =>
          sum + (if activity.estimatedCost ≠ 0 then activity.estimatedCost else 0)) init
      = init + (activities.map (fun a => a.estimatedCost)).sum := by
  induction activities with
  | nil => intro init; simp
  | cons a rest ih =>
    intro init
    simp only [List.foldl_cons, ih, List.map_cons, List.sum_cons]
    by_cases h : a.estimatedCost = 0
    · simp [h]
    · simp [h, add_assoc]

/-- C25: for an AI trip whose schedule is an array of day records with activity
lists of activity records, `total_estimated_cost` is the first truthy value among
`itinerary_content.total_estimated_cost`,
`budget_breakdown.total_estimates.mid_range_total` and
`budget_breakdown.total_estimates.budget_total`, and otherwise the sum of the
parsed costs of all activities of all days, which is `0` for the empty
schedule. -/
theorem transformAiTrip_total (fields : List (String × JSVal)) (days : List JSVal)
    (hsched : ((ownProp fields "itinerary_content").optChain "daily_schedule").or (arr [])
      = arr days)
    (hwf : wellFormedTripSchedule days) :
    ∃ view, transformAiTrip (obj fields) = .ok view ∧
      view.total_estimated_cost
        = (if ((obj fields).optPath ["itinerary_content", "total_estimated_cost"]).truthy then
            (obj fields).optPath ["itinerary_content", "total_estimated_cost"]
          else if ((obj fields).optPath ["budget_breakdown", "total_estimates",
              "mid_range_total"]).truthy then
            (obj fields).optPath ["budget_breakdown", "total_estimates", "mid_range_total"]
          else if ((obj fields).optPath ["budget_breakdown", "total_estimates",
              "budget_total"]).truthy then
            (obj fields).optPath ["budget_breakdown", "total_estimates", "budget_total"]
          else
            num ((days.flatMap dayActivities).map
              (fun a => parseCost (a.optChain "estimated_cost"))).sum) ∧
      (days = [] →
        ((days.flatMap dayActivities).map
          (fun a => parseCost (a.optChain "estimated_cost"))).sum = 0) := by
  obtain ⟨activities, hact, hmap⟩ :=
    activitiesOfSchedule_costs ((obj fields).optChain "destination") days hwf
  simp only [transformAiTrip, getProp, hsched, hact]
  refine ⟨_, rfl, ?_, ?_⟩
  · simp only [optPath, optChain, foldl_cost_sum, hmap, zero_add]
  · intro h; subst h; rfl

theorem sampleAiTripDays_wellFormed : wellFormedTripSchedule sampleAiTripDays := by
  constructor
  · intro day hday
    simp only [sampleAiTripDays, List.mem_cons, List.mem_singleton, List.not_mem_nil,
      or_false] at hday
    rcases hday with rfl | rfl
    · refine ⟨rfl, ?_⟩
      intro activity hact
      have hda : dayActivities (obj [("activities", arr [
          obj [("activity", str "Colosseum"), ("estimated_cost", str "$50")],
          obj [("activity", str "Gelato"), ("estimated_cost", num 12.5)]])])
          = [obj [("activity", str "Colosseum"), ("estimated_cost", str "$50")],
            obj [("activity", str "Gelato"), ("estimated_cost", num 12.5)]] := rfl
      rw [hda] at hact
      simp only [List.mem_cons, List.mem_singleton, List.not_mem_nil, or_false] at hact
      rcases hact with rfl | rfl <;> rfl
    · refine ⟨rfl, ?_⟩
      intro activity hact
      have hda : dayActivities (obj [("activities", arr [
          obj [("activity", str "Walk"), ("estimated_cost", str "Free")]])])
          = [obj [("activity", str "Walk"), ("estimated_cost", str "Free")]] := rfl
      rw [hda] at hact
      simp only [List.mem_singleton] at hact
      subst hact; rfl
  · intro day hday _
    simp only [sampleAiTripDays, List.mem_cons, List.mem_singleton, List.not_mem_nil,
      or_false] at hday
    rcases hday with rfl | rfl
    · exact ⟨_, rfl⟩
    · exact ⟨_, rfl⟩

/-- Witness for C25: a trip without totals, with costs `'$50'`, `12.5` and
`'Free'`, gets the total `62.5`. -/
theorem transformAiTrip_total_witness :
    (((ownProp sampleAiTrip "itinerary_content").optChain "daily_schedule").or (arr [])
      = arr sampleAiTripDays) ∧
    wellFormedTripSchedule sampleAiTripDays ∧
    ∃ view, transformAiTrip (obj sampleAiTrip) = .ok view ∧
      view.total_estimated_cost = num 62.5 := by
  obtain ⟨view, hv, ht, -⟩ :=
    transformAiTrip_total sampleAiTrip sampleAiTripDays rfl sampleAiTripDays_wellFormed
  refine ⟨rfl, sampleAiTripDays_wellFormed, view, hv, ?_⟩
  rw [ht]
  have h1 : ((obj sampleAiTrip).optPath ["itinerary_content", "total_estimated_cost"]).truthy
      = false := rfl
  have h2 : ((obj sampleAiTrip).optPath ["budget_breakdown", "total_estimates",
      "mid_range_total"]).truthy = false := rfl
  have h3 : ((obj sampleAiTrip).optPath ["budget_breakdown", "total_estimates",
      "budget_total"]).truthy = false := rfl
  simp only [h1, h2, h3, Bool.false_eq_true, if_false]
  have hd : sampleAiTripDays.flatMap dayActivities
      = [obj [("activity", str "Colosseum"), ("estimated_cost", str "$50")],
          obj [("activity", str "Gelato"), ("estimated_cost", num 12.5)],
          obj [("activity", str "Walk"), ("estimated_cost", str "Free")]] := rfl
  rw [hd]
  have c1 : parseCost (JSVal.optChain
      (obj [("activity", str "Colosseum"), ("estimated_cost", str "$50")]) "estimated_cost")
      = 50 := parseCost_cases.2.2.2.2.2.1
  have c2 : parseCost (JSVal.optChain
      (obj [("activity", str "Gelato"), ("estimated_cost", num 12.5)]) "estimated_cost")
      = 12.5 := parseCost_cases.2.2.2.1 12.5
  have c3 : parseCost (JSVal.optChain
      (obj [("activity", str "Walk"), ("estimated_cost", str "Free")]) "estimated_cost")
      = 0 := rfl
  simp only [List.map_cons, List.map_nil, c1, c2, c3, List.sum_cons, List.sum_nil]
  norm_num

/-- C24, amended: a cost string made of a decimal number written with digits
and at most one dot (no grouping separator), with a prefix that holds no digit
and a suffix that does not continue the number, parses to that number, as
`'$50'`, `'50 USD'` and `'$12.50'` do; a string without a digit parses to `0`, a
numeric cost is kept unchanged, and a missing cost is `0`. -/
theorem parseCost_plain_number :
    (∀ pre intDigits suf : List Char, (∀ c ∈ pre, c.isDigit = false) → intDigits ≠ [] →
      (∀ c ∈ intDigits, c.isDigit = true) →
      (suf = [] ∨ ∃ c r, suf = c :: r ∧ c.isDigit = false ∧ c ≠ '.') →
      parseCost (str (String.mk (pre ++ (intDigits ++ suf)))) = (digitsValue intDigits : ℚ)) ∧
    (∀ pre intDigits fracDigits suf : List Char, (∀ c ∈ pre, c.isDigit = false) →
      intDigits ≠ [] → (∀ c ∈ intDigits, c.isDigit = true) →
      (∀ c ∈ fracDigits, c.isDigit = true) →
      (suf = [] ∨ ∃ c r, suf = c :: r ∧ c.isDigit = false) →
      parseCost (str (String.mk (pre ++ (intDigits ++ '.' :: (fracDigits ++ suf)))))
        = (digitsValue intDigits : ℚ) + (digitsValue fracDigits : ℚ) / 10 ^ fracDigits.length) ∧
    (∀ text : String, (∀ c ∈ text.toList, c.isDigit = false) → parseCost (str text) = 0) ∧
    (∀ n : ℚ, parseCost (num n) = n) ∧
    parseCost undefined = 0 ∧
    parseCost (str "$50") = 50 ∧ parseCost (str "50 USD") = 50 ∧
    parseCost (str "$12.50") = 12.5 :=
  parseCost_cases

theorem orderedInsert_congr {α : Type} (r r' : α → α → Prop) [DecidableRel r]
    [DecidableRel r'] (a : α) :
    ∀ l : List α, (∀ b ∈ l, r a b ↔ r' a b) →
      List.orderedInsert r a l = List.orderedInsert r' a l := by
  intro l
  induction l with
  | nil => intro _; rfl
  | cons b l ih =>
    intro h
    have hb := h b (by simp)
    have hl := ih (fun x hx => h x (List.mem_cons_of_mem _ hx))
    simp only [List.orderedInsert]
    by_cases hr : r a b
    · rw [if_pos hr, if_pos (hb.mp hr)]
    · rw [if_neg hr, if_neg (fun hc => hr (hb.mpr hc)), hl]

theorem insertionSort_congr {α : Type} (r r' : α → α → Prop) [DecidableRel r]
    [DecidableRel r'] :
    ∀ l : List α, (∀ a ∈ l, ∀ b ∈ l, r a b ↔ r' a b) →
      List.insertionSort r l = List.insertionSort r' l := by
  intro l
  induction l with
  | nil => intro _; rfl
  | cons a l ih =>
    intro h
    have hl := ih (fun x hx y hy =>
      h x (List.mem_cons_of_mem _ hx) y (List.mem_cons_of_mem _ hy))
    simp only [List.insertionSort, hl]
    apply orderedInsert_congr
    intro b hb
    have hb' : b ∈ l := (List.perm_insertionSort r' l).subset hb
    exact h a (by simp) b (List.mem_cons_of_mem _ hb')

/-- C26: the list stored as `savedTrips` is a permutation of the regular trips
followed by the AI trips; when every trip has a creation time (`created_at`,
else `createdAt`, is a date), the list is in order of non-increasing creation
time: no trip with a later time follows one with an earlier time. -/
theorem allTrips_sorted_perm (dateValue : JSVal → Option Int)
    (regularTrips aiTrips : List JSVal)
    (hdates : ∀ trip ∈ regularTrips ++ aiTrips, (dateValue (creationKey trip)).isSome = true) :
    List.Perm (allTrips dateValue regularTrips aiTrips) (regularTrips ++ aiTrips) ∧
    List.Pairwise
      (fun a b => ∀ timeA timeB, dateValue (creationKey a) = some timeA →
        dateValue (creationKey b) = some timeB → timeB ≤ timeA)
      (allTrips dateValue regularTrips aiTrips) := by
  refine ⟨List.perm_insertionSort _ _, ?_⟩
  let r' : JSVal → JSVal → Prop := fun a b =>
    (dateValue (creationKey b)).getD 0 ≤ (dateValue (creationKey a)).getD 0
  have hdec : DecidableRel r' := fun a b =>
    inferInstanceAs (Decidable
      ((dateValue (creationKey b)).getD 0 ≤ (dateValue (creationKey a)).getD 0))
  have htotal : IsTotal JSVal r' := ⟨fun a b => le_total _ _⟩
  have htrans : IsTrans JSVal r' := ⟨fun a b c hab hbc => le_trans hbc hab⟩
  have hcongr : allTrips dateValue regularTrips aiTrips
      = (regularTrips ++ aiTrips).insertionSort r' := by
    unfold allTrips
    apply insertionSort_congr
    intro a ha b hb
    obtain ⟨ta, hta⟩ := Option.isSome_iff_exists.mp (hdates a ha)
    obtain ⟨tb, htb⟩ := Option.isSome_iff_exists.mp (hdates b hb)
    simp only [sortBefore, compareTrips, hta, htb, decide_eq_true_eq, Option.getD_some, r']
    omega
  rw [hcongr]
  have hsorted := List.sorted_insertionSort r' (regularTrips ++ aiTrips)
  refine List.Pairwise.imp ?_ hsorted
  intro a b hab ta tb hta htb
  simp only [r', hta, htb, Option.getD_some] at hab
  exact hab

theorem allTrips_sorted_perm_witness :
    (∀ trip ∈ [sampleRegularTrip] ++ [sampleNewerAiTrip],
      (sampleCreatedValue (creationKey trip)).isSome = true) ∧
    allTrips sampleCreatedValue [sampleRegularTrip] [sampleNewerAiTrip]
      = [sampleNewerAiTrip, sampleRegularTrip] ∧
    List.Perm (allTrips sampleCreatedValue [sampleRegularTrip] [sampleNewerAiTrip])
      ([sampleRegularTrip] ++ [sampleNewerAiTrip]) ∧
    List.Pairwise
      (fun a b => ∀ timeA timeB, sampleCreatedValue (creationKey a) = some timeA →
        sampleCreatedValue (creationKey b) = some timeB → timeB ≤ timeA)
      (allTrips sampleCreatedValue [sampleRegularTrip] [sampleNewerAiTrip]) :=
  have hdates : ∀ trip ∈ [sampleRegularTrip] ++ [sampleNewerAiTrip],
      (sampleCreatedValue (creationKey trip)).isSome = true := by
    intro trip htrip
    simp only [List.singleton_append, List.mem_cons, List.mem_singleton, List.not_mem_nil,
      or_false] at htrip
    rcases htrip with h | h <;> subst h <;> rfl
  ⟨hdates, rfl, allTrips_sorted_perm sampleCreatedValue [sampleRegularTrip] [sampleNewerAiTrip]
    hdates⟩

end SavedTripsCost

section Attractions

theorem numbered_push (state : AttractionState) (hnum : state.Numbered) (a : Attraction)
    (calls : Nat) (hid : a.id = state.attractionId) :
    AttractionState.Numbered
      { mockAttractions := state.mockAttractions ++ [a],
        attractionId := state.attractionId + 1, randomCalls := calls } := by
  obtain ⟨hids, hnext⟩ := hnum
  refine ⟨?_, ?_⟩
  · simp only [List.map_append, List.map_cons, List.map_nil, List.length_append,
      List.length_singleton, List.range'_concat, hids, hid, hnext, one_mul]
    rw [Nat.add_comm 1]
  · simp only [List.length_append, List.length_singleton, hnext]

theorem lookup_mem {β : Type} (key : String) (value : β) :
    ∀ table : List (String × β), table.lookup key = some value → (key, value) ∈ table := by
  intro table
  induction table with
  | nil => intro h; simp [List.lookup] at h
  | cons entry rest ih =>
    intro h
    obtain ⟨k, v⟩ := entry
    simp only [List.lookup] at h
    split at h
    · rename_i heq
      have hk : key = k := by simpa using heq
      have hv : v = value := by simpa using h
      subst hk; subst hv
      exact List.mem_cons_self _ _
    · exact List.mem_cons_of_mem _ (ih h)

theorem attractionTypesAt_own_length (key : String) (options : List String)
    (h : attractionTypesAt key = .own options) : options.length = 4 := by
  unfold attractionTypesAt at h
  cases hl : attractionTypes.lookup key with
  | none =>
    rw [hl] at h
    simp only at h
    split at h <;> cases h
  | some found =>
    rw [hl] at h
    simp only [TableEntry.own.injEq] at h
    subst h
    have hmem := lookup_mem key found attractionTypes hl
    have hall : ∀ entry ∈ attractionTypes, entry.2.length = 4 := by decide
    exact hall _ hmem

theorem elementAt_floor (options : List String) (draw : ℚ) (hlen : options.length = 4)
    (h0 : 0 ≤ draw) (h1 : draw < 1) :
    ∃ attractionName, elementAt options (Int.floor (draw * (options.length : ℚ)))
      = some attractionName := by
  rw [hlen]
  have hnonneg : 0 ≤ Int.floor (draw * ((4 : ℕ) : ℚ)) := by
    apply Int.floor_nonneg.mpr
    push_cast
    linarith
  have hlt : Int.floor (draw * ((4 : ℕ) : ℚ)) < 4 := by
    apply Int.floor_lt.mpr
    push_cast
    linarith
  have hnat : (Int.floor (draw * ((4 : ℕ) : ℚ))).toNat < options.length := by
    rw [hlen]; omega
  refine ⟨options.get ⟨_, hnat⟩, ?_⟩
  simp only [elementAt, if_pos hnonneg]
  exact List.get?_eq_get hnat

theorem interestStep_numbered (toLowerCase : String → String) (toFixed1 : ℚ → String)
    (draws : Nat → ℚ) (lat lon : ℚ) (destination : String) (state : AttractionState)
    (interest : String) (index : Nat)
    (hdraws : ∀ k, 0 ≤ draws k ∧ draws k < 1)
    (hkey : attractionTypesAt
      (replaceFirst (replaceFirst (toLowerCase interest) " & " "_") " " "_") ≠ .inherited)
    (hnum : state.Numbered) (hlen : state.mockAttractions.length ≤ min index 3) :
    ∃ next, interestStep toLowerCase toFixed1 draws lat lon destination state interest index
        = .ok next ∧ next.Numbered ∧ next.mockAttractions.length ≤ min (index + 1) 3 := by
  simp only [interestStep]
  cases hentry : attractionTypesAt
      (replaceFirst (replaceFirst (toLowerCase interest) " & " "_") " " "_") with
  | missing =>
    refine ⟨state, rfl, hnum, ?_⟩
    omega
  | inherited => exact absurd hentry hkey
  | own options =>
    by_cases hidx : index < 3
    · obtain ⟨attractionName, hname⟩ := elementAt_floor options (draws state.randomCalls)
        (attractionTypesAt_own_length _ _ hentry) (hdraws _).1 (hdraws _).2
      simp only [if_pos hidx, hname]
      refine ⟨_, rfl, numbered_push state hnum _ _ rfl, ?_⟩
      simp only [List.length_append, List.length_singleton]
      omega
    · simp only [if_neg hidx]
      refine ⟨state, rfl, hnum, ?_⟩
      omega

theorem interestsLoop_numbered (toLowerCase : String → String) (toFixed1 : ℚ → String)
    (draws : Nat → ℚ) (lat lon : ℚ) (destination : String)
    (hdraws : ∀ k, 0 ≤ draws k ∧ draws k < 1) :
    ∀ (interests : List String) (index : Nat) (state : AttractionState),
      (∀ interest ∈ interests, attractionTypesAt
        (replaceFirst (replaceFirst (toLowerCase interest) " & " "_") " " "_") ≠ .inherited) →
      state.Numbered → state.mockAttractions.length ≤ min index 3 →
      ∃ final, interestsLoop toLowerCase toFixed1 draws lat lon destination interests index state
          = .ok final ∧ final.Numbered ∧ final.mockAttractions.length ≤ 3 := by
  intro interests
  induction interests with
  | nil =>
    intro index state _ hnum hlen
    exact ⟨state, rfl, hnum, by omega⟩
  | cons interest rest ih =>
    intro index state hkeys hnum hlen
    obtain ⟨next, hstep, hnext, hnextLen⟩ := interestStep_numbered toLowerCase toFixed1 draws
      lat lon destination state interest index hdraws (hkeys interest (by simp)) hnum hlen
    obtain ⟨final, hfinal, hfinalNum, hfinalLen⟩ := ih (index + 1) next
      (fun i hi => hkeys i (List.mem_cons_of_mem _ hi)) hnext hnextLen
    exact ⟨final, by simp only [interestsLoop, hstep, hfinal], hfinalNum, hfinalLen⟩

theorem generalLoop_numbered (draws : Nat → ℚ) (lat lon : ℚ) (needed : Nat) :
    ∀ (general : List GeneralAttraction) (i : Nat) (state : AttractionState),
      state.Numbered →
      (generalLoop draws lat lon needed general i state).Numbered ∧
      (generalLoop draws lat lon needed general i state).mockAttractions.length
        = state.mockAttractions.length + min (needed - i) general.length := by
  intro general
  induction general with
  | nil =>
    intro i state hnum
    exact ⟨hnum, by simp [generalLoop]⟩
  | cons attraction rest ih =>
    intro i state hnum
    by_cases hi : i < needed
    · simp only [generalLoop, if_pos hi]
      obtain ⟨h1, h2⟩ := ih (i + 1) _ (numbered_push state hnum
        { id := state.attractionId, name := attraction.name,
          lat := lat + (draws state.randomCalls - 0.5) * 0.025,
          lon := lon + (draws (state.randomCalls + 1) - 0.5) * 0.025,
          type := attraction.type, description := attraction.description,
          category := attraction.category, estimatedCost := attraction.estimatedCost,
          rating := attraction.rating } (state.randomCalls + 2) rfl)
      refine ⟨h1, ?_⟩
      rw [h2]
      dsimp only
      simp only [List.length_append, List.length_singleton, List.length_cons, List.length_nil]
      omega
    · simp only [generalLoop, if_neg hi]
      refine ⟨hnum, ?_⟩
      simp only [List.length_cons]
      omega

theorem interestStep_category (toLowerCase : String → String) (toFixed1 : ℚ → String)
    (draws : Nat → ℚ) (lat lon : ℚ) (destination : String) (state : AttractionState)
    (interest : String) (index : Nat) (all : List String) (hin : interest ∈ all)
    (hcat : ∀ a ∈ state.mockAttractions, a.category ∈ all) (next : AttractionState)
    (hstep : interestStep toLowerCase toFixed1 draws lat lon destination state interest index
      = .ok next) :
    ∀ a ∈ next.mockAttractions, a.category ∈ all := by
  simp only [interestStep] at hstep
  split at hstep
  · cases hstep; exact hcat
  · split at hstep
    · cases hstep
    · cases hstep; exact hcat
  · split at hstep
    · split at hstep
      · cases hstep
        intro a ha
        rcases List.mem_append.mp ha with h | h
        · exact hcat a h
        · simp only [List.mem_singleton] at h
          subst h
          exact hin
      · cases hstep
    · cases hstep; exact hcat

theorem interestsLoop_category (toLowerCase : String → String) (toFixed1 : ℚ → String)
    (draws : Nat → ℚ) (lat lon : ℚ) (destination : String) (all : List String) :
    ∀ (interests : List String) (index : Nat) (state final : AttractionState),
      (∀ interest ∈ interests, interest ∈ all) →
      (∀ a ∈ state.mockAttractions, a.category ∈ all) →
      interestsLoop toLowerCase toFixed1 draws lat lon destination interests index state
        = .ok final →
      ∀ a ∈ final.mockAttractions, a.category ∈ all := by
  intro interests
  induction interests with
  | nil =>
    intro index state final _ hcat hloop
    simp only [interestsLoop] at hloop
    cases hloop
    exact hcat
  | cons interest rest ih =>
    intro index state final hall hcat hloop
    simp only [interestsLoop] at hloop
    split at hloop
    · cases hloop
    · next next hstep =>
      exact ih (index + 1) next final (fun i hi => hall i (List.mem_cons_of_mem _ hi))
        (interestStep_category toLowerCase toFixed1 draws lat lon destination state interest
          index all (hall interest (by simp)) hcat next hstep) hloop

theorem generalLoop_append (draws : Nat → ℚ) (lat lon : ℚ) (needed : Nat) :
    ∀ (general : List GeneralAttraction) (i : Nat) (state : AttractionState),
      ∃ added, (generalLoop draws lat lon needed general i state).mockAttractions
          = state.mockAttractions ++ added ∧
        added.map (fun a => (a.name, a.type, a.description, a.category, a.estimatedCost,
            a.rating))
          = (general.take (needed - i)).map
              (fun g => (g.name, g.type, g.description, g.category, g.estimatedCost,
                g.rating)) := by
  intro general
  induction general with
  | nil =>
    intro i state
    exact ⟨[], by simp [generalLoop], by simp⟩
  | cons attraction rest ih =>
    intro i state
    by_cases hi : i < needed
    · simp only [generalLoop, if_pos hi]
      obtain ⟨added, h1, h2⟩ := ih (i + 1)
        { mockAttractions := state.mockAttractions ++
            [{ id := state.attractionId, name := attraction.name,
               lat := lat + (draws state.randomCalls - 0.5) * 0.025,
               lon := lon + (draws (state.randomCalls + 1) - 0.5) * 0.025,
               type := attraction.type, description := attraction.description,
               category := attraction.category, estimatedCost := attraction.estimatedCost,
               rating := attraction.rating }],
          attractionId := state.attractionId + 1,
          randomCalls := state.randomCalls + 2 }
      refine ⟨{ id := state.attractionId, name := attraction.name,
                lat := lat + (draws state.randomCalls - 0.5) * 0.025,
                lon := lon + (draws (state.randomCalls + 1) - 0.5) * 0.025,
                type := attraction.type, description := attraction.description,
                category := attraction.category, estimatedCost := attraction.estimatedCost,
                rating := attraction.rating } :: added, ?_, ?_⟩
      · rw [h1]
        simp only [List.append_assoc, List.singleton_append]
      · have hn : needed - i = (needed - (i + 1)) + 1 := by omega
        rw [hn, List.take_succ_cons, List.map_cons, List.map_cons, h2]
    · simp only [generalLoop, if_neg hi]
      have hn : needed - i = 0 := by omega
      exact ⟨[], by simp, by simp [hn]⟩

/-- C30, amended: for every coordinate pair, all draws in `[0, 1)` and every
list of interests none of whose keys names a member that the table object
inherits (as is the case for the ten interest labels of the forms),
`getNearbyAttractions` produces exactly four attractions with the ids
`1, 2, 3, 4` in list order: the first `k` of them, with `k` at most `3`, carry
an interest of the list as their category, and the others are the first `4 - k`
entries of the general list. -/
theorem getNearbyAttractions_four (toLowerCase : String → String) (toFixed1 : ℚ → String)
    (draws : Nat → ℚ) (interests : List String) (lat lon : ℚ) (destination : String)
    (hdraws : ∀ k, 0 ≤ draws k ∧ draws k < 1)
    (hkeys : ∀ interest ∈ interests, attractionTypesAt
      (replaceFirst (replaceFirst (toLowerCase interest) " & " "_") " " "_") ≠ .inherited) :
    ∃ attractions k,
      getNearbyAttractions toLowerCase toFixed1 draws interests lat lon destination
        = .ok attractions ∧
      attractions.length = 4 ∧ attractions.map (fun a => a.id) = [1, 2, 3, 4] ∧
      k ≤ 3 ∧ (∀ a ∈ attractions.take k, a.category ∈ interests) ∧
      (attractions.drop k).map
          (fun a => (a.name, a.type, a.description, a.category, a.estimatedCost, a.rating))
        = ((generalAttractions destination).take (4 - k)).map
            (fun g => (g.name, g.type, g.description, g.category, g.estimatedCost,
              g.rating)) := by
  obtain ⟨state, hloop, hnum, hlen⟩ := interestsLoop_numbered toLowerCase toFixed1 draws lat lon
    destination hdraws interests 0 { mockAttractions := [], attractionId := 1, randomCalls := 0 }
    hkeys ⟨rfl, rfl⟩ (by simp)
  have hcat := interestsLoop_category toLowerCase toFixed1 draws lat lon destination interests
    interests 0 { mockAttractions := [], attractionId := 1, randomCalls := 0 } state
    (fun i hi => hi) (by simp) hloop
  have hlt : state.mockAttractions.length < 4 := by omega
  obtain ⟨hgnum, hglen⟩ := generalLoop_numbered draws lat lon
    (4 - state.mockAttractions.length) (generalAttractions destination) 0 state hnum
  obtain ⟨added, hadd, hgeneral⟩ := generalLoop_append draws lat lon
    (4 - state.mockAttractions.length) (generalAttractions destination) 0 state
  have hfour : (generalLoop draws lat lon (4 - state.mockAttractions.length)
      (generalAttractions destination) 0 state).mockAttractions.length = 4 := by
    rw [hglen]
    simp only [generalAttractions, List.length_cons, List.length_nil]
    omega
  refine ⟨_, state.mockAttractions.length,
    by simp only [getNearbyAttractions, hloop, if_pos hlt], hfour, ?_, hlen, ?_, ?_⟩
  · rw [hgnum.1, hfour]
    rfl
  · rw [hadd, List.take_left]
    exact hcat
  · rw [hadd, List.drop_left]
    simpa using hgeneral

/-- C27: for the interest `'Food & Drink'`, whose lower-cased name
`'food & drink'` is a category of the attraction-type table, the key computed by
`getNearbyAttractions` is `'food_drink'`, which the table does not have: no
attraction is added for the interest, and the four attractions produced are the
general ones. -/
theorem getNearbyAttractions_food_and_drink (toFixed1 : ℚ → String) (draws : Nat → ℚ)
    (lat lon : ℚ) (destination : String) :
    attractionTypes.lookup (asciiToLower "Food & Drink")
      = some ["Local Restaurant", "Food Market", "Wine Bar", "Street Food Area"] ∧
    replaceFirst (replaceFirst (asciiToLower "Food & Drink") " & " "_") " " "_" = "food_drink" ∧
    attractionTypesAt "food_drink" = .missing ∧
    ∃ attractions,
      getNearbyAttractions asciiToLower toFixed1 draws ["Food & Drink"] lat lon destination
        = .ok attractions ∧
      attractions.map (fun a => (a.name, a.category))
        = [("City Center", "landmark"), ("Popular Viewpoint", "sightseeing"),
           ("Local Market", "shopping"), ("Cultural Quarter", "culture")] ∧
      ∀ a ∈ attractions, a.category ≠ "Food & Drink" := by
  refine ⟨rfl, rfl, rfl, _, rfl, rfl, ?_⟩
  intro a ha hcat
  have hmem := List.mem_map_of_mem (fun a : Attraction => a.category) ha
  simp only [hcat] at hmem
  have hcats : ∀ attractions : List Attraction,
      attractions.map (fun a => (a.name, a.category))
        = [("City Center", "landmark"), ("Popular Viewpoint", "sightseeing"),
           ("Local Market", "shopping"), ("Cultural Quarter", "culture")] →
      "Food & Drink" ∉ attractions.map (fun a => a.category) := by
    intro attractions h
    have h2 : attractions.map (fun a => a.category)
        = (attractions.map (fun a => (a.name, a.category))).map Prod.snd := by
      rw [List.map_map]; rfl
    rw [h2, h]
    decide
  exact hcats (generalLoop draws lat lon 4 (generalAttractions destination) 0
    { mockAttractions := [], attractionId := 1, randomCalls := 0 }).mockAttractions rfl hmem

/-- For the interest list `['constructor']` the lookup finds the member that the
table object inherits and `getNearbyAttractions` throws, whatever the
coordinates, the destination and the random draws. -/
theorem getNearbyAttractions_constructor_throws
    (toFixed1 : ℚ → String) (draws : Nat → ℚ) (lat lon : ℚ) (destination : String) :
    getNearbyAttractions asciiToLower toFixed1 draws ["constructor"] lat lon destination
      = .error "TypeError" :=
  rfl

/-- Counterexample to C30: for Paris (48.8566, 2.3522) and the interest list
`['constructor']` the lookup `attractionTypes['constructor']` finds the member
that the table object inherits, the attraction name is `undefined`, and
`getNearbyAttractions` throws before it stores any attraction list, so no list
of four attractions is produced. -/
theorem getNearbyAttractions_inherited_key_throws :
    attractionTypesAt
        (replaceFirst (replaceFirst (asciiToLower "constructor") " & " "_") " " "_")
      = .inherited ∧
    getNearbyAttractions asciiToLower (fun _ => "4.0") (fun _ => 1 / 2) ["constructor"]
        48.8566 2.3522 "Paris" = .error "TypeError" :=
  ⟨rfl, rfl⟩

theorem interestOptions_keys :
    ∀ interest ∈ interestOptions, attractionTypesAt
      (replaceFirst (replaceFirst (asciiToLower interest) " & " "_") " " "_") ≠ .inherited := by
  decide

/-- Witness for C30: the ten interest labels of the forms, every draw `1/2`. -/
theorem getNearbyAttractions_four_witness :
    (∀ k : Nat, (0 : ℚ) ≤ (fun _ => (1 / 2 : ℚ)) k ∧ (fun _ => (1 / 2 : ℚ)) k < 1) ∧
    (∀ interest ∈ interestOptions, attractionTypesAt
      (replaceFirst (replaceFirst (asciiToLower interest) " & " "_") " " "_") ≠ .inherited) ∧
    ∃ attractions k,
      getNearbyAttractions asciiToLower (fun _ => "4.0") (fun _ => 1 / 2) interestOptions
          (48.8566) (2.3522) "Paris" = .ok attractions ∧
      attractions.length = 4 ∧ attractions.map (fun a => a.id) = [1, 2, 3, 4] ∧
      k ≤ 3 ∧ (∀ a ∈ attractions.take k, a.category ∈ interestOptions) ∧
      (attractions.drop k).map
          (fun a => (a.name, a.type, a.description, a.category, a.estimatedCost, a.rating))
        = ((generalAttractions "Paris").take (4 - k)).map
            (fun g => (g.name, g.type, g.description, g.category, g.estimatedCost,
              g.rating)) :=
  ⟨fun _ => ⟨by norm_num, by norm_num⟩, interestOptions_keys,
    getNearbyAttractions_four asciiToLower (fun _ => "4.0") (fun _ => 1 / 2) interestOptions
      (48.8566) (2.3522) "Paris" (fun _ => ⟨by norm_num, by norm_num⟩) interestOptions_keys⟩

end Attractions

section RouteWitnesses

/-- Witness for C1: the haversine distance, the start `[48.85, 2.35]` and two
stops near it. -/
theorem optimizeRoute_starts_and_ends_at_start_witness :
    2 ≤ [((48.86 : ℝ), (2.34 : ℝ)), (48.84, 2.36)].length ∧
    ∃ route, optimizeRoute calculateDistance
        ((48.85, 2.35) :: [(48.86, 2.34), (48.84, 2.36)]) = some route ∧
      route.head? = some (48.85, 2.35) ∧ route.getLast? = some (48.85, 2.35) :=
  ⟨by decide,
    optimizeRoute_starts_and_ends_at_start calculateDistance (48.85, 2.35)
      [(48.86, 2.34), (48.84, 2.36)] (by decide)⟩

/-- Witness for C2: the haversine distance, the start `[0, 0]` and three stops. -/
theorem optimizeRoute_visits_each_stop_once_witness :
    2 ≤ [((0 : ℝ), (-3 : ℝ)), (0, 2), (0, 8)].length ∧
    ∃ route, optimizeRoute calculateDistance ((0, 0) :: [(0, -3), (0, 2), (0, 8)])
        = some route ∧
      route.length = [((0 : ℝ), (-3 : ℝ)), (0, 2), (0, 8)].length + 2 ∧
      List.Perm route.tail.dropLast [(0, -3), (0, 2), (0, 8)] :=
  ⟨by decide,
    optimizeRoute_visits_each_stop_once calculateDistance (0, 0) [(0, -3), (0, 2), (0, 8)]
      (by decide)⟩

/-- Witness for C3: position `2` of the route from `0` through three stops of a
line. -/
theorem optimizeRoute_picks_first_nearest_witness :
    2 ≤ [(-3 : ℚ), 2, 8].length ∧
    (∀ p ∈ (0 : ℚ) :: [-3, 2, 8], ∀ q ∈ (0 : ℚ) :: [-3, 2, 8], lineDistance p q ≠ .nan) ∧
    1 ≤ 2 ∧ 2 ≤ [(-3 : ℚ), 2, 8].length ∧
    ∃ route remaining current chosen i,
      optimizeRoute lineDistance ((0 : ℚ) :: [-3, 2, 8]) = some route ∧
      whileStates lineDistance (2 - 1) ([(0 : ℚ)], [-3, 2, 8])
        = some (route.take 2, remaining) ∧
      List.Perm remaining (route.drop 2).dropLast ∧
      List.Sublist remaining [(-3 : ℚ), 2, 8] ∧
      route[2 - 1]? = some current ∧ route[2]? = some chosen ∧
      remaining[i]? = some chosen ∧
      (∀ q ∈ remaining, (lineDistance current chosen).le (lineDistance current q) = true) ∧
      ∀ (j : Nat) (q : ℚ), j < i → remaining[j]? = some q →
        (lineDistance current chosen).lt (lineDistance current q) = true :=
  ⟨by decide, fun _ _ _ _ h => JSNum.noConfusion h, by decide, by decide,
    optimizeRoute_picks_first_nearest lineDistance 0 [-3, 2, 8] (by decide)
      (fun _ _ _ _ h => JSNum.noConfusion h) 2 (by decide) (by decide)⟩

/-- Witness for C4: the route from `0` through three stops of a line. -/
theorem optimizeRoute_first_leg_shortest_witness :
    2 ≤ [(-3 : ℚ), 2, 8].length ∧
    (∀ p ∈ (0 : ℚ) :: [-3, 2, 8], ∀ q ∈ (0 : ℚ) :: [-3, 2, 8], lineDistance p q ≠ .nan) ∧
    ∃ route first, optimizeRoute lineDistance ((0 : ℚ) :: [-3, 2, 8]) = some route ∧
      route[0]? = some 0 ∧ route[1]? = some first ∧ first ∈ [(-3 : ℚ), 2, 8] ∧
      (∀ q ∈ [(-3 : ℚ), 2, 8], (lineDistance 0 first).le (lineDistance 0 q) = true) ∧
      (∀ a b, [(-3 : ℚ), 2, 8] = [a, b] →
        route = if (lineDistance 0 b).lt (lineDistance 0 a) = true then [0, b, a, 0]
          else [0, a, b, 0]) :=
  ⟨by decide, fun _ _ _ _ h => JSNum.noConfusion h,
    optimizeRoute_first_leg_shortest lineDistance 0 [-3, 2, 8] (by decide)
      (fun _ _ _ _ h => JSNum.noConfusion h)⟩

/-- Witness for C28: the start and a single stop. -/
theorem optimizeRoute_short_input_witness :
    [((48.85 : ℝ), (2.35 : ℝ)), (48.86, 2.34)].length ≤ 2 ∧
    optimizeRoute calculateDistance [(48.85, 2.35), (48.86, 2.34)]
      = some [(48.85, 2.35), (48.86, 2.34)] :=
  ⟨by decide,
    (optimizeRoute_short_input calculateDistance [(48.85, 2.35), (48.86, 2.34)]
      (by decide)).1⟩

end RouteWitnesses

end TravelPlanner
